import Mathlib

/-!
# Catapult: chain-sync consumer and account-state cache delta

A shallow embedding of the block-chain synchronization core of the catapult
server.  Machine integers (heights, amounts, difficulties, hashes, keys and
addresses) are natural numbers (Nat); no arithmetic in the embedded code can
overflow.  Stateful C++ code is written in explicit state-passing style.
-/

namespace catapult

/-! ## Chain-sync consumer (src/tests/catapult/consumers/BlockChainSyncConsumerTests.cpp) -/

namespace consumers

/-- Source of a consumer input (disruptor::InputSource). -/
inductive InputSource where
  | Unknown
  | Local
  | Remote_Pull
  | Remote_Push
  deriving DecidableEq

/-- Result of a validation (validators::ValidationResult) as returned by the processor. -/
inductive ValidationResult where
  | Success
  | Neutral
  | Failure
  deriving DecidableEq

/-- Abort codes surfaced by the consumer: the three consumer failures and any
processor result that is propagated verbatim. -/
inductive AbortCode where
  | Failure_Consumer_Remote_Chain_Unlinked
  | Failure_Consumer_Remote_Chain_Mismatched_Difficulties
  | Failure_Consumer_Remote_Chain_Score_Not_Better
  | ProcessorResult (result : ValidationResult)
  deriving DecidableEq

/-- Completion status of a consumer call (disruptor::ConsumerResult). -/
inductive ConsumerResult where
  | Continued
  | Aborted (code : AbortCode)
  deriving DecidableEq

/-- Block header fields the consumer and its tests read (SetBlockHeight sets all three). -/
structure Block where
  Height : Nat
  Timestamp : Nat
  Difficulty : Nat
  deriving DecidableEq

/-- Transaction element: an opaque transaction together with its entity hash. -/
structure TransactionElement where
  Transaction : Nat
  EntityHash : Nat
  deriving DecidableEq

/-- Transaction info handed to the TransactionsChange handler. -/
structure TransactionInfo where
  pEntity : Nat
  EntityHash : Nat
  deriving DecidableEq

/-- Block element: a block with its derived hashes and its transaction elements. -/
structure BlockElement where
  Block : Block
  EntityHash : Nat
  GenerationHash : Nat
  Transactions : List TransactionElement
  deriving DecidableEq

/-- Catapult state: the last importance recalculation marker. -/
structure CatapultState where
  LastRecalculationHeight : Nat
  deriving DecidableEq

/-- Observer state handed to UndoBlock and to the processor: the open cache
delta and the (copied) catapult state.  The cache is opaque to the consumer and
is a type parameter. -/
structure ObserverState (κ : Type) where
  Cache : κ
  State : CatapultState

/-- Everything a sync may change: the committed cache, the catapult state and
the block storage.  The storage holds the block of height h at index h - 1. -/
structure NodeState (κ : Type) where
  Cache : κ
  State : CatapultState
  Storage : List BlockElement

/-- Handlers injected into the consumer (BlockChainSyncHandlers).  The processor
returns, besides its result and the new observer state, the generation hashes it
writes into the input elements (the in/out parameter as a structured return).
StateChange and TransactionsChange are sinks; their invocations are recorded in
the call log. -/
structure BlockChainSyncHandlers (κ : Type) where
  DifficultyChecker : List Block → κ → Bool
  UndoBlock : BlockElement → ObserverState κ → ObserverState κ
  Processor : BlockElement → List BlockElement → ObserverState κ →
    ValidationResult × List Nat × ObserverState κ

/-- One handler invocation together with the arguments it received. -/
inductive Call (κ : Type) where
  | DifficultyChecker (blocks : List Block) (cache : κ)
  | UndoBlock (blockElement : BlockElement) (state : ObserverState κ)
  | Processor (parentBlockInfo : BlockElement) (elements : List BlockElement)
      (state : ObserverState κ)
  | StateChange (scoreDelta : Int) (cacheDelta : κ) (height : Nat)
  | TransactionsChange (addedTransactionHashes : List Nat)
      (revertedTransactionInfos : List TransactionInfo)

/-- Consumer input: an ordered, non-empty sequence of block elements tagged with its source. -/
structure ConsumerInput where
  first : BlockElement
  rest : List BlockElement
  source : InputSource

/-- All block elements of an input. -/
def ConsumerInput.blocks (input : ConsumerInput) : List BlockElement :=
  input.first :: input.rest

/-- What a consumer call leaves behind: its result, the node state, the log of
handler invocations in call order, and the input elements as the call left them. -/
structure SyncOutcome (κ : Type) where
  Result : ConsumerResult
  Node : NodeState κ
  Calls : List (Call κ)
  Elements : List BlockElement

/-- Storage view: height of the stored chain. -/
def chainHeight (storage : List BlockElement) : Nat :=
  storage.length

/-- Storage view: block element stored at a height, if any. -/
def loadBlockElement (storage : List BlockElement) (height : Nat) : Option BlockElement :=
  if height = 0 then none else storage[height - 1]?

/-- Storage modifier: drops every block after a height. -/
def dropBlocksAfter (storage : List BlockElement) (height : Nat) : List BlockElement :=
  storage.take height

/-- Storage modifier: appends a block element. -/
def saveBlock (storage : List BlockElement) (blockElement : BlockElement) : List BlockElement :=
  storage ++ [blockElement]

/-- Blocks of a list of block elements (ExtractBlocks). -/
def ExtractBlocks (elements : List BlockElement) : List Block :=
  elements.map (fun element => element.Block)

/-- Transaction hashes of a list of block elements, in block order. -/
def ExtractTransactionHashes (elements : List BlockElement) : List Nat :=
  elements.flatMap (fun element => element.Transactions.map (fun tx => tx.EntityHash))

/-- Transaction infos of a list of block elements, in block order. -/
def ExtractTransactionInfos (elements : List BlockElement) : List TransactionInfo :=
  elements.flatMap (fun element =>
    element.Transactions.map (fun tx => TransactionInfo.mk tx.Transaction tx.EntityHash))

/-- Hashes of a list of transaction infos (MockTransactionsChange::CopyHashes). -/
def CopyHashes (transactionInfos : List TransactionInfo) : List Nat :=
  transactionInfos.map (fun info => info.EntityHash)

/-- Modelled from the spec: the consumer implementation (BlockChainSyncConsumer.cpp)
is missing; this is its height pre-check P1-P3.  The peer chain must not start at
the nemesis block (P1), must connect to the local chain (P2) and, unless it was
pulled, must not start below the local tip (P3).  The boundary of P3 follows the
tests: RemoteChainWithHeightAtOrOneGreaterThanLocalHeightIsValidForAllSources
accepts a first height equal to the local height for every source, and
RemoteChainWithHeightLessThanLocalHeightIsOnlyValidForRemotePullSource rejects
strictly smaller first heights for sources other than Remote_Pull. -/
def IsLinked (peerStartHeight localChainHeight : Nat) (source : InputSource) : Bool :=
  decide (2 ≤ peerStartHeight)
    && decide (peerStartHeight ≤ localChainHeight + 1)
    && (decide (source = InputSource.Remote_Pull) || decide (localChainHeight ≤ peerStartHeight))

/-- Modelled from the spec: the unwinder of the missing consumer implementation.
It is given the local blocks to unwind, tip first, and invokes UndoBlock on each
in turn, threading the observer state; it returns the invocations and the
observer state after the last undo. -/
def unwindLocalChain {κ : Type} (UndoBlock : BlockElement → ObserverState κ → ObserverState κ) :
    List BlockElement → ObserverState κ → List (Call κ) × ObserverState κ
  | [], state => ([], state)
  | blockElement :: remaining, state =>
    let result := unwindLocalChain UndoBlock remaining (UndoBlock blockElement state)
    (Call.UndoBlock blockElement state :: result.1, result.2)

/-- Writes the generation hashes returned by the processor into the elements, position by position. -/
def updateGenerationHashes : List BlockElement → List Nat → List BlockElement
  | [], _ => []
  | element :: elements, [] => element :: elements
  | element :: elements, generationHash :: hashes =>
    { element with GenerationHash := generationHash } :: updateGenerationHashes elements hashes

/-- Modelled from the spec: reverted transaction infos of the missing consumer
implementation: the infos of the unwound blocks minus those whose hash is also
an added hash. -/
def CollectRevertedTransactionInfos (addedTransactionHashes : List Nat)
    (removedTransactionInfos : List TransactionInfo) : List TransactionInfo :=
  removedTransactionInfos.filter (fun info => decide (info.EntityHash ∉ addedTransactionHashes))

/-- Modelled from the spec: the stages of the missing consumer implementation
(BlockChainSyncConsumer.cpp; only its tests are present) that follow the
difficulty check, given the common block element (the parent of the first
candidate).  The score function of the chain (parent block, blocks) is a
parameter.  Order of the stages: unwind, score comparison, processor, commit;
the tests ChainWithSmallerScoreIsRejected and ChainWithIdenticalScoreIsRejected
fix that the score is compared after the unwind and before the processor runs.
On every abort the node state is the one the call started with (the cache
delta and the state copy are discarded).  Commit: the unwound blocks are
dropped from storage and the candidate elements appended, the cache delta and
the state copy replace the committed ones, StateChange is raised with the
score delta, the cache delta and the new chain height, and TransactionsChange
with the candidate hashes and the reverted infos. -/
def syncFromCommonBlock {κ : Type} (handlers : BlockChainSyncHandlers κ)
    (CalculateChainScore : Block → List Block → Nat) (node : NodeState κ)
    (input : ConsumerInput) (commonBlockElement : BlockElement) : SyncOutcome κ :=
  let elements := input.blocks
  let blocks := ExtractBlocks elements
  let difficultyCall := Call.DifficultyChecker blocks node.Cache
  let commonBlockHeight := input.first.Block.Height - 1
  let unwoundElements := node.Storage.drop commonBlockHeight
  let unwindResult := unwindLocalChain handlers.UndoBlock unwoundElements.reverse
    (ObserverState.mk node.Cache node.State)
  let localScore := CalculateChainScore commonBlockElement.Block (ExtractBlocks unwoundElements)
  let peerScore := CalculateChainScore commonBlockElement.Block blocks
  let scoreDelta : Int := (peerScore : Int) - (localScore : Int)
  if scoreDelta ≤ 0 then
    { Result := ConsumerResult.Aborted AbortCode.Failure_Consumer_Remote_Chain_Score_Not_Better
      Node := node
      Calls := difficultyCall :: unwindResult.1
      Elements := elements }
  else
    let processorResult := handlers.Processor commonBlockElement elements unwindResult.2
    let processorCall := Call.Processor commonBlockElement elements unwindResult.2
    let processedElements := updateGenerationHashes elements processorResult.2.1
    if processorResult.1 = ValidationResult.Success then
      let newStorage := processedElements.foldl saveBlock
        (dropBlocksAfter node.Storage commonBlockHeight)
      let newHeight := chainHeight newStorage
      let addedTransactionHashes := ExtractTransactionHashes processedElements
      let revertedTransactionInfos := CollectRevertedTransactionInfos addedTransactionHashes
        (ExtractTransactionInfos unwoundElements.reverse)
      { Result := ConsumerResult.Continued
        Node := {
          Cache := processorResult.2.2.Cache
          State := processorResult.2.2.State
          Storage := newStorage }
        Calls := difficultyCall :: unwindResult.1 ++ [
          processorCall,
          Call.StateChange scoreDelta processorResult.2.2.Cache newHeight,
          Call.TransactionsChange addedTransactionHashes revertedTransactionInfos]
        Elements := processedElements }
    else
      { Result := ConsumerResult.Aborted (AbortCode.ProcessorResult processorResult.1)
        Node := node
        Calls := difficultyCall :: unwindResult.1 ++ [processorCall]
        Elements := processedElements }

/-- Modelled from the spec: the chain-sync consumer (BlockChainSyncConsumer.cpp is
missing; only its tests are present): height pre-check, then the difficulty
check against the committed cache, then the stages of syncFromCommonBlock on
the stored parent of the first candidate.  A failed pre-check aborts with
RemoteChainUnlinked before any handler is called, a failed difficulty check
with MismatchedDifficulties; both leave the node state untouched. -/
def BlockChainSyncConsumer {κ : Type} (handlers : BlockChainSyncHandlers κ)
    (CalculateChainScore : Block → List Block → Nat) (node : NodeState κ)
    (input : ConsumerInput) : SyncOutcome κ :=
  if hLinked : IsLinked input.first.Block.Height (chainHeight node.Storage) input.source = true then
    if handlers.DifficultyChecker (ExtractBlocks input.blocks) node.Cache = true then
      syncFromCommonBlock handlers CalculateChainScore node input
        (node.Storage.get ⟨input.first.Block.Height - 2, by
          simp only [IsLinked, chainHeight, Bool.and_eq_true, decide_eq_true_eq] at hLinked
          omega⟩)
    else
      { Result := ConsumerResult.Aborted
          AbortCode.Failure_Consumer_Remote_Chain_Mismatched_Difficulties
        Node := node
        Calls := [Call.DifficultyChecker (ExtractBlocks input.blocks) node.Cache]
        Elements := input.blocks }
  else
    { Result := ConsumerResult.Aborted AbortCode.Failure_Consumer_Remote_Chain_Unlinked
      Node := node
      Calls := []
      Elements := input.blocks }

/-- The local blocks a sync unwinds: the stored blocks from the first candidate height on. -/
def unwoundElements {κ : Type} (node : NodeState κ) (input : ConsumerInput) : List BlockElement :=
  node.Storage.drop (input.first.Block.Height - 1)

/-- Score delta of a sync relative to a common block: score of the candidate
blocks minus score of the unwound local blocks. -/
def scoreDelta {κ : Type} (CalculateChainScore : Block → List Block → Nat) (node : NodeState κ)
    (input : ConsumerInput) (commonBlockElement : BlockElement) : Int :=
  (CalculateChainScore commonBlockElement.Block (ExtractBlocks input.blocks) : Int)
    - (CalculateChainScore commonBlockElement.Block (ExtractBlocks (unwoundElements node input)) : Int)

/-- Whether a call is one of the two notifications (StateChange, TransactionsChange). -/
def Call.isNotification {κ : Type} : Call κ → Bool
  | Call.StateChange _ _ _ => true
  | Call.TransactionsChange _ _ => true
  | _ => false

/-- Arguments of a DifficultyChecker call. -/
def Call.difficultyChecker? {κ : Type} : Call κ → Option (List Block × κ)
  | Call.DifficultyChecker blocks cache => some (blocks, cache)
  | _ => none

/-- Arguments of an UndoBlock call. -/
def Call.undoBlock? {κ : Type} : Call κ → Option (BlockElement × ObserverState κ)
  | Call.UndoBlock blockElement state => some (blockElement, state)
  | _ => none

/-- Arguments of a Processor call. -/
def Call.processor? {κ : Type} :
    Call κ → Option (BlockElement × List BlockElement × ObserverState κ)
  | Call.Processor parentBlockInfo elements state => some (parentBlockInfo, elements, state)
  | _ => none

/-- Arguments of a StateChange call. -/
def Call.stateChange? {κ : Type} : Call κ → Option (Int × κ × Nat)
  | Call.StateChange scoreDelta cacheDelta height => some (scoreDelta, cacheDelta, height)
  | _ => none

/-- Arguments of a TransactionsChange call. -/
def Call.transactionsChange? {κ : Type} : Call κ → Option (List Nat × List TransactionInfo)
  | Call.TransactionsChange added reverted => some (added, reverted)
  | _ => none

/-! ### Test context of BlockChainSyncConsumerTests.cpp -/

namespace test

/-- Cache of the test context as far as the mocks touch it: the public keys in
the account state cache and the heights of the infos in the block difficulty cache. -/
structure TestCache where
  AccountStateCache : List Nat
  BlockDifficultyCache : List Nat
  deriving DecidableEq

/-- Default difficulty (Difficulty().unwrap()); the value is not part of the sources. -/
def Base_Difficulty : Nat := 100000000000000

def Initial_Last_Recalculation_Height : Nat := 1234

def Modified_Last_Recalculation_Height : Nat := 7777

/-- Sentinel key added by the mock processor (drawn at random in the tests). -/
def Sentinel_Processor_Public_Key : Nat := 5150

/-- Key of the marker account of CreateCatapultCacheWithMarkerAccount. -/
def Marker_Public_Key : Nat := 77

/-- Inserts a value into a set kept as a list. -/
def setInsert (value : Nat) (set : List Nat) : List Nat :=
  if value ∈ set then set else set ++ [value]

/-- MockDifficultyChecker: returns its configured result. -/
def MockDifficultyChecker (m_result : Bool) : List Block → TestCache → Bool :=
  fun _ _ => m_result

/-- MockUndoBlock: inserts a difficulty info at height size + 1 and increments the marker. -/
def MockUndoBlock : BlockElement → ObserverState TestCache → ObserverState TestCache :=
  fun _ state =>
    { Cache := { state.Cache with
        BlockDifficultyCache :=
          setInsert (state.Cache.BlockDifficultyCache.length + 1) state.Cache.BlockDifficultyCache }
      State := { LastRecalculationHeight := state.State.LastRecalculationHeight + 1 } }

/-- MockProcessor: adds the sentinel account, sets the marker and rewrites every
generation hash to the block height (as a byte). -/
def MockProcessor (m_result : ValidationResult) :
    BlockElement → List BlockElement → ObserverState TestCache →
      ValidationResult × List Nat × ObserverState TestCache :=
  fun _ elements state =>
    (m_result,
      elements.map (fun element => element.Block.Height % 256),
      { Cache := { state.Cache with
          AccountStateCache := setInsert Sentinel_Processor_Public_Key state.Cache.AccountStateCache }
        State := { LastRecalculationHeight := Modified_Last_Recalculation_Height } })

/-- Handlers of ConsumerTestContext. -/
def Handlers (difficultyResult : Bool) (processorResult : ValidationResult) :
    BlockChainSyncHandlers TestCache :=
  { DifficultyChecker := MockDifficultyChecker difficultyResult
    UndoBlock := MockUndoBlock
    Processor := MockProcessor processorResult }

/-- SetBlockHeight: timestamp 1000 * height, default difficulty. -/
def SetBlockHeight (height : Nat) : Block :=
  { Height := height, Timestamp := height * 1000, Difficulty := Base_Difficulty }

/-- Block element seeded at a height with the given number of transactions; the
random hashes of the tests are the distinct numbers 100 * height + index. -/
def SeedBlockElement (numTransactionsPerBlock height : Nat) : BlockElement :=
  { Block := SetBlockHeight height
    EntityHash := 10000 + height
    GenerationHash := 0
    Transactions := (List.range numTransactionsPerBlock).map
      (fun index => { Transaction := 100 * height + index, EntityHash := 100 * height + index }) }

/-- seedStorage: the nemesis block followed by blocks at heights 2 .. desiredHeight. -/
def seedStorage (desiredHeight : Nat) (numTransactionsPerBlock : Nat) : List BlockElement :=
  SeedBlockElement 0 1 ::
    (List.range (desiredHeight - 1)).map (fun i => SeedBlockElement numTransactionsPerBlock (i + 2))

/-- ConsumerTestContext after seedStorage: marked cache, initial marker, seeded storage. -/
def Context (desiredHeight numTransactionsPerBlock : Nat) : NodeState TestCache :=
  { Cache := { AccountStateCache := [Marker_Public_Key], BlockDifficultyCache := [] }
    State := { LastRecalculationHeight := Initial_Last_Recalculation_Height }
    Storage := seedStorage desiredHeight numTransactionsPerBlock }

/-- Input block element at a height with given difficulty and transaction hashes. -/
def InputElement (height difficulty : Nat) (hashes : List Nat) : BlockElement :=
  { Block := { Height := height, Timestamp := height * 1000, Difficulty := difficulty }
    EntityHash := 20000 + height
    GenerationHash := 0
    Transactions := hashes.map (fun hash => { Transaction := hash, EntityHash := hash }) }

/-- CreateInput: numBlocks (at least one) blocks without transactions at consecutive heights. -/
def CreateInput (startHeight : Nat) (numBlocks : Nat) (source : InputSource) : ConsumerInput :=
  { first := InputElement startHeight Base_Difficulty []
    rest := (List.range (numBlocks - 1)).map
      (fun i => InputElement (startHeight + 1 + i) Base_Difficulty [])
    source := source }

/-- Input of the test CanSyncIncompatibleChainsWithSharedTransacions_TransactionNotification:
candidates 5-8 with one, zero, three and two fresh transactions, plus the stored
transaction 2 of block 5 added to element 2 and the stored transaction 1 of
block 7 added to element 0. -/
def SharedTransactionsInput : ConsumerInput :=
  { first := InputElement 5 Base_Difficulty [9001, 701]
    rest := [
      InputElement 6 Base_Difficulty [],
      InputElement 7 Base_Difficulty [9002, 9003, 9004, 502],
      InputElement 8 Base_Difficulty [9005, 9006]]
    source := InputSource.Remote_Pull }

/-- Input of the test CanSyncIncompatibleChainsWhereShorterRemoteChainHasHigherScore:
a single candidate at height 5 with three times the base difficulty. -/
def HeavierInput : ConsumerInput :=
  { first := InputElement 5 (Base_Difficulty * 3) []
    rest := []
    source := InputSource.Remote_Pull }

/-- Modelled from the spec: score of a block relative to its parent
(chain::CalculateScore is missing): the difficulty minus the seconds elapsed
since the parent, so that a block of difficulty base one second after its
parent scores base - 1 (scenario 1 of the end-to-end scenarios). -/
def CalculateScore (parentBlock currentBlock : Block) : Nat :=
  if currentBlock.Timestamp ≤ parentBlock.Timestamp then 0
  else currentBlock.Difficulty - (currentBlock.Timestamp - parentBlock.Timestamp) / 1000

/-- Modelled from the spec: score of consecutive blocks following a parent
(chain::CalculatePartialChainScore is missing): the sum of the block scores. -/
def CalculateChainScore (parentBlock : Block) : List Block → Nat
  | [] => 0
  | block :: blocks => CalculateScore parentBlock block + CalculateChainScore block blocks

end test

end consumers

/-! ## Account state (state::AccountState, as used by the cache sources) -/

namespace state

/-- Account type (state::AccountType). -/
inductive AccountType where
  | Unlinked
  | Main
  | Remote
  deriving DecidableEq

/-- Modelled from the spec: account balances (state/AccountBalances.h is
missing): a mapping mosaic id to amount together with the optimized mosaic id. -/
structure AccountBalances where
  balances : List (Nat × Nat)
  optimizedMosaicId : Nat
  deriving DecidableEq

/-- Modelled from the spec: registers a mosaic id as the optimized balance slot. -/
def AccountBalances.optimize (balances : AccountBalances) (mosaicId : Nat) : AccountBalances :=
  { balances with optimizedMosaicId := mosaicId }

/-- Modelled from the spec: balance of a mosaic, zero when the mosaic is not held. -/
def AccountBalances.get (balances : AccountBalances) (mosaicId : Nat) : Nat :=
  match balances.balances.find? (fun pair => decide (pair.1 = mosaicId)) with
  | some pair => pair.2
  | none => 0

/-- Modelled from the spec: the importance snapshot of an account
(state/AccountImportanceSnapshots.h is missing): the current importance and the
importance height at which it was set. -/
structure AccountImportanceSnapshots where
  current : Nat
  height : Nat
  deriving DecidableEq

/-- Account state: the fields the cache sources read and write.  The zero key
(Key()) is 0; a public key height of 0 means that no public key is known. -/
structure AccountState where
  Address : Nat
  AddressHeight : Nat
  PublicKey : Nat
  PublicKeyHeight : Nat
  AccountType : AccountType
  LinkedPublicKey : Option Nat
  Balances : AccountBalances
  ImportanceSnapshots : AccountImportanceSnapshots
  deriving DecidableEq

/-- Constructor AccountState(address, height): no public key, unlinked, no balances. -/
def AccountState.create (address height : Nat) : AccountState :=
  { Address := address
    AddressHeight := height
    PublicKey := 0
    PublicKeyHeight := 0
    AccountType := AccountType.Unlinked
    LinkedPublicKey := none
    Balances := { balances := [], optimizedMosaicId := 0 }
    ImportanceSnapshots := { current := 0, height := 0 } }

end state

/-! ## Account state cache delta (src/catapult/cache_core/AccountStateCacheDelta.cpp) -/

namespace cache

open state

/-- Options of the account state cache (AccountStateCacheTypes::Options). -/
structure Options where
  NetworkIdentifier : Nat
  ImportanceGrouping : Nat
  MinHarvesterBalance : Nat
  MaxHarvesterBalance : Nat
  CurrencyMosaicId : Nat
  HarvestingMosaicId : Nat
  deriving DecidableEq

/-- Modelled from the spec: the primary set keyed by address (the base set delta
is missing): lookup of the account state stored under an address. -/
def PrimarySet.find (set : List AccountState) (address : Nat) : Option AccountState :=
  set.find? (fun accountState => decide (accountState.Address = address))

/-- Modelled from the spec: insertion into the primary set; an element whose
address is already present is not inserted again. -/
def PrimarySet.insert (set : List AccountState) (accountState : AccountState) :
    List AccountState :=
  if (PrimarySet.find set accountState.Address).isSome then set else accountState :: set

/-- Modelled from the spec: removal of the element stored under an address. -/
def PrimarySet.remove (set : List AccountState) (address : Nat) : List AccountState :=
  set.filter (fun accountState => decide (accountState.Address ≠ address))

/-- Modelled from the spec: write access to the element stored under an address
(the reference handed out by a find iterator). -/
def PrimarySet.modify (set : List AccountState) (address : Nat)
    (update : AccountState → AccountState) : List AccountState :=
  set.map (fun accountState => if accountState.Address = address then update accountState
    else accountState)

/-- Modelled from the spec: the secondary index keyed by public key (the base
set delta is missing): address stored under a public key. -/
def KeyLookupMap.find : List (Nat × Nat) → Nat → Option Nat
  | [], _ => none
  | pair :: pairs, publicKey =>
    if pair.1 = publicKey then some pair.2 else KeyLookupMap.find pairs publicKey

/-- Modelled from the spec: emplace into the secondary index; a key that is
already present keeps its address. -/
def KeyLookupMap.emplace (map : List (Nat × Nat)) (publicKey address : Nat) : List (Nat × Nat) :=
  if (KeyLookupMap.find map publicKey).isSome then map else (publicKey, address) :: map

/-- Modelled from the spec: removal of a public key from the secondary index. -/
def KeyLookupMap.remove (map : List (Nat × Nat)) (publicKey : Nat) : List (Nat × Nat) :=
  map.filter (fun pair => decide (pair.1 ≠ publicKey))

/-- Modelled from the spec: emplace into an ordered set of (height, id) pairs
(std::set of pairs): lexicographic order, no duplicates. -/
def QueuedRemovals.emplace : List (Nat × Nat) → Nat × Nat → List (Nat × Nat)
  | [], entry => [entry]
  | head :: tail, entry =>
    if entry = head then head :: tail
    else if entry.1 < head.1 ∨ (entry.1 = head.1 ∧ entry.2 < head.2) then entry :: head :: tail
    else head :: QueuedRemovals.emplace tail entry

/-- Modelled from the spec: erase of a (height, id) pair from an ordered set. -/
def QueuedRemovals.erase (queue : List (Nat × Nat)) (entry : Nat × Nat) : List (Nat × Nat) :=
  queue.filter (fun queued => decide (queued ≠ entry))

/-- State of BasicAccountStateCacheDelta: the primary set, the key lookup map,
the options and the two removal queues.  The primary set delta is kept as its
current elements (m_pStateByAddress) together with the committed elements it
was opened on (m_originalStateByAddress); m_highValueAccounts holds the
addresses of the committed high value accounts handed to the constructor. -/
structure BasicAccountStateCacheDelta where
  m_pStateByAddress : List AccountState
  m_pKeyToAddress : List (Nat × Nat)
  m_options : Options
  m_queuedRemoveByAddress : List (Nat × Nat)
  m_queuedRemoveByPublicKey : List (Nat × Nat)
  m_originalStateByAddress : List AccountState := []
  m_highValueAccounts : List Nat := []
  deriving DecidableEq

namespace BasicAccountStateCacheDelta

/-- Accessor find(address). -/
def findByAddress (delta : BasicAccountStateCacheDelta) (address : Nat) : Option AccountState :=
  PrimarySet.find delta.m_pStateByAddress address

/-- Accessor contains(address). -/
def contains (delta : BasicAccountStateCacheDelta) (address : Nat) : Bool :=
  (delta.findByAddress address).isSome

/-- Modelled from the spec: accessor find(publicKey) (the key lookup adapter is
missing): the lookup goes through the secondary index and then the primary set. -/
def findByPublicKey (delta : BasicAccountStateCacheDelta) (publicKey : Nat) :
    Option AccountState :=
  match KeyLookupMap.find delta.m_pKeyToAddress publicKey with
  | some address => PrimarySet.find delta.m_pStateByAddress address
  | none => none

/-- BasicAccountStateCacheDelta::getAddress; model::PublicKeyToAddress is a parameter. -/
def getAddress (PublicKeyToAddress : Nat → Nat → Nat) (delta : BasicAccountStateCacheDelta)
    (publicKey : Nat) : Nat × BasicAccountStateCacheDelta :=
  match KeyLookupMap.find delta.m_pKeyToAddress publicKey with
  | some address => (address, delta)
  | none =>
    let address := PublicKeyToAddress publicKey delta.m_options.NetworkIdentifier
    (address,
      { delta with m_pKeyToAddress := KeyLookupMap.emplace delta.m_pKeyToAddress publicKey address })

/-- BasicAccountStateCacheDelta::addAccount(const state::AccountState&). -/
def addAccountState (delta : BasicAccountStateCacheDelta) (accountState : AccountState) :
    BasicAccountStateCacheDelta :=
  if delta.contains accountState.Address = true then delta
  else
    let keyToAddress :=
      if 0 ≠ accountState.PublicKeyHeight then
        KeyLookupMap.emplace delta.m_pKeyToAddress accountState.PublicKey accountState.Address
      else delta.m_pKeyToAddress
    let inserted := PrimarySet.insert delta.m_pStateByAddress accountState
    { delta with
      m_pKeyToAddress := keyToAddress
      m_pStateByAddress := PrimarySet.modify inserted accountState.Address
        (fun stored =>
          { stored with Balances := stored.Balances.optimize delta.m_options.CurrencyMosaicId }) }

/-- BasicAccountStateCacheDelta::addAccount(const Address&, Height). -/
def addAccountByAddress (delta : BasicAccountStateCacheDelta) (address height : Nat) :
    BasicAccountStateCacheDelta :=
  if delta.contains address = true then delta
  else delta.addAccountState (AccountState.create address height)

/-- BasicAccountStateCacheDelta::addAccount(const Key&, Height).  The lookup after
addAccount(address, height) always finds the account. -/
def addAccountByPublicKey (PublicKeyToAddress : Nat → Nat → Nat)
    (delta : BasicAccountStateCacheDelta) (publicKey height : Nat) :
    BasicAccountStateCacheDelta :=
  let addressAndDelta := getAddress PublicKeyToAddress delta publicKey
  let address := addressAndDelta.1
  let added := addressAndDelta.2.addAccountByAddress address height
  match added.findByAddress address with
  | none => added
  | some accountStateConst =>
    if 0 ≠ accountStateConst.PublicKeyHeight then added
    else
      { added with
        m_pStateByAddress := PrimarySet.modify added.m_pStateByAddress address
          (fun accountState =>
            { accountState with PublicKey := publicKey, PublicKeyHeight := height }) }

/-- BasicAccountStateCacheDelta::remove(const Address&, Height). -/
def removeByAddress (delta : BasicAccountStateCacheDelta) (address height : Nat) :
    BasicAccountStateCacheDelta :=
  match delta.findByAddress address with
  | none => delta
  | some accountState =>
    if height ≠ accountState.AddressHeight then delta
    else
      let keyToAddress :=
        if 0 ≠ accountState.PublicKeyHeight then
          KeyLookupMap.remove delta.m_pKeyToAddress accountState.PublicKey
        else delta.m_pKeyToAddress
      { delta with
        m_pKeyToAddress := keyToAddress
        m_pStateByAddress := PrimarySet.remove delta.m_pStateByAddress address }

/-- BasicAccountStateCacheDelta::remove(const Key&, Height). -/
def removeByPublicKey (delta : BasicAccountStateCacheDelta) (publicKey height : Nat) :
    BasicAccountStateCacheDelta :=
  match delta.findByPublicKey publicKey with
  | none => delta
  | some accountState =>
    if height ≠ accountState.PublicKeyHeight then delta
    else
      let keyToAddress := KeyLookupMap.remove delta.m_pKeyToAddress accountState.PublicKey
      if accountState.PublicKeyHeight = accountState.AddressHeight then
        { delta with
          m_pKeyToAddress := keyToAddress
          m_pStateByAddress := PrimarySet.remove delta.m_pStateByAddress accountState.Address }
      else
        { delta with
          m_pKeyToAddress := keyToAddress
          m_pStateByAddress := PrimarySet.modify delta.m_pStateByAddress accountState.Address
            (fun stored => { stored with PublicKeyHeight := 0, PublicKey := 0 }) }

/-- BasicAccountStateCacheDelta::queueRemove(const Address&, Height). -/
def queueRemoveByAddress (delta : BasicAccountStateCacheDelta) (address height : Nat) :
    BasicAccountStateCacheDelta :=
  { delta with
    m_queuedRemoveByAddress := QueuedRemovals.emplace delta.m_queuedRemoveByAddress (height, address) }

/-- BasicAccountStateCacheDelta::queueRemove(const Key&, Height). -/
def queueRemoveByPublicKey (delta : BasicAccountStateCacheDelta) (publicKey height : Nat) :
    BasicAccountStateCacheDelta :=
  { delta with
    m_queuedRemoveByPublicKey :=
      QueuedRemovals.emplace delta.m_queuedRemoveByPublicKey (height, publicKey) }

/-- BasicAccountStateCacheDelta::clearRemove(const Address&, Height). -/
def clearRemoveByAddress (delta : BasicAccountStateCacheDelta) (address height : Nat) :
    BasicAccountStateCacheDelta :=
  { delta with
    m_queuedRemoveByAddress := QueuedRemovals.erase delta.m_queuedRemoveByAddress (height, address) }

/-- BasicAccountStateCacheDelta::clearRemove(const Key&, Height). -/
def clearRemoveByPublicKey (delta : BasicAccountStateCacheDelta) (publicKey height : Nat) :
    BasicAccountStateCacheDelta :=
  { delta with
    m_queuedRemoveByPublicKey :=
      QueuedRemovals.erase delta.m_queuedRemoveByPublicKey (height, publicKey) }

/-- BasicAccountStateCacheDelta::commitRemovals: the queued address removals in
queue order, then the queued public key removals, then both queues are cleared. -/
def commitRemovals (delta : BasicAccountStateCacheDelta) : BasicAccountStateCacheDelta :=
  let afterAddresses := delta.m_queuedRemoveByAddress.foldl
    (fun current addressHeightPair => current.removeByAddress addressHeightPair.2 addressHeightPair.1)
    delta
  let afterKeys := delta.m_queuedRemoveByPublicKey.foldl
    (fun current keyHeightPair => current.removeByPublicKey keyHeightPair.2 keyHeightPair.1)
    afterAddresses
  { afterKeys with m_queuedRemoveByAddress := [], m_queuedRemoveByPublicKey := [] }

/-- Invariant I1: every account state of the delta with a public key height
other than 0 has its public key mapped to its address by the key lookup map. -/
def I1 (delta : BasicAccountStateCacheDelta) : Prop :=
  ∀ accountState ∈ delta.m_pStateByAddress, accountState.PublicKeyHeight ≠ 0 →
    KeyLookupMap.find delta.m_pKeyToAddress accountState.PublicKey = some accountState.Address

instance (delta : BasicAccountStateCacheDelta) : Decidable (I1 delta) := by
  unfold I1
  infer_instance

/-- The key lookup map holds only pairs of a public key and the address derived
from it, as it does when it is filled by getAddress and by inserted account
states whose address is derived from their public key. -/
def KeyLookupMapIsDerived (PublicKeyToAddress : Nat → Nat → Nat)
    (delta : BasicAccountStateCacheDelta) : Prop :=
  ∀ pair ∈ delta.m_pKeyToAddress,
    pair.2 = PublicKeyToAddress pair.1 delta.m_options.NetworkIdentifier

instance (PublicKeyToAddress : Nat → Nat → Nat) (delta : BasicAccountStateCacheDelta) :
    Decidable (KeyLookupMapIsDerived PublicKeyToAddress delta) := by
  unfold KeyLookupMapIsDerived
  infer_instance

namespace test

/-- Options of the tests (CreateDefaultAccountStateCacheOptions). -/
def DefaultOptions : Options :=
  { NetworkIdentifier := 144
    ImportanceGrouping := 543
    MinHarvesterBalance := 0
    MaxHarvesterBalance := 18446744073709551615
    CurrencyMosaicId := 1111
    HarvestingMosaicId := 2222 }

/-- Stand-in for model::PublicKeyToAddress in concrete evaluations: an injective map. -/
def ToAddress (publicKey networkIdentifier : Nat) : Nat :=
  1000000 * networkIdentifier + publicKey

/-- Empty delta over the default options. -/
def EmptyDelta : BasicAccountStateCacheDelta :=
  { m_pStateByAddress := []
    m_pKeyToAddress := []
    m_options := DefaultOptions
    m_queuedRemoveByAddress := []
    m_queuedRemoveByPublicKey := [] }

/-- Delta reached from the empty delta by addAccount(key 7, height 0),
remove(address of key 7, height 0), addAccount(address of key 7, height 3) and
addAccount(zero key, height 5): the account of key 7 has no public key while
the key lookup map still maps key 7 to its address, and the account of the zero
key has public key height 5. -/
def StaleKeyDelta : BasicAccountStateCacheDelta :=
  (((EmptyDelta.addAccountByPublicKey ToAddress 7 0).removeByAddress (ToAddress 7 144) 0
    ).addAccountByAddress (ToAddress 7 144) 3).addAccountByPublicKey ToAddress 0 5

/-- Delta holding one account whose address (5) is not the address derived from
its public key (9), with the matching key lookup entry. -/
def ForeignAddressDelta : BasicAccountStateCacheDelta :=
  { EmptyDelta with
    m_pStateByAddress := [{ AccountState.create 5 1 with PublicKey := 9, PublicKeyHeight := 1 }]
    m_pKeyToAddress := [(9, 5)] }

/-- Account state of public key 9 at the address derived from the key. -/
def DerivedAccountState : AccountState :=
  { AccountState.create (ToAddress 9 144) 2 with PublicKey := 9, PublicKeyHeight := 2 }

end test

end BasicAccountStateCacheDelta

end cache

end catapult

/-! ## Account state cache delta: size, batch removal, high value accounts -/

namespace catapult

namespace state

end state

namespace cache

open state

/-- Modelled from the spec: the elements of the primary set (iteration over the
missing base set): for every address the account state stored under it. -/
def PrimarySet.elements (set : List AccountState) : List AccountState :=
  set.filter (fun accountState =>
    decide (PrimarySet.find set accountState.Address = some accountState))

/-- Delta sets of the primary set (deltaset::DeltaElements): added, removed and
modified (copied) account states. -/
structure DeltaElements where
  Added : List AccountState
  Removed : List AccountState
  Copied : List AccountState

/-- Modelled from the spec: the updater of the high value accounts
(HighValueAccountsUpdater is missing): the options, the committed baseline
addresses, and the current and removed address sets it computes. -/
structure HighValueAccountsUpdater where
  m_options : Options
  m_original : List Nat
  m_current : List Nat
  m_removed : List Nat

namespace HighValueAccountsUpdater

/-- Modelled from the spec: the predicate of the updater: the balance of the
harvesting mosaic lies in the closed interval of the harvester balances. -/
def hasHighValue (options : Options) (accountState : AccountState) : Bool :=
  decide (options.MinHarvesterBalance ≤ accountState.Balances.get options.HarvestingMosaicId
    ∧ accountState.Balances.get options.HarvestingMosaicId ≤ options.MaxHarvesterBalance)

/-- Modelled from the spec: constructor of the updater over the baseline addresses. -/
def create (options : Options) (addresses : List Nat) : HighValueAccountsUpdater :=
  { m_options := options, m_original := addresses, m_current := addresses, m_removed := [] }

/-- Modelled from the spec: update (section 4.2).  Every added or modified
account goes to the current additions when it passes the predicate and to the
removed additions otherwise; every removed account goes to the removed
additions; Current = (B with the current additions) without the removed
additions, Removed = B restricted to the removed additions. -/
def update (updater : HighValueAccountsUpdater) (deltas : DeltaElements) :
    HighValueAccountsUpdater :=
  let touched := deltas.Added ++ deltas.Copied
  let currentAdds := (touched.filter (fun accountState =>
    hasHighValue updater.m_options accountState)).map (fun accountState => accountState.Address)
  let removedAdds := (touched.filter (fun accountState =>
      !hasHighValue updater.m_options accountState)).map (fun accountState => accountState.Address)
    ++ deltas.Removed.map (fun accountState => accountState.Address)
  { updater with
    m_current := (updater.m_original ++ currentAdds).filter
      (fun address => decide (address ∉ removedAdds))
    m_removed := updater.m_original.filter (fun address => decide (address ∈ removedAdds)) }

/-- Modelled from the spec: accessor addresses() of the updater: the current high value
addresses. -/
def addresses (updater : HighValueAccountsUpdater) : List Nat :=
  updater.m_current

/-- Modelled from the spec: accessor removedAddresses() of the updater: the baseline
addresses that are no longer high value. -/
def removedAddresses (updater : HighValueAccountsUpdater) : List Nat :=
  updater.m_removed

end HighValueAccountsUpdater

namespace BasicAccountStateCacheDelta

/-- Accessor size(): number of account states in the primary set. -/
def size (delta : BasicAccountStateCacheDelta) : Nat :=
  delta.m_pStateByAddress.length

/-- Modelled from the spec: deltas() of the primary set delta (the base set
delta is missing): added are the current elements at addresses without a
committed element, removed the committed elements at addresses without a
current element, modified the current elements that differ from the committed
element at their address. -/
def deltas (delta : BasicAccountStateCacheDelta) : DeltaElements :=
  { Added := (PrimarySet.elements delta.m_pStateByAddress).filter (fun accountState =>
      (PrimarySet.find delta.m_originalStateByAddress accountState.Address).isNone)
    Removed := (PrimarySet.elements delta.m_originalStateByAddress).filter (fun accountState =>
      (PrimarySet.find delta.m_pStateByAddress accountState.Address).isNone)
    Copied := (PrimarySet.elements delta.m_pStateByAddress).filter (fun accountState =>
      match PrimarySet.find delta.m_originalStateByAddress accountState.Address with
      | some original => decide (original ≠ accountState)
      | none => false) }

/-- BasicAccountStateCacheDelta::highValueAddresses: the pair (Current, Removed)
of a fresh updater over the baseline addresses run against the deltas. -/
def highValueAddresses (delta : BasicAccountStateCacheDelta) : List Nat × List Nat :=
  let updater := (HighValueAccountsUpdater.create delta.m_options delta.m_highValueAccounts).update
    delta.deltas
  (updater.addresses, updater.removedAddresses)

/-- BasicAccountStateCacheDelta::updateHighValueAccounts: the body is empty. -/
def updateHighValueAccounts (delta : BasicAccountStateCacheDelta) (_height : Nat) :
    BasicAccountStateCacheDelta :=
  delta

/-- The committed baseline satisfies I4: an address is a committed high value
address exactly when the committed account at that address passes the
predicate of the updater. -/
def BaselineIsHighValue (delta : BasicAccountStateCacheDelta) : Prop :=
  ∀ address, address ∈ delta.m_highValueAccounts ↔
    ∃ original, PrimarySet.find delta.m_originalStateByAddress address = some original
      ∧ HighValueAccountsUpdater.hasHighValue delta.m_options original = true

/-- The queued address removals applied one after the other, first queued pair first. -/
def removeQueuedAddresses :
    List (Nat × Nat) → BasicAccountStateCacheDelta → BasicAccountStateCacheDelta
  | [], delta => delta
  | addressHeightPair :: queued, delta =>
    removeQueuedAddresses queued (delta.removeByAddress addressHeightPair.2 addressHeightPair.1)

/-- The queued public key removals applied one after the other, first queued pair first. -/
def removeQueuedPublicKeys :
    List (Nat × Nat) → BasicAccountStateCacheDelta → BasicAccountStateCacheDelta
  | [], delta => delta
  | keyHeightPair :: queued, delta =>
    removeQueuedPublicKeys queued (delta.removeByPublicKey keyHeightPair.2 keyHeightPair.1)

/-- Batch removal as the specification words it: remove(address, height) for
every queued (height, address) pair, then remove(publicKey, height) for every
queued (height, publicKey) pair, then both queues are emptied. -/
def commitRemovalsSpec (delta : BasicAccountStateCacheDelta) : BasicAccountStateCacheDelta :=
  { removeQueuedPublicKeys delta.m_queuedRemoveByPublicKey
      (removeQueuedAddresses delta.m_queuedRemoveByAddress delta) with
    m_queuedRemoveByAddress := []
    m_queuedRemoveByPublicKey := [] }

end BasicAccountStateCacheDelta

end cache

end catapult

/-! ## Account state cache delta: deltas used in evaluations -/

namespace catapult

namespace cache

open state

namespace BasicAccountStateCacheDelta

namespace test

/-- Account state whose address (5) is not the address derived from its public key (9). -/
def ForeignAccountState : AccountState :=
  { AccountState.create 5 1 with PublicKey := 9, PublicKeyHeight := 1 }

/-- Delta reached from the empty delta by addAccount(ForeignAccountState). -/
def InsertedForeignDelta : BasicAccountStateCacheDelta :=
  EmptyDelta.addAccountState ForeignAccountState

/-- Account state of key 7 after addAccount(key 7, height 5) on the empty delta. -/
def KnownKeyAccountState : AccountState :=
  { AccountState.create (ToAddress 7 144) 5 with
    PublicKey := 7
    PublicKeyHeight := 5
    Balances := { balances := [], optimizedMosaicId := 1111 } }

/-- Delta reached from the empty delta by addAccount(key 7, height 5). -/
def KnownKeyDelta : BasicAccountStateCacheDelta :=
  EmptyDelta.addAccountByPublicKey ToAddress 7 5

/-- Account state at address 50 after addAccount(address 50, height 3) on the empty delta. -/
def AddressOnlyAccountState : AccountState :=
  { AccountState.create 50 3 with Balances := { balances := [], optimizedMosaicId := 1111 } }

/-- Delta reached from the empty delta by addAccount(address 50, height 3). -/
def AddressOnlyDelta : BasicAccountStateCacheDelta :=
  EmptyDelta.addAccountByAddress 50 3

/-- Account state of key 7 after addAccount(address of key 7, height 3) and
addAccount(key 7, height 5) on the empty delta. -/
def LaterKeyAccountState : AccountState :=
  { AccountState.create (ToAddress 7 144) 3 with
    PublicKey := 7
    PublicKeyHeight := 5
    Balances := { balances := [], optimizedMosaicId := 1111 } }

/-- Delta reached from the empty delta by addAccount(address of key 7, height 3)
and addAccount(key 7, height 5). -/
def LaterKeyDelta : BasicAccountStateCacheDelta :=
  (EmptyDelta.addAccountByAddress (ToAddress 7 144) 3).addAccountByPublicKey ToAddress 7 5

/-- Delta reached from the empty delta by addAccount(address 50, height 3) and
queueRemove(address 50, height 3). -/
def QueuedRemovalDelta : BasicAccountStateCacheDelta :=
  AddressOnlyDelta.queueRemoveByAddress 50 3

end test

end BasicAccountStateCacheDelta

end cache

namespace observers

open cache

namespace test

end test

end observers

end catapult

/-! ## Importance view (src/catapult/cache_core/ImportanceView.cpp) -/

namespace catapult

namespace cache

open state

/-- Failures of the importance view: the linked main account of a remote account
is not in the cache (the find iterator has nothing to get), the link between
remote and main account is corrupted, or the forwarding ran out of steps. -/
inductive ImportanceViewError where
  | InvariantViolation
  | CorruptedLink
  | ForwardingLimit
  deriving DecidableEq

/-- Modelled from the spec: linked public key of an account state
(state::GetLinkedPublicKey is missing); the zero key when none is set. -/
def GetLinkedPublicKey (accountState : AccountState) : Nat :=
  accountState.LinkedPublicKey.getD 0

/-- Modelled from the spec: RequireLinkedRemoteAndMainAccounts (missing): the
linked account must be of type Main and its linked public key must be the
public key of the remote account, else the link is corrupted. -/
def RequireLinkedRemoteAndMainAccounts (remoteAccountState mainAccountState : AccountState) :
    Except ImportanceViewError Unit :=
  if mainAccountState.AccountType = AccountType.Main
      ∧ GetLinkedPublicKey mainAccountState = remoteAccountState.PublicKey then
    Except.ok ()
  else Except.error ImportanceViewError.CorruptedLink

/-- ForwardIfAccountHasImportanceAtHeight of ImportanceView.cpp.  The read-only
cache is the delta it wraps; model::ConvertToImportanceHeight is a parameter;
the action is a function of the account state and of the state it captures by
reference, returning its result and the new captured state.  The recursion of
the source is bounded by a number of steps; running out of steps is the
failure ForwardingLimit. -/
def ForwardIfAccountHasImportanceAtHeight {σ : Type}
    (ConvertToImportanceHeight : Nat → Nat → Nat) :
    Nat → AccountState → BasicAccountStateCacheDelta → Nat →
      (AccountState → σ → Bool × σ) → σ → Except ImportanceViewError (Bool × σ)
  | 0, _, _, _, _, _ => Except.error ImportanceViewError.ForwardingLimit
  | steps + 1, accountState, cache, height, action, captured =>
    if accountState.AccountType = AccountType.Remote then
      match cache.findByPublicKey (GetLinkedPublicKey accountState) with
      | none => Except.error ImportanceViewError.InvariantViolation
      | some linkedAccountState =>
        match RequireLinkedRemoteAndMainAccounts accountState linkedAccountState with
        | Except.error failure => Except.error failure
        | Except.ok _ =>
          ForwardIfAccountHasImportanceAtHeight ConvertToImportanceHeight steps
            linkedAccountState cache height action captured
    else
      let importanceHeight :=
        ConvertToImportanceHeight height cache.m_options.ImportanceGrouping
      if importanceHeight ≠ accountState.ImportanceSnapshots.height then
        Except.ok (false, captured)
      else Except.ok (action accountState captured)

/-- Number of forwarding steps granted to a query: the account itself and one linked account. -/
def ForwardingSteps : Nat := 2

/-- FindAccountStateWithImportance of ImportanceView.cpp. -/
def FindAccountStateWithImportance {σ : Type} (ConvertToImportanceHeight : Nat → Nat → Nat)
    (cache : BasicAccountStateCacheDelta) (address height : Nat)
    (action : AccountState → σ → Bool × σ) (captured : σ) :
    Except ImportanceViewError (Bool × σ) :=
  match cache.findByAddress address with
  | some accountState =>
    ForwardIfAccountHasImportanceAtHeight ConvertToImportanceHeight ForwardingSteps
      accountState cache height action captured
  | none => Except.ok (false, captured)

namespace ImportanceView

/-- ImportanceView::tryGetAccountImportance: the result and the importance
out-parameter, which is written only when the action runs. -/
def tryGetAccountImportance (ConvertToImportanceHeight : Nat → Nat → Nat)
    (m_cache : BasicAccountStateCacheDelta) (address height importance : Nat) :
    Except ImportanceViewError (Bool × Nat) :=
  FindAccountStateWithImportance ConvertToImportanceHeight m_cache address height
    (fun accountState _ => (true, accountState.ImportanceSnapshots.current)) importance

/-- ImportanceView::getAccountImportanceOrDefault. -/
def getAccountImportanceOrDefault (ConvertToImportanceHeight : Nat → Nat → Nat)
    (m_cache : BasicAccountStateCacheDelta) (address height : Nat) :
    Except ImportanceViewError Nat :=
  match tryGetAccountImportance ConvertToImportanceHeight m_cache address height 0 with
  | Except.error failure => Except.error failure
  | Except.ok result => Except.ok (if result.1 = true then result.2 else 0)

/-- ImportanceView::canHarvest. -/
def canHarvest (ConvertToImportanceHeight : Nat → Nat → Nat)
    (m_cache : BasicAccountStateCacheDelta) (address height : Nat) :
    Except ImportanceViewError Bool :=
  let mosaicId := m_cache.m_options.HarvestingMosaicId
  let minHarvesterBalance := m_cache.m_options.MinHarvesterBalance
  let maxHarvesterBalance := m_cache.m_options.MaxHarvesterBalance
  match FindAccountStateWithImportance ConvertToImportanceHeight m_cache address height
      (fun accountState (captured : Unit) =>
        let currentImportance := accountState.ImportanceSnapshots.current
        if 0 = currentImportance then (false, captured)
        else
          let balance := accountState.Balances.get mosaicId
          (decide (minHarvesterBalance ≤ balance ∧ balance ≤ maxHarvesterBalance), captured))
      () with
  | Except.error failure => Except.error failure
  | Except.ok result => Except.ok result.1

namespace test

/-- Modelled from the spec: importance height of a height
(model::ConvertToImportanceHeight is missing): h - (h mod grouping). -/
def ConvertToImportanceHeight (height grouping : Nat) : Nat :=
  height - height % grouping

/-- Main account at address 1 with importance 10 set at importance height 543
and the given balance of the harvesting mosaic. -/
def MainAccountState (balance : Nat) : AccountState :=
  { AccountState.create 1 1 with
    AccountType := AccountType.Main
    Balances := { balances := [(2222, balance)], optimizedMosaicId := 1111 }
    ImportanceSnapshots := { current := 10, height := 543 } }

/-- Cache holding the main account with the given balance; the harvester
balances of the options are 1000 and 2000. -/
def MainAccountCache (balance : Nat) : BasicAccountStateCacheDelta :=
  { BasicAccountStateCacheDelta.test.EmptyDelta with
    m_options :=
      { BasicAccountStateCacheDelta.test.DefaultOptions with
        MinHarvesterBalance := 1000
        MaxHarvesterBalance := 2000 }
    m_pStateByAddress := [MainAccountState balance] }

end test

end ImportanceView

end cache

end catapult

/-! ## Importance view: caches with a remote account -/

namespace catapult

namespace cache

open state

namespace ImportanceView

namespace test

/-- Main account at address 1 with public key 10, linked to the remote account
of public key 20, with importance 10 set at importance height 543 and the given
balance of the harvesting mosaic. -/
def LinkedMainAccountState (balance : Nat) : AccountState :=
  { MainAccountState balance with
    PublicKey := 10
    PublicKeyHeight := 1
    LinkedPublicKey := some 20 }

/-- Remote account at address 2 with public key 20, linked to the account of
public key 10; it has neither importance nor balance of its own. -/
def RemoteAccountState : AccountState :=
  { AccountState.create 2 1 with
    PublicKey := 20
    PublicKeyHeight := 1
    AccountType := AccountType.Remote
    LinkedPublicKey := some 10 }

/-- Cache with the given accounts and key lookup map; the harvester balances of
the options are 1000 and 2000. -/
def CacheOf (accountStates : List AccountState) (keyToAddress : List (Nat × Nat)) :
    BasicAccountStateCacheDelta :=
  { MainAccountCache 0 with
    m_pStateByAddress := accountStates
    m_pKeyToAddress := keyToAddress }

/-- Cache holding the remote account and its main account. -/
def LinkedAccountsCache (balance : Nat) : BasicAccountStateCacheDelta :=
  CacheOf [RemoteAccountState, LinkedMainAccountState balance] [(20, 2), (10, 1)]

/-- Cache holding the remote account only: its linked public key is not in the cache. -/
def MissingMainCache : BasicAccountStateCacheDelta :=
  CacheOf [RemoteAccountState] [(20, 2)]

/-- Cache in which the account linked by the remote account is a remote account too. -/
def RemoteMainCache : BasicAccountStateCacheDelta :=
  CacheOf
    [RemoteAccountState,
      { LinkedMainAccountState 1000 with AccountType := AccountType.Remote }]
    [(20, 2), (10, 1)]

/-- Account linked by the remote account whose own link names another public key. -/
def ForeignLinkAccountState : AccountState :=
  { LinkedMainAccountState 1000 with LinkedPublicKey := some 30 }

/-- Cache in which the account linked by the remote account links to another public key. -/
def ForeignLinkCache : BasicAccountStateCacheDelta :=
  CacheOf [RemoteAccountState, ForeignLinkAccountState] [(20, 2), (10, 1)]

end test

end ImportanceView

end cache

end catapult

/-! ## Balance history (src/catapult/state/BalanceHistory.cpp) -/

namespace catapult

namespace state

/-- Modelled from the spec: the height to balance map of a balance history
(BalanceHistory.h with the declaration of the map is missing): an ordered map
keyed in descending height order, so that the most recent entry is at begin.
The map is the list of its entries from begin to end, with strictly descending
heights. -/
structure BalanceHistory where
  m_heightBalanceMap : List (Nat × Nat)
  descending : m_heightBalanceMap.Pairwise (fun earlier later => later.1 < earlier.1)

namespace BalanceHistory

/-- Modelled from the spec: lower_bound of the descending map: the first entry
from begin whose height is not above the height, end (none) without one. -/
def lower_bound (heightBalanceMap : List (Nat × Nat)) (height : Nat) : Option (Nat × Nat) :=
  heightBalanceMap.find? (fun pair => decide (pair.1 ≤ height))

/-- Modelled from the spec: erase(lower_bound(height), end) on the descending
map: the entries before the lower bound stay. -/
def eraseFromLowerBound (heightBalanceMap : List (Nat × Nat)) (height : Nat) :
    List (Nat × Nat) :=
  heightBalanceMap.takeWhile (fun pair => decide (height < pair.1))

/-- Modelled from the spec: assignment map[height] = balance on the descending
map: the entry of the height is replaced or inserted at its place. -/
def assign (heightBalanceMap : List (Nat × Nat)) (height balance : Nat) : List (Nat × Nat) :=
  heightBalanceMap.filter (fun pair => decide (height < pair.1))
    ++ (height, balance) :: heightBalanceMap.filter (fun pair => decide (pair.1 < height))

/-- Balance history without entries. -/
def empty : BalanceHistory :=
  { m_heightBalanceMap := []
    descending := List.Pairwise.nil }

/-- BalanceHistory::size. -/
def size (history : BalanceHistory) : Nat :=
  history.m_heightBalanceMap.length

/-- BalanceHistory::balance(): the current balance. -/
def balance (history : BalanceHistory) : Nat :=
  match history.m_heightBalanceMap with
  | [] => 0
  | pair :: _ => pair.2

/-- BalanceHistory::balance(Height): the balance at a height. -/
def balanceAt (history : BalanceHistory) (height : Nat) : Nat :=
  match lower_bound history.m_heightBalanceMap height with
  | none => 0
  | some pair => pair.2

/-- BalanceHistory::anyAtLeast. -/
def anyAtLeast (history : BalanceHistory) (amount : Nat) : Bool :=
  history.m_heightBalanceMap.any (fun pair => decide (amount ≤ pair.2))

/-- BalanceHistory::add. -/
def add (history : BalanceHistory) (height balance : Nat) : BalanceHistory :=
  { m_heightBalanceMap := assign history.m_heightBalanceMap height balance
    descending := by
      unfold assign
      rw [List.pairwise_append]
      refine ⟨history.descending.filter _, ?_, ?_⟩
      · rw [List.pairwise_cons]
        refine ⟨?_, history.descending.filter _⟩
        intro pair hPair
        simpa using (List.mem_filter.mp hPair).2
      · intro earlier hEarlier later hLater
        have hAbove : height < earlier.1 := by simpa using (List.mem_filter.mp hEarlier).2
        rcases List.mem_cons.mp hLater with hEq | hBelow
        · rw [hEq]
          exact hAbove
        · have hLess : later.1 < height := by simpa using (List.mem_filter.mp hBelow).2
          exact Nat.lt_trans hLess hAbove }

/-- BalanceHistory::prune. -/
def prune (history : BalanceHistory) (height : Nat) : BalanceHistory :=
  match lower_bound history.m_heightBalanceMap height with
  | none => history
  | some pair =>
    let balanceAtPruneHeight := pair.2
    let erased : BalanceHistory :=
      { m_heightBalanceMap := eraseFromLowerBound history.m_heightBalanceMap height
        descending := history.descending.sublist (List.takeWhile_sublist _) }
    erased.add height balanceAtPruneHeight

namespace test

/-- History with balance 12 from height 11, 98 from height 22 and 67 from height 33. -/
def ThreeHistory : BalanceHistory :=
  ((empty.add 11 12).add 22 98).add 33 67

end test

end BalanceHistory

end state

end catapult

/-! ## Notification publisher: transaction fee
(src/catapult/model/Notifications.h, src/tests/catapult/model/NotificationPublisherTests.cpp) -/

namespace catapult

namespace model

/-- Transaction: the fields the fee notification is raised from.  Size is a
32 bit and MaxFee a 64 bit unsigned integer. -/
structure Transaction where
  SignerPublicKey : Nat
  Size : Nat
  MaxFee : Nat
  deriving DecidableEq

/-- Block header: the fee multiplier, a 32 bit unsigned integer. -/
structure BlockHeader where
  FeeMultiplier : Nat
  deriving DecidableEq

/-- Weak entity info as the tests construct it: an entity, its hash and the
associated block header, if there is one. -/
structure WeakEntityInfo (TEntity : Type) where
  entity : TEntity
  hash : Nat
  associatedBlockHeader : Option BlockHeader

/-- TransactionFeeNotification of Notifications.h. -/
structure TransactionFeeNotification where
  Sender : Nat
  TransactionSize : Nat
  Fee : Nat
  MaxFee : Nat
  deriving DecidableEq

/-- Modelled from the spec: the transaction fee notification raised by the
notification publisher (NotificationPublisher.cpp is missing).  Without an
associated block header the fee is the maximum fee of the transaction; with one
it is the fee multiplier of the block times the size of the transaction, as
NotificationPublisherTests.cpp expects.  Both factors are 32 bit integers, so
the product fits the 64 bit amount. -/
def PublishTransactionFee (entityInfo : WeakEntityInfo Transaction) :
    TransactionFeeNotification :=
  let transaction := entityInfo.entity
  let fee :=
    match entityInfo.associatedBlockHeader with
    | some blockHeader => blockHeader.FeeMultiplier * transaction.Size
    | none => transaction.MaxFee
  { Sender := transaction.SignerPublicKey
    TransactionSize := transaction.Size
    Fee := fee
    MaxFee := transaction.MaxFee }

namespace test

/-- Transaction of size 234 with maximum fee 765. -/
def TransactionWithSize234 : Transaction :=
  { SignerPublicKey := 5, Size := 234, MaxFee := 765 }

/-- Block header with fee multiplier 4. -/
def BlockHeaderWithMultiplier4 : BlockHeader :=
  { FeeMultiplier := 4 }

end test

end model

end catapult

/-! ## Account state cache delta: deltas used for removal after addition and purge -/

namespace catapult

namespace cache

open state

namespace BasicAccountStateCacheDelta

namespace test

/-- Account state at the address derived from key 7 after
addAccount(address of key 7, height 3) on the empty delta: no public key. -/
def DerivedAddressOnlyAccountState : AccountState :=
  { AccountState.create (ToAddress 7 144) 3 with
    Balances := { balances := [], optimizedMosaicId := 1111 } }

/-- Delta reached from the empty delta by addAccount(address of key 7, height 3). -/
def DerivedAddressOnlyDelta : BasicAccountStateCacheDelta :=
  EmptyDelta.addAccountByAddress (ToAddress 7 144) 3

end test

end BasicAccountStateCacheDelta

end cache

end catapult

/-! ## Account state cache storage (src/catapult/cache_core/AccountStateCacheStorage.cpp) -/

namespace catapult

namespace cache

open state

namespace AccountStateCacheStorage

/-- AccountStateCacheStorage::Purge. -/
def Purge (accountState : AccountState) (cacheDelta : BasicAccountStateCacheDelta) :
    BasicAccountStateCacheDelta :=
  ((cacheDelta.queueRemoveByPublicKey accountState.PublicKey accountState.PublicKeyHeight
    ).queueRemoveByAddress accountState.Address accountState.AddressHeight).commitRemovals

namespace test

/-- Delta reached from the empty delta by addAccount(address 50, height 3) and
addAccount(zero key, height 5): the account at address 50 has no public key
(its public key is the zero key, its public key height 0), and the zero key has
an account of its own. -/
def ZeroKeyDelta : BasicAccountStateCacheDelta :=
  BasicAccountStateCacheDelta.addAccountByPublicKey BasicAccountStateCacheDelta.test.ToAddress
    BasicAccountStateCacheDelta.test.AddressOnlyDelta 0 5

end test

end AccountStateCacheStorage

end cache

end catapult

namespace catapult

namespace cache

open state

namespace AccountStateCacheStorage

namespace test

/-- Delta reached from the empty delta by addAccount(address of key 7, height 3),
addAccount(key 7, height 5) and addAccount(address 50, height 3). -/
def TwoAccountsDelta : BasicAccountStateCacheDelta :=
  BasicAccountStateCacheDelta.test.LaterKeyDelta.addAccountByAddress 50 3

end test

end AccountStateCacheStorage

end cache

end catapult

/-! ## Multisig aggregate eligible cosigners validator
(plugins/txes/multisig/src/validators/MultisigAggregateEligibleCosignersValidator.cpp) -/

namespace catapult

namespace validators

/-- Entity type of an embedded transaction, as far as the validator tells types
apart: the multisig account modification and every other type. -/
inductive EntityType where
  | Modify_Multisig_Account
  | Other (value : Nat)
  deriving DecidableEq

/-- Cosignatory modification type. -/
inductive CosignatoryModificationType where
  | Add
  | Del
  deriving DecidableEq

/-- Cosignatory modification of a multisig account modification transaction. -/
structure CosignatoryModification where
  ModificationType : CosignatoryModificationType
  CosignatoryPublicKey : Nat
  deriving DecidableEq

/-- Embedded transaction: its signer, its type and, for a multisig account
modification (the cast of the source), its modifications. -/
structure EmbeddedTransaction where
  Signer : Nat
  EntityType : EntityType
  Modifications : List CosignatoryModification
  deriving DecidableEq

/-- Cosignature: the signer (the signature is not read by the validator). -/
structure Cosignature where
  Signer : Nat
  deriving DecidableEq

/-- AggregateCosignaturesNotification: signer of the aggregate, embedded
transactions and cosignatures (pointer and count are a list). -/
structure AggregateCosignaturesNotification where
  Signer : Nat
  Transactions : List EmbeddedTransaction
  Cosignatures : List Cosignature
  deriving DecidableEq

/-- Result of the validator. -/
inductive ValidationResult where
  | Success
  | Failure_Multisig_Ineligible_Cosigners
  deriving DecidableEq

/-- Modelled from the spec: read-only multisig cache (cache/MultisigCache.h is
missing): the cosignatories of the multisig entry stored under a public key;
contains is isSome, get is the entry. -/
def MultisigCache.find : List (Nat × List Nat) → Nat → Option (List Nat)
  | [], _ => none
  | entry :: entries, publicKey =>
    if entry.1 = publicKey then some entry.2 else MultisigCache.find entries publicKey

/-- Modelled from the spec: emplace into the key to flag map (KeyPointerFlagMap,
an unordered map keyed by the value of the key a pointer refers to): a key that
is present keeps its flag. -/
def KeyPointerFlagMap.emplace (map : List (Nat × Bool)) (key : Nat) (flag : Bool) :
    List (Nat × Bool) :=
  if map.any (fun pair => decide (pair.1 = key)) then map else map ++ [(key, flag)]

namespace AggregateCosignaturesChecker

/-- Constructor of AggregateCosignaturesChecker: the map m_cosigners with the
signer of the aggregate and the signers of the cosignatures, all not eligible. -/
def create (notification : AggregateCosignaturesNotification) : List (Nat × Bool) :=
  notification.Cosignatures.foldl
    (fun cosigners cosignature => KeyPointerFlagMap.emplace cosigners cosignature.Signer false)
    (KeyPointerFlagMap.emplace [] notification.Signer false)

/-- AggregateCosignaturesChecker::markEligible. -/
def markEligible (m_cosigners : List (Nat × Bool)) (key : Nat) : List (Nat × Bool) :=
  m_cosigners.map (fun pair => if pair.1 = key then (pair.1, true) else pair)

/-- AggregateCosignaturesChecker::findEligibleCosigners(const Key&).  The
recursion of the source over the cosignatories is bounded by a depth; none
is returned when the depth is used up. -/
def findEligibleCosigners (m_multisigCache : List (Nat × List Nat)) :
    Nat → Nat → List (Nat × Bool) → Option (List (Nat × Bool))
  | 0, _, _ => none
  | depth + 1, publicKey, m_cosigners =>
    match MultisigCache.find m_multisigCache publicKey with
    | none => some (markEligible m_cosigners publicKey)
    | some cosignatories =>
      if cosignatories.isEmpty then some (markEligible m_cosigners publicKey)
      else
        cosignatories.foldlM
          (fun cosigners cosignatoryPublicKey =>
            findEligibleCosigners m_multisigCache depth cosignatoryPublicKey cosigners)
          m_cosigners

/-- AggregateCosignaturesChecker::findEligibleCosigners(const
EmbeddedModifyMultisigAccountTransaction&). -/
def findEligibleCosignersOfModification (transaction : EmbeddedTransaction)
    (m_cosigners : List (Nat × Bool)) : List (Nat × Bool) :=
  transaction.Modifications.foldl
    (fun cosigners modification =>
      if CosignatoryModificationType.Add = modification.ModificationType then
        markEligible cosigners modification.CosignatoryPublicKey
      else cosigners)
    m_cosigners

/-- AggregateCosignaturesChecker::hasIneligibleCosigners. -/
def hasIneligibleCosigners (m_multisigCache : List (Nat × List Nat)) (depth : Nat)
    (notification : AggregateCosignaturesNotification) : Option Bool :=
  match notification.Transactions.foldlM
      (fun cosigners transaction =>
        match findEligibleCosigners m_multisigCache depth transaction.Signer cosigners with
        | none => none
        | some found =>
          if EntityType.Modify_Multisig_Account = transaction.EntityType then
            some (findEligibleCosignersOfModification transaction found)
          else some found)
      (create notification) with
  | none => none
  | some m_cosigners => some (m_cosigners.any (fun pair => !pair.2))

end AggregateCosignaturesChecker

/-- The validator created by CreateMultisigAggregateEligibleCosignersValidator. -/
def MultisigAggregateEligibleCosignersValidator (depth : Nat)
    (notification : AggregateCosignaturesNotification)
    (m_multisigCache : List (Nat × List Nat)) : Option ValidationResult :=
  match AggregateCosignaturesChecker.hasIneligibleCosigners m_multisigCache depth notification with
  | none => none
  | some hasIneligible =>
    some (if hasIneligible = true then ValidationResult.Failure_Multisig_Ineligible_Cosigners
      else ValidationResult.Success)

/-- The keys reached by expanding a public key, in the words of the
specification: the key itself when it is unknown to the multisig cache or has
no cosignatories, otherwise the keys reached by expanding its cosignatories. -/
inductive ExpandsTo (m_multisigCache : List (Nat × List Nat)) : Nat → Nat → Prop where
  | self (publicKey : Nat) :
      (MultisigCache.find m_multisigCache publicKey = none
        ∨ MultisigCache.find m_multisigCache publicKey = some []) →
      ExpandsTo m_multisigCache publicKey publicKey
  | cosignatory (publicKey : Nat) (cosignatories : List Nat) (cosignatoryPublicKey key : Nat) :
      MultisigCache.find m_multisigCache publicKey = some cosignatories →
      cosignatoryPublicKey ∈ cosignatories →
      ExpandsTo m_multisigCache cosignatoryPublicKey key →
      ExpandsTo m_multisigCache publicKey key

/-- The eligible set in the words of the specification: the keys the signer of
an embedded transaction expands to, plus every cosignatory that an embedded
multisig account modification adds. -/
def IsEligibleCosigner (m_multisigCache : List (Nat × List Nat))
    (notification : AggregateCosignaturesNotification) (key : Nat) : Prop :=
  ∃ transaction ∈ notification.Transactions,
    ExpandsTo m_multisigCache transaction.Signer key
      ∨ (transaction.EntityType = EntityType.Modify_Multisig_Account
        ∧ ∃ modification ∈ transaction.Modifications,
          modification.ModificationType = CosignatoryModificationType.Add
            ∧ modification.CosignatoryPublicKey = key)

/-- The cosigners of an aggregate: its signer and the signers of its cosignatures. -/
def Cosigners (notification : AggregateCosignaturesNotification) : List Nat :=
  notification.Signer :: notification.Cosignatures.map Cosignature.Signer

namespace test

/-- Two level multisig cache: account 1 has cosignatories 2 and 3, account 3 has
cosignatories 4 and 5, and account 2 is a cosignatory only. -/
def MultilevelCache : List (Nat × List Nat) :=
  [(1, [2, 3]), (3, [4, 5]), (2, [])]

/-- Depth of an account in the two level multisig cache. -/
def MultilevelRank (publicKey : Nat) : Nat :=
  if publicKey = 1 then 2 else if publicKey = 3 then 1 else 0

/-- Aggregate signed by account 4 with a cosignature of account 2, embedding a
transaction of the multisig account 1 and a transaction of account 9. -/
def MultilevelNotification : AggregateCosignaturesNotification :=
  { Signer := 4
    Transactions := [
      { Signer := 1, EntityType := EntityType.Other 0, Modifications := [] },
      { Signer := 9, EntityType := EntityType.Other 0, Modifications := [] }]
    Cosignatures := [{ Signer := 2 }] }

end test

end validators

end catapult

namespace catapult

namespace validators

namespace AggregateCosignaturesChecker

/-- The map of cosigners after markEligible was called for every key of a list. -/
def markAll (keys : List Nat) (m_cosigners : List (Nat × Bool)) : List (Nat × Bool) :=
  m_cosigners.map (fun pair => if pair.1 ∈ keys then (pair.1, true) else pair)

/-- The cosignatories that a transaction adds when it is read as a multisig
account modification. -/
def addedCosignatories (transaction : EmbeddedTransaction) : List Nat :=
  transaction.Modifications.filterMap
    (fun modification =>
      if CosignatoryModificationType.Add = modification.ModificationType then
        some modification.CosignatoryPublicKey
      else none)

end AggregateCosignaturesChecker

end validators

end catapult

namespace catapult

namespace validators

namespace test

/-- Multisig cache with a cycle: account 1 has the cosignatory 2 and account 2
has the cosignatory 1. -/
def CyclicCache : List (Nat × List Nat) :=
  [(1, [2]), (2, [1])]

/-- Aggregate signed by account 3 without cosignatures, embedding a transaction
of account 1. -/
def CyclicNotification : AggregateCosignaturesNotification :=
  { Signer := 3
    Transactions := [{ Signer := 1, EntityType := EntityType.Other 0, Modifications := [] }]
    Cosignatures := [] }

/-- Aggregate signed by account 9 with a cosignature of the given account,
embedding a multisig account modification of account 9 that adds account 7 and
deletes account 8. -/
def ModificationNotification (cosigner : Nat) : AggregateCosignaturesNotification :=
  { Signer := 9
    Transactions := [
      { Signer := 9
        EntityType := EntityType.Modify_Multisig_Account
        Modifications := [
          { ModificationType := CosignatoryModificationType.Add, CosignatoryPublicKey := 7 },
          { ModificationType := CosignatoryModificationType.Del, CosignatoryPublicKey := 8 }] }]
    Cosignatures := [{ Signer := cosigner }] }

end test

end validators

end catapult

/-! ## Notification publisher: block notifications
(src/catapult/model/Notifications.h, src/tests/catapult/model/NotificationPublisherTests.cpp) -/

namespace catapult

namespace model

/-- Publication mode of the notification publisher. -/
inductive PublicationMode where
  | Basic
  | Custom
  | All
  deriving DecidableEq

/-- Notification types raised for a block. -/
inductive NotificationType where
  | Core_Source_Change_Notification
  | Core_Register_Account_Public_Key_Notification
  | Core_Entity_Notification
  | Core_Block_Notification
  | Core_Signature_Notification
  deriving DecidableEq

/-- SourceChangeNotification::SourceChangeType. -/
inductive SourceChangeType where
  | Absolute
  | Relative
  deriving DecidableEq

/-- Block: the header fields the block notifications are raised from and the
transactions of the block. -/
structure Block where
  SignerPublicKey : Nat
  BeneficiaryPublicKey : Nat
  Signature : Nat
  Version : Nat
  Network : Nat
  Timestamp : Nat
  Difficulty : Nat
  FeeMultiplier : Nat
  Transactions : List Transaction
  deriving DecidableEq

/-- Notifications raised for a block (Notifications.h): source change, account
public key, entity, block and signature notification with their fields. -/
inductive Notification where
  | SourceChange (PrimaryChangeType : SourceChangeType) (PrimaryId : Nat)
      (SecondaryChangeType : SourceChangeType) (SecondaryId : Nat)
  | AccountPublicKey (PublicKey : Nat)
  | Entity (NetworkIdentifier EntityVersion MinVersion MaxVersion : Nat)
  | Block (Harvester Beneficiary Timestamp Difficulty FeeMultiplier TotalFee
      NumTransactions : Nat)
  | Signature (SignerPublicKey Signature : Nat)
  deriving DecidableEq

/-- Notification type of a notification (Notification_Type of its struct). -/
def Notification.Notification_Type : Notification → NotificationType
  | Notification.SourceChange _ _ _ _ => NotificationType.Core_Source_Change_Notification
  | Notification.AccountPublicKey _ =>
    NotificationType.Core_Register_Account_Public_Key_Notification
  | Notification.Entity _ _ _ _ => NotificationType.Core_Entity_Notification
  | Notification.Block _ _ _ _ _ _ _ => NotificationType.Core_Block_Notification
  | Notification.Signature _ _ => NotificationType.Core_Signature_Notification

/-- Public key of an account public key notification. -/
def Notification.publicKey? : Notification → Option Nat
  | Notification.AccountPublicKey publicKey => some publicKey
  | _ => none

/-- Modelled from the spec: total fee of a block (NotificationPublisher.cpp is
missing): the sum of the fees of its transactions, each the fee multiplier of
the block times the size of the transaction. -/
def CalculateTotalFee (block : Block) : Nat :=
  (block.Transactions.map (fun transaction => block.FeeMultiplier * transaction.Size)).sum

/-- Modelled from the spec: the notifications the basic publisher raises for a
block (NotificationPublisher.cpp is missing; order and fields as
NotificationPublisherTests.cpp expects them): source change, public key of the
harvester, public key of the beneficiary when it is not the harvester, entity,
block, signature.  The subscriber is the list of the notifications it was
handed; Block::Current_Version is a parameter. -/
def PublishBasicBlockNotifications (Current_Version : Nat) (block : Block)
    (sub : List Notification) : List Notification :=
  let sub := sub ++ [Notification.SourceChange SourceChangeType.Absolute 0
    SourceChangeType.Absolute 0]
  let sub := sub ++ [Notification.AccountPublicKey block.SignerPublicKey]
  let sub :=
    if block.SignerPublicKey ≠ block.BeneficiaryPublicKey then
      sub ++ [Notification.AccountPublicKey block.BeneficiaryPublicKey]
    else sub
  let sub := sub ++ [Notification.Entity block.Network block.Version Current_Version
    Current_Version]
  let sub := sub ++ [Notification.Block block.SignerPublicKey block.BeneficiaryPublicKey
    block.Timestamp block.Difficulty block.FeeMultiplier (CalculateTotalFee block)
    block.Transactions.length]
  sub ++ [Notification.Signature block.SignerPublicKey block.Signature]

/-- Modelled from the spec: publish of a block by the publisher created for a
publication mode (NotificationPublisher.cpp is missing): the basic publisher
runs in the modes Basic and All; the custom publisher, which runs in the modes
Custom and All, raises nothing for a block. -/
def PublishBlock (Current_Version : Nat) (mode : PublicationMode) (block : Block)
    (sub : List Notification) : List Notification :=
  match mode with
  | PublicationMode.Basic => PublishBasicBlockNotifications Current_Version block sub
  | PublicationMode.Custom => sub
  | PublicationMode.All => PublishBasicBlockNotifications Current_Version block sub

namespace test

/-- Block of the test CanRaiseBlockNotifications_BlockWithTransactions:
transactions of sizes 211, 225 and 217 with maximum fee ten times the size,
fee multiplier 3; the harvester is key 1 and the beneficiary the given key. -/
def BlockWithTransactions (beneficiary : Nat) : Block :=
  { SignerPublicKey := 1
    BeneficiaryPublicKey := beneficiary
    Signature := 77
    Version := 90
    Network := 17
    Timestamp := 432
    Difficulty := 575
    FeeMultiplier := 3
    Transactions := [
      { SignerPublicKey := 5, Size := 211, MaxFee := 2110 },
      { SignerPublicKey := 5, Size := 225, MaxFee := 2250 },
      { SignerPublicKey := 5, Size := 217, MaxFee := 2170 }] }

end test

end model

end catapult

/-! ## Resolvable (src/catapult/model/Resolvable.h, src/tests/catapult/model/ResolvableTests.cpp) -/

namespace catapult

namespace model

/-- Resolvable::Type: which representation a resolvable holds. -/
inductive ResolvableType where
  | Unresolved
  | Resolved
  deriving DecidableEq

/-- Resolvable of Resolvable.h: the unresolved value, the resolved value and the
tag that tells which of the two is set. -/
structure Resolvable (TUnresolved TResolved : Type) where
  m_unresolved : TUnresolved
  m_resolved : TResolved
  m_type : ResolvableType

namespace Resolvable

variable {TUnresolved TResolved : Type}

/-- Modelled from the spec: Resolvable() (Resolvable.cpp is missing): a
default resolvable is resolved, with the default resolved value. -/
def create [Inhabited TUnresolved] [Inhabited TResolved] : Resolvable TUnresolved TResolved :=
  { m_unresolved := default, m_resolved := default, m_type := ResolvableType.Resolved }

/-- Modelled from the spec: Resolvable(const TResolved&) (Resolvable.cpp is missing). -/
def ofResolved [Inhabited TUnresolved] (resolved : TResolved) : Resolvable TUnresolved TResolved :=
  { m_unresolved := default, m_resolved := resolved, m_type := ResolvableType.Resolved }

/-- Modelled from the spec: Resolvable(const TUnresolved&) (Resolvable.cpp is missing). -/
def ofUnresolved [Inhabited TResolved] (unresolved : TUnresolved) :
    Resolvable TUnresolved TResolved :=
  { m_unresolved := unresolved, m_resolved := default, m_type := ResolvableType.Unresolved }

/-- Modelled from the spec: Resolvable::isResolved (Resolvable.cpp is missing). -/
def isResolved (resolvable : Resolvable TUnresolved TResolved) : Bool :=
  decide (resolvable.m_type = ResolvableType.Resolved)

/-- Modelled from the spec: Resolvable::unresolved (Resolvable.cpp is missing):
the unresolved value, or the canonical injection of the resolved value into the
unresolved type; the injection is a parameter. -/
def unresolved (Unresolve : TResolved → TUnresolved)
    (resolvable : Resolvable TUnresolved TResolved) : TUnresolved :=
  if resolvable.isResolved = true then Unresolve resolvable.m_resolved
  else resolvable.m_unresolved

/-- Modelled from the spec: Resolvable::resolved (Resolvable.cpp is missing):
the resolved value, or the resolution of the unresolved value by the resolver
context, which is the function it resolves with. -/
def resolved (resolvable : Resolvable TUnresolved TResolved)
    (resolvers : TUnresolved → TResolved) : TResolved :=
  if resolvable.isResolved = true then resolvable.m_resolved
  else resolvers resolvable.m_unresolved

namespace test

/-- Modelled from the spec: test::UnresolveXor for mosaic ids
(tests/test/core/ResolverTestUtils.h is missing): the 64 bit complement. -/
def UnresolveXor (mosaicId : Nat) : Nat :=
  mosaicId ^^^ 0xFFFFFFFFFFFFFFFF

/-- Modelled from the spec: test::CreateResolverContextXor for mosaic ids
(tests/test/core/ResolverTestUtils.h is missing): resolves by the 64 bit
complement. -/
def CreateResolverContextXor (unresolvedMosaicId : Nat) : Nat :=
  unresolvedMosaicId ^^^ 0xFFFFFFFFFFFFFFFF

/-- CastToUnresolvedMosaicId: the same number as an unresolved mosaic id. -/
def CastToUnresolvedMosaicId (mosaicId : Nat) : Nat :=
  mosaicId

end test

end Resolvable

end model

end catapult

/-! ## Chain-sync consumer: theorems -/

namespace catapult

namespace consumers

theorem unwindLocalChain_filter_isNotification {κ : Type}
    (UndoBlock : BlockElement → ObserverState κ → ObserverState κ)
    (unwound : List BlockElement) (state : ObserverState κ) :
    (unwindLocalChain UndoBlock unwound state).1.filter Call.isNotification = [] := by
  induction unwound generalizing state with
  | nil => rfl
  | cons blockElement remaining ih =>
    simp only [unwindLocalChain, List.filter_cons, Call.isNotification]
    exact ih _

theorem unwindLocalChain_filterMap_difficultyChecker {κ : Type}
    (UndoBlock : BlockElement → ObserverState κ → ObserverState κ)
    (unwound : List BlockElement) (state : ObserverState κ) :
    (unwindLocalChain UndoBlock unwound state).1.filterMap Call.difficultyChecker? = [] := by
  induction unwound generalizing state with
  | nil => rfl
  | cons blockElement remaining ih =>
    simp only [unwindLocalChain, List.filterMap_cons, Call.difficultyChecker?]
    exact ih _

theorem unwindLocalChain_filterMap_stateChange {κ : Type}
    (UndoBlock : BlockElement → ObserverState κ → ObserverState κ)
    (unwound : List BlockElement) (state : ObserverState κ) :
    (unwindLocalChain UndoBlock unwound state).1.filterMap Call.stateChange? = [] := by
  induction unwound generalizing state with
  | nil => rfl
  | cons blockElement remaining ih =>
    simp only [unwindLocalChain, List.filterMap_cons, Call.stateChange?]
    exact ih _

theorem unwindLocalChain_filterMap_transactionsChange {κ : Type}
    (UndoBlock : BlockElement → ObserverState κ → ObserverState κ)
    (unwound : List BlockElement) (state : ObserverState κ) :
    (unwindLocalChain UndoBlock unwound state).1.filterMap Call.transactionsChange? = [] := by
  induction unwound generalizing state with
  | nil => rfl
  | cons blockElement remaining ih =>
    simp only [unwindLocalChain, List.filterMap_cons, Call.transactionsChange?]
    exact ih _

/-- The undo calls of the unwinder are made on the given blocks, in the given order. -/
theorem unwindLocalChain_undo_blocks {κ : Type}
    (UndoBlock : BlockElement → ObserverState κ → ObserverState κ)
    (unwound : List BlockElement) (state : ObserverState κ) :
    ((unwindLocalChain UndoBlock unwound state).1.filterMap Call.undoBlock?).map Prod.fst
      = unwound := by
  induction unwound generalizing state with
  | nil => rfl
  | cons blockElement remaining ih =>
    simp only [unwindLocalChain, List.filterMap_cons, Call.undoBlock?, List.map_cons]
    rw [ih]

/-- The i-th undo call of the unwinder sees the state left by the undos before it. -/
theorem unwindLocalChain_undo_states {κ : Type}
    (UndoBlock : BlockElement → ObserverState κ → ObserverState κ)
    (unwound : List BlockElement) (state : ObserverState κ) (i : Nat) (hi : i < unwound.length) :
    (((unwindLocalChain UndoBlock unwound state).1.filterMap Call.undoBlock?)[i]?).map Prod.snd
      = some ((unwound.take i).foldl (fun st blockElement => UndoBlock blockElement st) state) := by
  induction unwound generalizing state i with
  | nil => simp at hi
  | cons blockElement remaining ih =>
    simp only [unwindLocalChain, List.filterMap_cons, Call.undoBlock?]
    cases i with
    | zero => simp
    | succ j =>
      simp only [List.getElem?_cons_succ, List.take_succ_cons, List.foldl_cons]
      exact ih _ j (by simpa using hi)

/-- A linked candidate has its parent in storage. -/
theorem loadBlockElement_common (storage : List BlockElement) (peerStartHeight : Nat)
    (h : peerStartHeight - 2 < storage.length) (h2 : 2 ≤ peerStartHeight) :
    loadBlockElement storage (peerStartHeight - 1) = some (storage.get ⟨peerStartHeight - 2, h⟩) := by
  unfold loadBlockElement
  have h1 : peerStartHeight - 1 ≠ 0 := by omega
  have h3 : peerStartHeight - 1 - 1 = peerStartHeight - 2 := by omega
  rw [if_neg h1, h3]
  exact List.getElem?_eq_getElem h

theorem IsLinked_iff (peerStartHeight localChainHeight : Nat) (source : InputSource) :
    IsLinked peerStartHeight localChainHeight source = true ↔
      2 ≤ peerStartHeight ∧ peerStartHeight ≤ localChainHeight + 1
        ∧ (source = InputSource.Remote_Pull ∨ localChainHeight ≤ peerStartHeight) := by
  simp [IsLinked, and_assoc]

/-- Once the pre-check and the difficulty check pass, the undo calls of a sync are those of the unwinder. -/
theorem sync_undo_calls {κ : Type} (handlers : BlockChainSyncHandlers κ)
    (CalculateChainScore : Block → List Block → Nat) (node : NodeState κ) (input : ConsumerInput)
    (hLinked : IsLinked input.first.Block.Height (chainHeight node.Storage) input.source = true)
    (hDifficulty : handlers.DifficultyChecker (ExtractBlocks input.blocks) node.Cache = true) :
    (BlockChainSyncConsumer handlers CalculateChainScore node input).Calls.filterMap Call.undoBlock?
      = (unwindLocalChain handlers.UndoBlock (unwoundElements node input).reverse
          (ObserverState.mk node.Cache node.State)).1.filterMap Call.undoBlock? := by
  unfold BlockChainSyncConsumer syncFromCommonBlock unwoundElements
  simp only [dif_pos hLinked, if_pos hDifficulty]
  split_ifs <;>
    simp [List.filterMap_cons, List.filterMap_append, Call.undoBlock?]

/-- The i-th unwound block, counted from the tip, is the stored block at height tip - i. -/
theorem unwound_reverse_getElem? (storage : List BlockElement) (peerStartHeight i : Nat)
    (h2 : 2 ≤ peerStartHeight) (hi : i < storage.length + 1 - peerStartHeight) :
    (storage.drop (peerStartHeight - 1)).reverse[i]?
      = loadBlockElement storage (storage.length - i) := by
  unfold loadBlockElement
  have h1 : storage.length - i ≠ 0 := by omega
  rw [if_neg h1, List.getElem?_reverse (by simp; omega), List.getElem?_drop]
  congr 1
  simp only [List.length_drop]
  omega

theorem updateGenerationHashes_length (elements : List BlockElement) (hashes : List Nat) :
    (updateGenerationHashes elements hashes).length = elements.length := by
  induction elements generalizing hashes with
  | nil => rfl
  | cons element elements ih =>
    cases hashes with
    | nil => rfl
    | cons generationHash hashes => simp [updateGenerationHashes, ih]

theorem updateGenerationHashes_transactionHashes (elements : List BlockElement)
    (hashes : List Nat) :
    ExtractTransactionHashes (updateGenerationHashes elements hashes)
      = ExtractTransactionHashes elements := by
  induction elements generalizing hashes with
  | nil => rfl
  | cons element elements ih =>
    cases hashes with
    | nil => rfl
    | cons generationHash hashes =>
      simp only [updateGenerationHashes, ExtractTransactionHashes, List.flatMap_cons] at ih ⊢
      rw [ih]

theorem foldl_saveBlock (elements storage : List BlockElement) :
    elements.foldl saveBlock storage = storage ++ elements := by
  induction elements generalizing storage with
  | nil => simp
  | cons element elements ih => simp [saveBlock, ih]

/-- Hashes of the transaction infos of blocks are the transaction hashes of these blocks. -/
theorem CopyHashes_ExtractTransactionInfos (elements : List BlockElement) :
    CopyHashes (ExtractTransactionInfos elements) = ExtractTransactionHashes elements := by
  induction elements with
  | nil => rfl
  | cons element elements ih =>
    simp only [CopyHashes, ExtractTransactionInfos, ExtractTransactionHashes, List.flatMap_cons,
      List.map_append, List.map_map] at ih ⊢
    rw [ih]
    rfl

theorem mem_ExtractTransactionHashes_reverse (elements : List BlockElement) (hash : Nat) :
    hash ∈ ExtractTransactionHashes elements.reverse ↔ hash ∈ ExtractTransactionHashes elements := by
  simp [ExtractTransactionHashes, List.mem_flatMap]

/-- A hash is reverted exactly when it is a removed hash that is not an added hash. -/
theorem mem_CopyHashes_CollectRevertedTransactionInfos (added : List Nat)
    (removed : List TransactionInfo) (hash : Nat) :
    hash ∈ CopyHashes (CollectRevertedTransactionInfos added removed)
      ↔ hash ∈ CopyHashes removed ∧ hash ∉ added := by
  simp only [CopyHashes, CollectRevertedTransactionInfos, List.mem_map, List.mem_filter,
    decide_eq_true_eq]
  constructor
  · rintro ⟨info, ⟨hMem, hNot⟩, rfl⟩
    exact ⟨⟨info, hMem, rfl⟩, hNot⟩
  · rintro ⟨⟨info, hMem, rfl⟩, hNot⟩
    exact ⟨info, ⟨hMem, hNot⟩, rfl⟩

/-- Shape of a committed sync: the pre-check and difficulty check passed, the
score delta is positive, and the two notifications are raised once each. -/
theorem sync_continued {κ : Type} (handlers : BlockChainSyncHandlers κ)
    (CalculateChainScore : Block → List Block → Nat) (node : NodeState κ) (input : ConsumerInput)
    (hContinued : (BlockChainSyncConsumer handlers CalculateChainScore node input).Result
      = ConsumerResult.Continued) :
    ∃ commonBlockElement,
      loadBlockElement node.Storage (input.first.Block.Height - 1) = some commonBlockElement
      ∧ 0 < scoreDelta CalculateChainScore node input commonBlockElement
      ∧ (BlockChainSyncConsumer handlers CalculateChainScore node input).Calls.filterMap
          Call.stateChange?
        = [(scoreDelta CalculateChainScore node input commonBlockElement,
            (BlockChainSyncConsumer handlers CalculateChainScore node input).Node.Cache,
            input.first.Block.Height + input.blocks.length - 1)]
      ∧ (BlockChainSyncConsumer handlers CalculateChainScore node input).Calls.filterMap
          Call.transactionsChange?
        = [(ExtractTransactionHashes input.blocks,
            CollectRevertedTransactionInfos (ExtractTransactionHashes input.blocks)
              (ExtractTransactionInfos (unwoundElements node input).reverse))] := by
  unfold BlockChainSyncConsumer at hContinued ⊢
  split_ifs at hContinued ⊢ with hLinked hDifficulty
  have h := (IsLinked_iff _ _ _).1 hLinked
  have hlt : input.first.Block.Height - 2 < node.Storage.length := by
    simp only [chainHeight] at h; omega
  refine ⟨node.Storage.get ⟨input.first.Block.Height - 2, hlt⟩,
    loadBlockElement_common _ _ hlt h.1, ?_⟩
  unfold syncFromCommonBlock at hContinued ⊢
  simp only [] at hContinued ⊢
  split_ifs at hContinued ⊢ with hScore hSuccess
  have hHeight : min (input.first.Block.Height - 1) node.Storage.length + input.blocks.length
      = input.first.Block.Height + input.blocks.length - 1 := by
    simp only [chainHeight] at h; omega
  refine ⟨by simpa only [scoreDelta, unwoundElements, not_le] using hScore, ?_, ?_⟩
  · simp [List.filterMap_cons, List.filterMap_append, Call.stateChange?,
      unwindLocalChain_filterMap_stateChange, scoreDelta, unwoundElements, chainHeight,
      foldl_saveBlock, dropBlocksAfter, updateGenerationHashes_length, hHeight]
  · simp [List.filterMap_cons, List.filterMap_append, Call.transactionsChange?,
      unwindLocalChain_filterMap_transactionsChange, unwoundElements,
      updateGenerationHashes_transactionHashes]

/-- C1: whenever the consumer does not continue (failed height pre-check,
failed difficulty check, score not better, or a processor result other than
Success), the node state after the call (block storage, committed cache and
last recalculation marker) equals the node state before it, and the call log
holds neither a StateChange nor a TransactionsChange invocation. -/
theorem aborted_sync_restores_node_and_is_silent {κ : Type} (handlers : BlockChainSyncHandlers κ)
    (CalculateChainScore : Block → List Block → Nat) (node : NodeState κ) (input : ConsumerInput)
    (hAborted : (BlockChainSyncConsumer handlers CalculateChainScore node input).Result
      ≠ ConsumerResult.Continued) :
    (BlockChainSyncConsumer handlers CalculateChainScore node input).Node = node
    ∧ (BlockChainSyncConsumer handlers CalculateChainScore node input).Calls.filter
        Call.isNotification = [] := by
  unfold BlockChainSyncConsumer syncFromCommonBlock at hAborted ⊢
  simp only [] at hAborted ⊢
  split_ifs at hAborted ⊢ <;>
    simp_all [List.filter_cons, Call.isNotification, unwindLocalChain_filter_isNotification]

/-- Witness of C1: the test ChainWithSmallerScoreIsRejected (local blocks 1-7, candidates 5-6). -/
theorem aborted_sync_restores_node_and_is_silent_witness :
    (BlockChainSyncConsumer (test.Handlers true ValidationResult.Success) test.CalculateChainScore
        (test.Context 7 0) (test.CreateInput 5 2 InputSource.Remote_Pull)).Result
      ≠ ConsumerResult.Continued
    ∧ ((BlockChainSyncConsumer (test.Handlers true ValidationResult.Success)
        test.CalculateChainScore (test.Context 7 0)
        (test.CreateInput 5 2 InputSource.Remote_Pull)).Node = test.Context 7 0
      ∧ (BlockChainSyncConsumer (test.Handlers true ValidationResult.Success)
        test.CalculateChainScore (test.Context 7 0)
        (test.CreateInput 5 2 InputSource.Remote_Pull)).Calls.filter Call.isNotification = []) :=
  ⟨by decide, aborted_sync_restores_node_and_is_silent _ _ _ _ (by decide)⟩

/-- C2: when the height pre-check and the difficulty check pass, the parent of
the first candidate is in storage and, with scoreDelta the score of the
candidate blocks minus the score of the unwound local blocks, a scoreDelta of
at most zero (equal scores included) aborts with ScoreNotBetter, and the
consumer continues (commits) only when scoreDelta is strictly positive. -/
theorem score_not_better_aborts {κ : Type} (handlers : BlockChainSyncHandlers κ)
    (CalculateChainScore : Block → List Block → Nat) (node : NodeState κ) (input : ConsumerInput)
    (hLinked : IsLinked input.first.Block.Height (chainHeight node.Storage) input.source = true)
    (hDifficulty : handlers.DifficultyChecker (ExtractBlocks input.blocks) node.Cache = true) :
    ∃ commonBlockElement,
      loadBlockElement node.Storage (input.first.Block.Height - 1) = some commonBlockElement
      ∧ (scoreDelta CalculateChainScore node input commonBlockElement ≤ 0 →
          (BlockChainSyncConsumer handlers CalculateChainScore node input).Result
            = ConsumerResult.Aborted AbortCode.Failure_Consumer_Remote_Chain_Score_Not_Better)
      ∧ ((BlockChainSyncConsumer handlers CalculateChainScore node input).Result
            = ConsumerResult.Continued →
          0 < scoreDelta CalculateChainScore node input commonBlockElement) := by
  have h := (IsLinked_iff _ _ _).1 hLinked
  have hlt : input.first.Block.Height - 2 < node.Storage.length := by
    simp only [chainHeight] at h; omega
  refine ⟨node.Storage.get ⟨input.first.Block.Height - 2, hlt⟩,
    loadBlockElement_common _ _ hlt h.1, ?_, ?_⟩
  · intro hScore
    unfold BlockChainSyncConsumer syncFromCommonBlock
    simp only [scoreDelta, unwoundElements] at hScore
    simp only [dif_pos hLinked, if_pos hDifficulty, if_pos hScore]
  · intro hContinued
    unfold BlockChainSyncConsumer syncFromCommonBlock at hContinued
    simp only [dif_pos hLinked, if_pos hDifficulty] at hContinued
    simp only [scoreDelta, unwoundElements]
    split_ifs at hContinued with h1 h2
    · omega

/-- Witness of C2: the test ChainWithIdenticalScoreIsRejected (local blocks 1-7, candidates 6-7). -/
theorem score_not_better_aborts_witness :
    IsLinked (test.CreateInput 6 2 InputSource.Remote_Pull).first.Block.Height
      (chainHeight (test.Context 7 0).Storage) InputSource.Remote_Pull = true
    ∧ (test.Handlers true ValidationResult.Success).DifficultyChecker
      (ExtractBlocks (test.CreateInput 6 2 InputSource.Remote_Pull).blocks)
      (test.Context 7 0).Cache = true
    ∧ ∃ commonBlockElement,
      loadBlockElement (test.Context 7 0).Storage
        ((test.CreateInput 6 2 InputSource.Remote_Pull).first.Block.Height - 1)
          = some commonBlockElement
      ∧ (scoreDelta test.CalculateChainScore (test.Context 7 0)
            (test.CreateInput 6 2 InputSource.Remote_Pull) commonBlockElement ≤ 0 →
          (BlockChainSyncConsumer (test.Handlers true ValidationResult.Success)
            test.CalculateChainScore (test.Context 7 0)
            (test.CreateInput 6 2 InputSource.Remote_Pull)).Result
            = ConsumerResult.Aborted AbortCode.Failure_Consumer_Remote_Chain_Score_Not_Better)
      ∧ ((BlockChainSyncConsumer (test.Handlers true ValidationResult.Success)
            test.CalculateChainScore (test.Context 7 0)
            (test.CreateInput 6 2 InputSource.Remote_Pull)).Result = ConsumerResult.Continued →
          0 < scoreDelta test.CalculateChainScore (test.Context 7 0)
            (test.CreateInput 6 2 InputSource.Remote_Pull) commonBlockElement) :=
  ⟨by decide, by decide,
    score_not_better_aborts (test.Handlers true ValidationResult.Success)
      test.CalculateChainScore (test.Context 7 0) (test.CreateInput 6 2 InputSource.Remote_Pull)
      (by decide) (by decide)⟩

/-- C3: for every source, a candidate whose first block height is less than 2
or greater than the local chain height + 1 aborts with RemoteChainUnlinked and
no handler is invoked: neither the difficulty checker, nor UndoBlock, nor the
processor. -/
theorem unlinked_height_aborts_before_any_call {κ : Type} (handlers : BlockChainSyncHandlers κ)
    (CalculateChainScore : Block → List Block → Nat) (node : NodeState κ) (input : ConsumerInput)
    (hHeight : input.first.Block.Height < 2
      ∨ chainHeight node.Storage + 1 < input.first.Block.Height) :
    (BlockChainSyncConsumer handlers CalculateChainScore node input).Result
      = ConsumerResult.Aborted AbortCode.Failure_Consumer_Remote_Chain_Unlinked
    ∧ (BlockChainSyncConsumer handlers CalculateChainScore node input).Calls = [] := by
  have hNotLinked :
      ¬ IsLinked input.first.Block.Height (chainHeight node.Storage) input.source = true := by
    rw [IsLinked_iff]
    omega
  unfold BlockChainSyncConsumer
  simp only [dif_neg hNotLinked, and_self]

/-- Witness of C3: the test RemoteChainWithHeightMoreThanOneGreaterThanLocalHeightIsRejected. -/
theorem unlinked_height_aborts_before_any_call_witness :
    (BlockChainSyncConsumer (test.Handlers true ValidationResult.Success) test.CalculateChainScore
        (test.Context 100 0) (test.CreateInput 102 3 InputSource.Remote_Pull)).Result
      = ConsumerResult.Aborted AbortCode.Failure_Consumer_Remote_Chain_Unlinked
    ∧ (BlockChainSyncConsumer (test.Handlers true ValidationResult.Success)
        test.CalculateChainScore (test.Context 100 0)
        (test.CreateInput 102 3 InputSource.Remote_Pull)).Calls = [] :=
  unlinked_height_aborts_before_any_call _ _ _ _ (Or.inr (by decide))

/-- C4 as stated fails: in the test
RemoteChainWithHeightAtOrOneGreaterThanLocalHeightIsValidForAllSources a
candidate whose first height (100) equals the local chain height (100) comes
from source Local, not Remote_Pull, and yet is not rejected as unlinked: the
difficulty checker is called. -/
theorem first_height_at_local_height_is_linked_for_local_source :
    (test.CreateInput 100 1 InputSource.Local).first.Block.Height
      ≤ chainHeight (test.Context 100 0).Storage
    ∧ (test.CreateInput 100 1 InputSource.Local).source ≠ InputSource.Remote_Pull
    ∧ (BlockChainSyncConsumer (test.Handlers true ValidationResult.Success)
        test.CalculateChainScore (test.Context 100 0)
        (test.CreateInput 100 1 InputSource.Local)).Result
      ≠ ConsumerResult.Aborted AbortCode.Failure_Consumer_Remote_Chain_Unlinked
    ∧ ((BlockChainSyncConsumer (test.Handlers true ValidationResult.Success)
        test.CalculateChainScore (test.Context 100 0)
        (test.CreateInput 100 1 InputSource.Local)).Calls.filterMap
          Call.difficultyChecker?).length = 1 := by
  decide

/-- C4 (amended): for every candidate whose first block height is strictly less
than the local chain height and every source other than Remote_Pull (Unknown,
Local, Remote_Push), the consumer aborts with RemoteChainUnlinked before any
handler is called; so the height pre-check of such a candidate passes only for
Remote_Pull. -/
theorem first_height_below_local_height_needs_remote_pull {κ : Type}
    (handlers : BlockChainSyncHandlers κ) (CalculateChainScore : Block → List Block → Nat)
    (node : NodeState κ) (input : ConsumerInput)
    (hBelow : input.first.Block.Height < chainHeight node.Storage)
    (hSource : input.source ≠ InputSource.Remote_Pull) :
    (BlockChainSyncConsumer handlers CalculateChainScore node input).Result
      = ConsumerResult.Aborted AbortCode.Failure_Consumer_Remote_Chain_Unlinked
    ∧ (BlockChainSyncConsumer handlers CalculateChainScore node input).Calls = [] := by
  have hNotLinked :
      ¬ IsLinked input.first.Block.Height (chainHeight node.Storage) input.source = true := by
    rw [IsLinked_iff]
    rintro ⟨-, -, h | h⟩
    · exact hSource h
    · omega
  unfold BlockChainSyncConsumer
  simp only [dif_neg hNotLinked, and_self]

/-- Witness of C4 (amended): the test
RemoteChainWithHeightLessThanLocalHeightIsOnlyValidForRemotePullSource with source Remote_Push. -/
theorem first_height_below_local_height_needs_remote_pull_witness :
    (test.CreateInput 99 1 InputSource.Remote_Push).first.Block.Height
      < chainHeight (test.Context 100 0).Storage
    ∧ (test.CreateInput 99 1 InputSource.Remote_Push).source ≠ InputSource.Remote_Pull
    ∧ (BlockChainSyncConsumer (test.Handlers true ValidationResult.Success)
        test.CalculateChainScore (test.Context 100 0)
        (test.CreateInput 99 1 InputSource.Remote_Push)).Result
      = ConsumerResult.Aborted AbortCode.Failure_Consumer_Remote_Chain_Unlinked
    ∧ (BlockChainSyncConsumer (test.Handlers true ValidationResult.Success)
        test.CalculateChainScore (test.Context 100 0)
        (test.CreateInput 99 1 InputSource.Remote_Push)).Calls = [] :=
  ⟨by decide, by decide,
    first_height_below_local_height_needs_remote_pull _ _ _ _ (by decide) (by decide)⟩

/-- C5: for every source, a candidate whose first block height is at least 2 and
equal to the local chain height or to the local chain height + 1 passes the
height pre-check: the difficulty checker is invoked exactly once, with the
candidate blocks and the committed cache. -/
theorem first_height_at_or_above_local_height_is_checked_once {κ : Type}
    (handlers : BlockChainSyncHandlers κ) (CalculateChainScore : Block → List Block → Nat)
    (node : NodeState κ) (input : ConsumerInput)
    (hTwo : 2 ≤ input.first.Block.Height)
    (hHeight : input.first.Block.Height = chainHeight node.Storage
      ∨ input.first.Block.Height = chainHeight node.Storage + 1) :
    (BlockChainSyncConsumer handlers CalculateChainScore node input).Calls.filterMap
        Call.difficultyChecker? = [(ExtractBlocks input.blocks, node.Cache)] := by
  have hLinked :
      IsLinked input.first.Block.Height (chainHeight node.Storage) input.source = true := by
    rw [IsLinked_iff]
    omega
  unfold BlockChainSyncConsumer syncFromCommonBlock
  simp only [dif_pos hLinked]
  split_ifs <;>
    simp [List.filterMap_cons, List.filterMap_append, Call.difficultyChecker?,
      unwindLocalChain_filterMap_difficultyChecker]

/-- Witness of C5: the test
RemoteChainWithHeightAtOrOneGreaterThanLocalHeightIsValidForAllSources with source Unknown. -/
theorem first_height_at_or_above_local_height_is_checked_once_witness :
    2 ≤ (test.CreateInput 101 1 InputSource.Unknown).first.Block.Height
    ∧ (test.CreateInput 101 1 InputSource.Unknown).first.Block.Height
      = chainHeight (test.Context 100 0).Storage + 1
    ∧ (BlockChainSyncConsumer (test.Handlers true ValidationResult.Success)
        test.CalculateChainScore (test.Context 100 0)
        (test.CreateInput 101 1 InputSource.Unknown)).Calls.filterMap Call.difficultyChecker?
      = [(ExtractBlocks (test.CreateInput 101 1 InputSource.Unknown).blocks,
          (test.Context 100 0).Cache)] :=
  ⟨by decide, by decide,
    first_height_at_or_above_local_height_is_checked_once _ _ _ _ (by decide)
      (Or.inr (by decide))⟩

/-- C6: for a sync with local chain height L and first candidate height S that
passes the height pre-check (so 2 <= S <= L + 1) and the difficulty check,
UndoBlock is invoked exactly L - S + 1 times; the i-th invocation (counted from
0) is made on the block stored at height L - i, so the heights run
L, L-1, ..., S in strictly descending order; and it is handed the observer
state (cache delta and marker) obtained by applying the previous i undos, in
call order, to the committed cache and marker. -/
theorem undo_calls_descend_from_tip_and_thread_state {κ : Type}
    (handlers : BlockChainSyncHandlers κ) (CalculateChainScore : Block → List Block → Nat)
    (node : NodeState κ) (input : ConsumerInput)
    (hLinked : IsLinked input.first.Block.Height (chainHeight node.Storage) input.source = true)
    (hDifficulty : handlers.DifficultyChecker (ExtractBlocks input.blocks) node.Cache = true) :
    ((BlockChainSyncConsumer handlers CalculateChainScore node input).Calls.filterMap
        Call.undoBlock?).length = chainHeight node.Storage + 1 - input.first.Block.Height
    ∧ ∀ i, i < chainHeight node.Storage + 1 - input.first.Block.Height →
        ∃ blockElement state,
          ((BlockChainSyncConsumer handlers CalculateChainScore node input).Calls.filterMap
            Call.undoBlock?)[i]? = some (blockElement, state)
          ∧ loadBlockElement node.Storage (chainHeight node.Storage - i) = some blockElement
          ∧ state = ((((BlockChainSyncConsumer handlers CalculateChainScore node input).Calls.filterMap
              Call.undoBlock?).take i).map Prod.fst).foldl
                (fun st undone => handlers.UndoBlock undone st)
                (ObserverState.mk node.Cache node.State) := by
  have h := (IsLinked_iff _ _ _).1 hLinked
  rw [sync_undo_calls handlers CalculateChainScore node input hLinked hDifficulty]
  have hBlocks := unwindLocalChain_undo_blocks handlers.UndoBlock
    (unwoundElements node input).reverse (ObserverState.mk node.Cache node.State)
  have hLength : ((unwindLocalChain handlers.UndoBlock (unwoundElements node input).reverse
      (ObserverState.mk node.Cache node.State)).1.filterMap Call.undoBlock?).length
        = chainHeight node.Storage + 1 - input.first.Block.Height := by
    have hUnwound : (unwoundElements node input).length
        = node.Storage.length - (input.first.Block.Height - 1) := by
      simp only [unwoundElements, List.length_drop]
    have := congrArg List.length hBlocks
    simp only [List.length_map, List.length_reverse, hUnwound] at this
    simp only [chainHeight] at h ⊢
    omega
  refine ⟨hLength, ?_⟩
  intro i hi
  have hiLength : i < (unwoundElements node input).reverse.length := by
    simp only [List.length_reverse, unwoundElements, List.length_drop]
    simp only [chainHeight] at hi
    omega
  have hStates := unwindLocalChain_undo_states handlers.UndoBlock
    (unwoundElements node input).reverse (ObserverState.mk node.Cache node.State) i hiLength
  have hElem := unwound_reverse_getElem? node.Storage input.first.Block.Height i h.1
    (by simpa only [chainHeight] using hi)
  generalize (unwindLocalChain handlers.UndoBlock (unwoundElements node input).reverse
      (ObserverState.mk node.Cache node.State)).1.filterMap Call.undoBlock? = undoCalls
      at hBlocks hLength hStates ⊢
  have hSome : undoCalls[i]? = some (undoCalls[i]) :=
    List.getElem?_eq_getElem (by omega)
  refine ⟨undoCalls[i].1, undoCalls[i].2, hSome, ?_, ?_⟩
  · unfold chainHeight
    rw [← hElem]
    have : (undoCalls.map Prod.fst)[i]? = some (undoCalls[i]).1 := by
      rw [List.getElem?_map, hSome]; rfl
    rw [hBlocks] at this
    exact this
  · rw [hSome] at hStates
    simp only [Option.map_some', Option.some.injEq] at hStates
    rw [hStates, List.map_take, hBlocks]

/-- Witness of C6: the test CanSyncIncompatibleChains (local blocks 1-7, candidates 5-8). -/
theorem undo_calls_descend_from_tip_and_thread_state_witness :
    IsLinked (test.CreateInput 5 4 InputSource.Remote_Pull).first.Block.Height
      (chainHeight (test.Context 7 0).Storage) InputSource.Remote_Pull = true
    ∧ ((BlockChainSyncConsumer (test.Handlers true ValidationResult.Success)
        test.CalculateChainScore (test.Context 7 0)
        (test.CreateInput 5 4 InputSource.Remote_Pull)).Calls.filterMap
          Call.undoBlock?).length = 7 + 1 - 5
    ∧ ∀ i, i < 7 + 1 - 5 →
        ∃ blockElement state,
          ((BlockChainSyncConsumer (test.Handlers true ValidationResult.Success)
            test.CalculateChainScore (test.Context 7 0)
            (test.CreateInput 5 4 InputSource.Remote_Pull)).Calls.filterMap
              Call.undoBlock?)[i]? = some (blockElement, state)
          ∧ loadBlockElement (test.Context 7 0).Storage (7 - i) = some blockElement
          ∧ state = ((((BlockChainSyncConsumer (test.Handlers true ValidationResult.Success)
              test.CalculateChainScore (test.Context 7 0)
              (test.CreateInput 5 4 InputSource.Remote_Pull)).Calls.filterMap
                Call.undoBlock?).take i).map Prod.fst).foldl
                  (fun st undone => test.MockUndoBlock undone st)
                  (ObserverState.mk (test.Context 7 0).Cache (test.Context 7 0).State) :=
  ⟨by decide,
    undo_calls_descend_from_tip_and_thread_state (test.Handlers true ValidationResult.Success)
      test.CalculateChainScore (test.Context 7 0) (test.CreateInput 5 4 InputSource.Remote_Pull)
      (by decide) (by decide)⟩

/-- C7: for every committed sync, TransactionsChange is raised once, and a hash
is the hash of one of its reverted transaction infos exactly when it is a
transaction hash of an unwound local block and not a transaction hash of a
candidate block; the added hashes are the candidate hashes, so no added hash
is a reverted hash. -/
theorem reverted_hashes_are_unwound_minus_candidate {κ : Type}
    (handlers : BlockChainSyncHandlers κ) (CalculateChainScore : Block → List Block → Nat)
    (node : NodeState κ) (input : ConsumerInput)
    (hContinued : (BlockChainSyncConsumer handlers CalculateChainScore node input).Result
      = ConsumerResult.Continued) :
    ∃ addedHashes revertedInfos,
      (BlockChainSyncConsumer handlers CalculateChainScore node input).Calls.filterMap
          Call.transactionsChange? = [(addedHashes, revertedInfos)]
      ∧ (∀ hash, hash ∈ CopyHashes revertedInfos ↔
          hash ∈ ExtractTransactionHashes (unwoundElements node input)
            ∧ hash ∉ ExtractTransactionHashes input.blocks)
      ∧ (∀ hash, hash ∈ addedHashes → hash ∉ CopyHashes revertedInfos) := by
  obtain ⟨_, -, -, -, hCalls⟩ :=
    sync_continued handlers CalculateChainScore node input hContinued
  refine ⟨_, _, hCalls, ?_, ?_⟩
  · intro hash
    rw [mem_CopyHashes_CollectRevertedTransactionInfos, CopyHashes_ExtractTransactionInfos,
      mem_ExtractTransactionHashes_reverse]
  · intro hash hAdded hReverted
    rw [mem_CopyHashes_CollectRevertedTransactionInfos] at hReverted
    exact hReverted.2 hAdded

/-- Witness of C7: the test CanSyncIncompatibleChains_TransactionNotification setting
(local blocks 1-7 with three transactions each, candidates 5-8). -/
theorem reverted_hashes_are_unwound_minus_candidate_witness :
    (BlockChainSyncConsumer (test.Handlers true ValidationResult.Success) test.CalculateChainScore
        (test.Context 7 3) (test.CreateInput 5 4 InputSource.Remote_Pull)).Result
      = ConsumerResult.Continued
    ∧ ∃ addedHashes revertedInfos,
      (BlockChainSyncConsumer (test.Handlers true ValidationResult.Success)
          test.CalculateChainScore (test.Context 7 3)
          (test.CreateInput 5 4 InputSource.Remote_Pull)).Calls.filterMap
            Call.transactionsChange? = [(addedHashes, revertedInfos)]
      ∧ (∀ hash, hash ∈ CopyHashes revertedInfos ↔
          hash ∈ ExtractTransactionHashes
              (unwoundElements (test.Context 7 3) (test.CreateInput 5 4 InputSource.Remote_Pull))
            ∧ hash ∉ ExtractTransactionHashes (test.CreateInput 5 4 InputSource.Remote_Pull).blocks)
      ∧ (∀ hash, hash ∈ addedHashes → hash ∉ CopyHashes revertedInfos) :=
  ⟨by decide, reverted_hashes_are_unwound_minus_candidate _ _ _ _ (by decide)⟩

/-- C8 as stated fails: in the test
CanSyncIncompatibleChainsWithSharedTransacions_TransactionNotification the hash
701 occurs in the unwound local block 7 and in the candidate block 5, and it is
one of the eight added hashes of the TransactionsChange notification (it is
absent only from the seven reverted hashes). -/
theorem shared_hash_is_reported_as_added :
    (BlockChainSyncConsumer (test.Handlers true ValidationResult.Success) test.CalculateChainScore
        (test.Context 7 3) test.SharedTransactionsInput).Result = ConsumerResult.Continued
    ∧ 701 ∈ ExtractTransactionHashes (unwoundElements (test.Context 7 3) test.SharedTransactionsInput)
    ∧ 701 ∈ ExtractTransactionHashes test.SharedTransactionsInput.blocks
    ∧ ((BlockChainSyncConsumer (test.Handlers true ValidationResult.Success)
          test.CalculateChainScore (test.Context 7 3) test.SharedTransactionsInput).Calls.filterMap
            Call.transactionsChange?).map (fun change => (change.1, CopyHashes change.2))
        = [([9001, 701, 9002, 9003, 9004, 502, 9005, 9006], [700, 702, 600, 601, 602, 500, 501])]
    ∧ 701 ∈ [9001, 701, 9002, 9003, 9004, 502, 9005, 9006] := by
  decide

/-- C8 (amended): for every committed sync, a transaction hash that occurs both
in an unwound local block and in a candidate block is absent from the reverted
infos of the TransactionsChange notification and present among its added
hashes. -/
theorem shared_hash_is_added_and_not_reverted {κ : Type}
    (handlers : BlockChainSyncHandlers κ) (CalculateChainScore : Block → List Block → Nat)
    (node : NodeState κ) (input : ConsumerInput) (hash : Nat)
    (hContinued : (BlockChainSyncConsumer handlers CalculateChainScore node input).Result
      = ConsumerResult.Continued)
    (hUnwound : hash ∈ ExtractTransactionHashes (unwoundElements node input))
    (hCandidate : hash ∈ ExtractTransactionHashes input.blocks) :
    ∃ addedHashes revertedInfos,
      (BlockChainSyncConsumer handlers CalculateChainScore node input).Calls.filterMap
          Call.transactionsChange? = [(addedHashes, revertedInfos)]
      ∧ hash ∈ addedHashes
      ∧ hash ∉ CopyHashes revertedInfos := by
  have _ := hUnwound
  obtain ⟨_, -, -, -, hCalls⟩ :=
    sync_continued handlers CalculateChainScore node input hContinued
  refine ⟨_, _, hCalls, hCandidate, ?_⟩
  intro hReverted
  rw [mem_CopyHashes_CollectRevertedTransactionInfos] at hReverted
  exact hReverted.2 hCandidate

/-- Witness of C8 (amended): the shared hash 502 of the shared-transactions test. -/
theorem shared_hash_is_added_and_not_reverted_witness :
    502 ∈ ExtractTransactionHashes (unwoundElements (test.Context 7 3) test.SharedTransactionsInput)
    ∧ 502 ∈ ExtractTransactionHashes test.SharedTransactionsInput.blocks
    ∧ ∃ addedHashes revertedInfos,
      (BlockChainSyncConsumer (test.Handlers true ValidationResult.Success)
          test.CalculateChainScore (test.Context 7 3) test.SharedTransactionsInput).Calls.filterMap
            Call.transactionsChange? = [(addedHashes, revertedInfos)]
      ∧ 502 ∈ addedHashes
      ∧ 502 ∉ CopyHashes revertedInfos :=
  ⟨by decide, by decide,
    shared_hash_is_added_and_not_reverted _ _ _ _ 502 (by decide) (by decide) (by decide)⟩

/-- C9: for every accepted input, StateChange is invoked exactly once; its score
delta is the score of the candidate blocks minus the score of the unwound local
blocks (both relative to the stored parent of the first candidate) and is
strictly positive, and its height is the first candidate height plus the number
of candidate blocks minus 1. -/
theorem state_change_reports_positive_score_delta_and_new_height {κ : Type}
    (handlers : BlockChainSyncHandlers κ) (CalculateChainScore : Block → List Block → Nat)
    (node : NodeState κ) (input : ConsumerInput)
    (hContinued : (BlockChainSyncConsumer handlers CalculateChainScore node input).Result
      = ConsumerResult.Continued) :
    ∃ commonBlockElement cacheDelta,
      loadBlockElement node.Storage (input.first.Block.Height - 1) = some commonBlockElement
      ∧ (BlockChainSyncConsumer handlers CalculateChainScore node input).Calls.filterMap
          Call.stateChange?
        = [(scoreDelta CalculateChainScore node input commonBlockElement, cacheDelta,
            input.first.Block.Height + input.blocks.length - 1)]
      ∧ 0 < scoreDelta CalculateChainScore node input commonBlockElement := by
  obtain ⟨commonBlockElement, hLoad, hScore, hCalls, -⟩ :=
    sync_continued handlers CalculateChainScore node input hContinued
  exact ⟨commonBlockElement, _, hLoad, hCalls, hScore⟩

/-- Witness of C9: the test CanSyncIncompatibleChainsWhereShorterRemoteChainHasHigherScore:
one candidate of difficulty 3 * base replaces three local blocks of difficulty
base; the reported delta is 2 and the reported height 5. -/
theorem state_change_reports_positive_score_delta_and_new_height_witness :
    ((BlockChainSyncConsumer (test.Handlers true ValidationResult.Success)
        test.CalculateChainScore (test.Context 7 0) test.HeavierInput).Calls.filterMap
          Call.stateChange?).map (fun change => (change.1, change.2.2)) = [(2, 5)]
    ∧ ∃ commonBlockElement cacheDelta,
      loadBlockElement (test.Context 7 0).Storage (test.HeavierInput.first.Block.Height - 1)
        = some commonBlockElement
      ∧ (BlockChainSyncConsumer (test.Handlers true ValidationResult.Success)
          test.CalculateChainScore (test.Context 7 0) test.HeavierInput).Calls.filterMap
            Call.stateChange?
        = [(scoreDelta test.CalculateChainScore (test.Context 7 0) test.HeavierInput
              commonBlockElement, cacheDelta,
            test.HeavierInput.first.Block.Height + test.HeavierInput.blocks.length - 1)]
      ∧ 0 < scoreDelta test.CalculateChainScore (test.Context 7 0) test.HeavierInput
          commonBlockElement :=
  ⟨by decide,
    state_change_reports_positive_score_delta_and_new_height _ _ _ _ (by decide)⟩

end consumers

/-! ## Account state cache delta: theorems -/

namespace cache

open state

theorem KeyLookupMap.remove_cons (pair : Nat × Nat) (pairs : List (Nat × Nat)) (removed : Nat) :
    KeyLookupMap.remove (pair :: pairs) removed
      = if pair.1 = removed then KeyLookupMap.remove pairs removed
        else pair :: KeyLookupMap.remove pairs removed := by
  unfold KeyLookupMap.remove
  by_cases h : pair.1 = removed <;> simp [List.filter_cons, h]

theorem KeyLookupMap.find_remove (map : List (Nat × Nat)) (removed publicKey : Nat) :
    KeyLookupMap.find (KeyLookupMap.remove map removed) publicKey
      = if publicKey = removed then none else KeyLookupMap.find map publicKey := by
  induction map with
  | nil => simp [KeyLookupMap.remove, KeyLookupMap.find]
  | cons pair pairs ih =>
    rw [KeyLookupMap.remove_cons]
    by_cases h1 : pair.1 = removed
    · rw [if_pos h1, ih]
      by_cases h2 : publicKey = removed
      · simp [h2]
      · have h3 : ¬ pair.1 = publicKey := fun h => h2 (h ▸ h1)
        simp [h2, KeyLookupMap.find, h3]
    · rw [if_neg h1]
      simp only [KeyLookupMap.find, ih]
      by_cases h2 : publicKey = removed
      · have h3 : ¬ pair.1 = publicKey := fun h => h1 (h.trans h2)
        simp [h2, h1]
      · simp [h2]

theorem KeyLookupMap.mem_of_find (map : List (Nat × Nat)) (publicKey address : Nat)
    (h : KeyLookupMap.find map publicKey = some address) : (publicKey, address) ∈ map := by
  induction map with
  | nil => simp [KeyLookupMap.find] at h
  | cons pair pairs ih =>
    simp only [KeyLookupMap.find] at h
    split_ifs at h with h1
    · simp only [Option.some.injEq] at h
      simp [← h1, ← h]
    · exact List.mem_cons_of_mem _ (ih h)

/-- Emplace keeps the address of every key that was present. -/
theorem KeyLookupMap.find_emplace_of_find (map : List (Nat × Nat))
    (publicKey address other found : Nat)
    (h : KeyLookupMap.find map other = some found) :
    KeyLookupMap.find (KeyLookupMap.emplace map publicKey address) other = some found := by
  unfold KeyLookupMap.emplace
  split_ifs with h1
  · exact h
  · simp only [KeyLookupMap.find]
    split_ifs with h2
    · simp only [h2, h] at h1
      simp at h1
    · exact h

/-- After emplace the key is present; its address is the old one, or the emplaced one. -/
theorem KeyLookupMap.find_emplace_self (map : List (Nat × Nat)) (publicKey address : Nat) :
    KeyLookupMap.find (KeyLookupMap.emplace map publicKey address) publicKey
      = some ((KeyLookupMap.find map publicKey).getD address) := by
  unfold KeyLookupMap.emplace
  cases h : KeyLookupMap.find map publicKey with
  | none => simp [KeyLookupMap.find]
  | some found => simp [h]

theorem KeyLookupMap.mem_emplace (map : List (Nat × Nat)) (publicKey address : Nat)
    (pair : Nat × Nat) (h : pair ∈ KeyLookupMap.emplace map publicKey address) :
    pair = (publicKey, address) ∨ pair ∈ map := by
  unfold KeyLookupMap.emplace at h
  split_ifs at h
  · exact Or.inr h
  · simpa using h

theorem KeyLookupMap.mem_of_mem_remove (map : List (Nat × Nat)) (publicKey : Nat)
    (pair : Nat × Nat) (h : pair ∈ KeyLookupMap.remove map publicKey) : pair ∈ map := by
  unfold KeyLookupMap.remove at h
  exact (List.mem_filter.1 h).1

theorem PrimarySet.find_some (set : List AccountState) (address : Nat)
    (accountState : AccountState) (h : PrimarySet.find set address = some accountState) :
    accountState ∈ set ∧ accountState.Address = address := by
  unfold PrimarySet.find at h
  exact ⟨List.mem_of_find?_eq_some h, by simpa using List.find?_some h⟩

theorem PrimarySet.mem_insert (set : List AccountState) (accountState stored : AccountState)
    (h : stored ∈ PrimarySet.insert set accountState) : stored = accountState ∨ stored ∈ set := by
  unfold PrimarySet.insert at h
  split_ifs at h
  · exact Or.inr h
  · simpa using h

theorem PrimarySet.mem_remove_iff (set : List AccountState) (address : Nat) (stored : AccountState) :
    stored ∈ PrimarySet.remove set address ↔ stored ∈ set ∧ stored.Address ≠ address := by
  simp [PrimarySet.remove, List.mem_filter]

theorem PrimarySet.mem_modify (set : List AccountState) (address : Nat)
    (update : AccountState → AccountState) (stored : AccountState)
    (h : stored ∈ PrimarySet.modify set address update) :
    ∃ original ∈ set, (original.Address = address ∧ stored = update original)
      ∨ (original.Address ≠ address ∧ stored = original) := by
  unfold PrimarySet.modify at h
  obtain ⟨original, hMem, hEq⟩ := List.mem_map.1 h
  refine ⟨original, hMem, ?_⟩
  split_ifs at hEq with h1
  · exact Or.inl ⟨h1, hEq.symm⟩
  · exact Or.inr ⟨h1, hEq.symm⟩

namespace BasicAccountStateCacheDelta

/-- Under I1 two account states with a public key that share the key share the address. -/
theorem I1_address_eq (delta : BasicAccountStateCacheDelta) (hI1 : I1 delta)
    (first second : AccountState) (hFirst : first ∈ delta.m_pStateByAddress)
    (hSecond : second ∈ delta.m_pStateByAddress) (hFirstKey : first.PublicKeyHeight ≠ 0)
    (hSecondKey : second.PublicKeyHeight ≠ 0) (hKey : second.PublicKey = first.PublicKey) :
    second.Address = first.Address := by
  have h1 := hI1 first hFirst hFirstKey
  have h2 := hI1 second hSecond hSecondKey
  rw [hKey, h1] at h2
  exact (Option.some.inj h2).symm

/-- The address form of addAccount leaves the key lookup map and the options alone. -/
theorem addAccountByAddress_keyToAddress (delta : BasicAccountStateCacheDelta)
    (address height : Nat) :
    (delta.addAccountByAddress address height).m_pKeyToAddress = delta.m_pKeyToAddress
    ∧ (delta.addAccountByAddress address height).m_options = delta.m_options := by
  unfold addAccountByAddress addAccountState
  split_ifs <;> simp_all [AccountState.create]

theorem addAccountState_preserves (PublicKeyToAddress : Nat → Nat → Nat)
    (delta : BasicAccountStateCacheDelta) (accountState : AccountState)
    (hI1 : I1 delta) (hDerived : KeyLookupMapIsDerived PublicKeyToAddress delta)
    (hState : accountState.PublicKeyHeight ≠ 0 → accountState.Address
      = PublicKeyToAddress accountState.PublicKey delta.m_options.NetworkIdentifier) :
    I1 (delta.addAccountState accountState)
    ∧ KeyLookupMapIsDerived PublicKeyToAddress (delta.addAccountState accountState) := by
  unfold addAccountState
  split_ifs with hContains hKey
  · exact ⟨hI1, hDerived⟩
  · have hKey' : accountState.PublicKeyHeight ≠ 0 := fun h => hKey h.symm
    constructor
    · intro stored hStored hStoredKey
      simp only at hStored ⊢
      obtain ⟨original, hOriginal, hCase⟩ := PrimarySet.mem_modify _ _ _ _ hStored
      have hFields : stored.PublicKey = original.PublicKey
          ∧ stored.PublicKeyHeight = original.PublicKeyHeight
          ∧ stored.Address = original.Address := by
        rcases hCase with ⟨-, h⟩ | ⟨-, h⟩ <;> simp [h]
      rw [hFields.1, hFields.2.2]
      rw [hFields.2.1] at hStoredKey
      rcases PrimarySet.mem_insert _ _ _ hOriginal with h | h
      · subst h
        rw [KeyLookupMap.find_emplace_self]
        cases hFind : KeyLookupMap.find delta.m_pKeyToAddress original.PublicKey with
        | none => rfl
        | some found =>
          have := hDerived _ (KeyLookupMap.mem_of_find _ _ _ hFind)
          simp only at this
          simp only [Option.getD_some, Option.some.injEq]
          rw [this, hState hKey']
      · exact KeyLookupMap.find_emplace_of_find _ _ _ _ _ (hI1 original h hStoredKey)
    · intro pair hPair
      simp only at hPair ⊢
      rcases KeyLookupMap.mem_emplace _ _ _ _ hPair with h | h
      · subst h
        exact hState hKey'
      · exact hDerived pair h
  · have hKey' : accountState.PublicKeyHeight = 0 := by
      by_contra h
      exact hKey (fun h0 => h h0.symm)
    constructor
    · intro stored hStored hStoredKey
      simp only at hStored ⊢
      obtain ⟨original, hOriginal, hCase⟩ := PrimarySet.mem_modify _ _ _ _ hStored
      have hFields : stored.PublicKey = original.PublicKey
          ∧ stored.PublicKeyHeight = original.PublicKeyHeight
          ∧ stored.Address = original.Address := by
        rcases hCase with ⟨-, h⟩ | ⟨-, h⟩ <;> simp [h]
      rw [hFields.1, hFields.2.2]
      rw [hFields.2.1] at hStoredKey
      rcases PrimarySet.mem_insert _ _ _ hOriginal with h | h
      · subst h
        exact absurd hKey' hStoredKey
      · exact hI1 original h hStoredKey
    · exact hDerived

theorem addAccountByAddress_preserves (PublicKeyToAddress : Nat → Nat → Nat)
    (delta : BasicAccountStateCacheDelta) (address height : Nat)
    (hI1 : I1 delta) (hDerived : KeyLookupMapIsDerived PublicKeyToAddress delta) :
    I1 (delta.addAccountByAddress address height)
    ∧ KeyLookupMapIsDerived PublicKeyToAddress (delta.addAccountByAddress address height) := by
  unfold addAccountByAddress
  split_ifs
  · exact ⟨hI1, hDerived⟩
  · exact addAccountState_preserves PublicKeyToAddress delta _ hI1 hDerived
      (fun h => absurd rfl h)

/-- After getAddress the key is mapped to the returned address, and the invariants hold. -/
theorem getAddress_preserves (PublicKeyToAddress : Nat → Nat → Nat)
    (delta : BasicAccountStateCacheDelta) (publicKey : Nat)
    (hI1 : I1 delta) (hDerived : KeyLookupMapIsDerived PublicKeyToAddress delta) :
    I1 (getAddress PublicKeyToAddress delta publicKey).2
    ∧ KeyLookupMapIsDerived PublicKeyToAddress (getAddress PublicKeyToAddress delta publicKey).2
    ∧ KeyLookupMap.find (getAddress PublicKeyToAddress delta publicKey).2.m_pKeyToAddress publicKey
        = some (getAddress PublicKeyToAddress delta publicKey).1 := by
  unfold getAddress
  cases hFind : KeyLookupMap.find delta.m_pKeyToAddress publicKey with
  | some address => exact ⟨hI1, hDerived, hFind⟩
  | none =>
    refine ⟨?_, ?_, ?_⟩
    · intro stored hStored hStoredKey
      exact KeyLookupMap.find_emplace_of_find _ _ _ _ _ (hI1 stored hStored hStoredKey)
    · intro pair hPair
      rcases KeyLookupMap.mem_emplace _ _ _ _ hPair with h | h
      · subst h
        rfl
      · exact hDerived pair h
    · simp only [KeyLookupMap.find_emplace_self, hFind, Option.getD_none]

theorem addAccountByPublicKey_preserves (PublicKeyToAddress : Nat → Nat → Nat)
    (delta : BasicAccountStateCacheDelta) (publicKey height : Nat)
    (hI1 : I1 delta) (hDerived : KeyLookupMapIsDerived PublicKeyToAddress delta) :
    I1 (delta.addAccountByPublicKey PublicKeyToAddress publicKey height)
    ∧ KeyLookupMapIsDerived PublicKeyToAddress
        (delta.addAccountByPublicKey PublicKeyToAddress publicKey height) := by
  obtain ⟨hI1', hDerived', hFind⟩ := getAddress_preserves PublicKeyToAddress delta publicKey
    hI1 hDerived
  have hAdded := addAccountByAddress_preserves PublicKeyToAddress
    (getAddress PublicKeyToAddress delta publicKey).2
    (getAddress PublicKeyToAddress delta publicKey).1 height hI1' hDerived'
  have hSame := addAccountByAddress_keyToAddress
    (getAddress PublicKeyToAddress delta publicKey).2
    (getAddress PublicKeyToAddress delta publicKey).1 height
  unfold addAccountByPublicKey
  simp only
  generalize (getAddress PublicKeyToAddress delta publicKey).1 = address at *
  generalize (getAddress PublicKeyToAddress delta publicKey).2.addAccountByAddress address height
    = added at *
  split
  · exact hAdded
  · split_ifs
    · exact hAdded
    · constructor
      · intro stored hStored hStoredKey
        simp only at hStored ⊢
        obtain ⟨original, hOriginal, hCase⟩ := PrimarySet.mem_modify _ _ _ _ hStored
        rcases hCase with ⟨hAddress, h⟩ | ⟨-, h⟩
        · subst h
          simp only
          rw [hSame.1, hFind, hAddress]
        · subst h
          exact hAdded.1 stored hOriginal hStoredKey
      · exact hAdded.2

theorem removeByAddress_preserves (PublicKeyToAddress : Nat → Nat → Nat)
    (delta : BasicAccountStateCacheDelta) (address height : Nat)
    (hI1 : I1 delta) (hDerived : KeyLookupMapIsDerived PublicKeyToAddress delta) :
    I1 (delta.removeByAddress address height)
    ∧ KeyLookupMapIsDerived PublicKeyToAddress (delta.removeByAddress address height) := by
  unfold removeByAddress
  cases hFind : delta.findByAddress address with
  | none => exact ⟨hI1, hDerived⟩
  | some accountState =>
    obtain ⟨hMem, hAddress⟩ := PrimarySet.find_some _ _ _ hFind
    simp only
    split_ifs with hHeight hKey
    · exact ⟨hI1, hDerived⟩
    · have hKey' : accountState.PublicKeyHeight ≠ 0 := fun h => hKey h.symm
      constructor
      · intro stored hStored hStoredKey
        simp only at hStored ⊢
        obtain ⟨hStoredMem, hStoredAddress⟩ := (PrimarySet.mem_remove_iff _ _ _).1 hStored
        rw [KeyLookupMap.find_remove]
        split_ifs with hSame
        · exact absurd ((I1_address_eq delta hI1 accountState stored hMem hStoredMem hKey'
            hStoredKey hSame).trans hAddress) hStoredAddress
        · exact hI1 stored hStoredMem hStoredKey
      · intro pair hPair
        exact hDerived pair (KeyLookupMap.mem_of_mem_remove _ _ _ hPair)
    · constructor
      · intro stored hStored hStoredKey
        simp only at hStored ⊢
        exact hI1 stored ((PrimarySet.mem_remove_iff _ _ _).1 hStored).1 hStoredKey
      · exact hDerived

theorem removeByPublicKey_preserves (PublicKeyToAddress : Nat → Nat → Nat)
    (delta : BasicAccountStateCacheDelta) (publicKey height : Nat) (hHeight : height ≠ 0)
    (hI1 : I1 delta) (hDerived : KeyLookupMapIsDerived PublicKeyToAddress delta) :
    I1 (delta.removeByPublicKey publicKey height)
    ∧ KeyLookupMapIsDerived PublicKeyToAddress (delta.removeByPublicKey publicKey height) := by
  unfold removeByPublicKey
  cases hFind : delta.findByPublicKey publicKey with
  | none => exact ⟨hI1, hDerived⟩
  | some accountState =>
    have hMem : accountState ∈ delta.m_pStateByAddress := by
      unfold findByPublicKey at hFind
      split at hFind
      · exact (PrimarySet.find_some _ _ _ hFind).1
      · simp at hFind
    simp only
    split_ifs with hMismatch hSameHeight
    · exact ⟨hI1, hDerived⟩
    · have hKey' : accountState.PublicKeyHeight ≠ 0 := by
        rw [← not_ne_iff.1 hMismatch]
        exact hHeight
      constructor
      · intro stored hStored hStoredKey
        simp only at hStored ⊢
        obtain ⟨hStoredMem, hStoredAddress⟩ := (PrimarySet.mem_remove_iff _ _ _).1 hStored
        rw [KeyLookupMap.find_remove]
        split_ifs with hSame
        · exact absurd (I1_address_eq delta hI1 accountState stored hMem hStoredMem hKey'
            hStoredKey hSame) hStoredAddress
        · exact hI1 stored hStoredMem hStoredKey
      · intro pair hPair
        exact hDerived pair (KeyLookupMap.mem_of_mem_remove _ _ _ hPair)
    · have hKey' : accountState.PublicKeyHeight ≠ 0 := by
        rw [← not_ne_iff.1 hMismatch]
        exact hHeight
      constructor
      · intro stored hStored hStoredKey
        simp only at hStored ⊢
        obtain ⟨original, hOriginal, hCase⟩ := PrimarySet.mem_modify _ _ _ _ hStored
        rcases hCase with ⟨-, h⟩ | ⟨hOther, h⟩
        · subst h
          exact absurd rfl hStoredKey
        · subst h
          rw [KeyLookupMap.find_remove]
          split_ifs with hSame
          · exact absurd (I1_address_eq delta hI1 accountState stored hMem hOriginal hKey'
              hStoredKey hSame) hOther
          · exact hI1 stored hOriginal hStoredKey
      · intro pair hPair
        exact hDerived pair (KeyLookupMap.mem_of_mem_remove _ _ _ hPair)

theorem foldl_removeByAddress_preserves (PublicKeyToAddress : Nat → Nat → Nat)
    (queue : List (Nat × Nat)) (delta : BasicAccountStateCacheDelta)
    (hI1 : I1 delta) (hDerived : KeyLookupMapIsDerived PublicKeyToAddress delta) :
    I1 (queue.foldl (fun current pair => current.removeByAddress pair.2 pair.1) delta)
    ∧ KeyLookupMapIsDerived PublicKeyToAddress
        (queue.foldl (fun current pair => current.removeByAddress pair.2 pair.1) delta) := by
  induction queue generalizing delta with
  | nil => exact ⟨hI1, hDerived⟩
  | cons pair pairs ih =>
    obtain ⟨h1, h2⟩ := removeByAddress_preserves PublicKeyToAddress delta pair.2 pair.1
      hI1 hDerived
    exact ih _ h1 h2

theorem foldl_removeByPublicKey_preserves (PublicKeyToAddress : Nat → Nat → Nat)
    (queue : List (Nat × Nat)) (delta : BasicAccountStateCacheDelta)
    (hQueue : ∀ pair ∈ queue, pair.1 ≠ 0)
    (hI1 : I1 delta) (hDerived : KeyLookupMapIsDerived PublicKeyToAddress delta) :
    I1 (queue.foldl (fun current pair => current.removeByPublicKey pair.2 pair.1) delta)
    ∧ KeyLookupMapIsDerived PublicKeyToAddress
        (queue.foldl (fun current pair => current.removeByPublicKey pair.2 pair.1) delta) := by
  induction queue generalizing delta with
  | nil => exact ⟨hI1, hDerived⟩
  | cons pair pairs ih =>
    obtain ⟨h1, h2⟩ := removeByPublicKey_preserves PublicKeyToAddress delta pair.2 pair.1
      (hQueue pair (List.mem_cons_self _ _)) hI1 hDerived
    exact ih _ (fun other hOther => hQueue other (List.mem_cons_of_mem _ hOther)) h1 h2

theorem commitRemovals_preserves (PublicKeyToAddress : Nat → Nat → Nat)
    (delta : BasicAccountStateCacheDelta)
    (hQueue : ∀ pair ∈ delta.m_queuedRemoveByPublicKey, pair.1 ≠ 0)
    (hI1 : I1 delta) (hDerived : KeyLookupMapIsDerived PublicKeyToAddress delta) :
    I1 delta.commitRemovals
    ∧ KeyLookupMapIsDerived PublicKeyToAddress delta.commitRemovals := by
  obtain ⟨h1, h2⟩ := foldl_removeByAddress_preserves PublicKeyToAddress
    delta.m_queuedRemoveByAddress delta hI1 hDerived
  exact foldl_removeByPublicKey_preserves PublicKeyToAddress delta.m_queuedRemoveByPublicKey _
    hQueue h1 h2

/-- C10 as stated fails, in two ways.  First, the delta StaleKeyDelta, built from
the empty delta by four calls of the delta itself, satisfies I1 (and its key
lookup map holds only derived pairs), and remove(key 7, height 0) breaks I1:
the call finds the account of key 7 through the key lookup map, its public key
height 0 matches, and the entry of that account's (zero) public key is removed
from the map, which is the entry of the account of the zero key whose public
key height is 5.  Second, I1 alone does not carry addAccount(accountState): the
delta ForeignAddressDelta satisfies I1, the inserted state has the address
derived from its public key, and afterwards the key is still mapped to the
other account's address. -/
theorem removeByPublicKey_at_height_zero_breaks_I1 :
    (I1 test.StaleKeyDelta
      ∧ KeyLookupMapIsDerived test.ToAddress test.StaleKeyDelta
      ∧ ¬ I1 (test.StaleKeyDelta.removeByPublicKey 7 0))
    ∧ (I1 test.ForeignAddressDelta
      ∧ test.DerivedAccountState.Address
        = test.ToAddress test.DerivedAccountState.PublicKey
            test.ForeignAddressDelta.m_options.NetworkIdentifier
      ∧ ¬ I1 (test.ForeignAddressDelta.addAccountState test.DerivedAccountState)) := by
  decide

/-- C10 (amended): if before the operation every account with public key height
other than 0 has its (public key, address) pair in the key lookup map (I1) and
the key lookup map holds only pairs (key, PublicKeyToAddress(key)), then the
same holds after each of the three addAccount overloads (an inserted account
state with a public key having Address = PublicKeyToAddress(PublicKey)), after
remove(address, height), after remove(publicKey, height) with height other than
0, and after commitRemovals when no public key removal is queued at height 0. -/
theorem I1_preserved_by_mutating_operations (PublicKeyToAddress : Nat → Nat → Nat)
    (delta : BasicAccountStateCacheDelta) (hI1 : I1 delta)
    (hDerived : KeyLookupMapIsDerived PublicKeyToAddress delta) :
    (∀ address height,
      I1 (delta.addAccountByAddress address height)
      ∧ KeyLookupMapIsDerived PublicKeyToAddress (delta.addAccountByAddress address height))
    ∧ (∀ publicKey height,
      I1 (delta.addAccountByPublicKey PublicKeyToAddress publicKey height)
      ∧ KeyLookupMapIsDerived PublicKeyToAddress
          (delta.addAccountByPublicKey PublicKeyToAddress publicKey height))
    ∧ (∀ accountState : state.AccountState,
      (accountState.PublicKeyHeight ≠ 0 → accountState.Address
        = PublicKeyToAddress accountState.PublicKey delta.m_options.NetworkIdentifier) →
      I1 (delta.addAccountState accountState)
      ∧ KeyLookupMapIsDerived PublicKeyToAddress (delta.addAccountState accountState))
    ∧ (∀ address height,
      I1 (delta.removeByAddress address height)
      ∧ KeyLookupMapIsDerived PublicKeyToAddress (delta.removeByAddress address height))
    ∧ (∀ publicKey height, height ≠ 0 →
      I1 (delta.removeByPublicKey publicKey height)
      ∧ KeyLookupMapIsDerived PublicKeyToAddress (delta.removeByPublicKey publicKey height))
    ∧ ((∀ pair ∈ delta.m_queuedRemoveByPublicKey, pair.1 ≠ 0) →
      I1 delta.commitRemovals
      ∧ KeyLookupMapIsDerived PublicKeyToAddress delta.commitRemovals) :=
  ⟨fun address height =>
      addAccountByAddress_preserves PublicKeyToAddress delta address height hI1 hDerived,
    fun publicKey height =>
      addAccountByPublicKey_preserves PublicKeyToAddress delta publicKey height hI1 hDerived,
    fun accountState hState =>
      addAccountState_preserves PublicKeyToAddress delta accountState hI1 hDerived hState,
    fun address height =>
      removeByAddress_preserves PublicKeyToAddress delta address height hI1 hDerived,
    fun publicKey height hHeight =>
      removeByPublicKey_preserves PublicKeyToAddress delta publicKey height hHeight hI1 hDerived,
    fun hQueue => commitRemovals_preserves PublicKeyToAddress delta hQueue hI1 hDerived⟩

/-- Witness of C10 (amended): on StaleKeyDelta the removal of the zero key at its
height 5 keeps I1. -/
theorem I1_preserved_by_mutating_operations_witness :
    I1 test.StaleKeyDelta
    ∧ KeyLookupMapIsDerived test.ToAddress test.StaleKeyDelta
    ∧ I1 (test.StaleKeyDelta.removeByPublicKey 0 5)
    ∧ KeyLookupMapIsDerived test.ToAddress (test.StaleKeyDelta.removeByPublicKey 0 5) :=
  ⟨by decide, by decide,
    (I1_preserved_by_mutating_operations test.ToAddress test.StaleKeyDelta (by decide)
      (by decide)).2.2.2.2.1 0 5 (by decide)⟩

end BasicAccountStateCacheDelta

end cache

end catapult

/-! ## Account state cache delta: accessors after an operation -/

namespace catapult

namespace cache

open state

theorem PrimarySet.find_cons (accountState : AccountState) (set : List AccountState)
    (address : Nat) :
    PrimarySet.find (accountState :: set) address
      = if accountState.Address = address then some accountState
        else PrimarySet.find set address := by
  unfold PrimarySet.find
  by_cases h : accountState.Address = address <;> simp [List.find?_cons, h]

/-- Updating stored states without touching their addresses commutes with the lookup. -/
theorem PrimarySet.find_map (set : List AccountState) (update : AccountState → AccountState)
    (hAddress : ∀ accountState, (update accountState).Address = accountState.Address)
    (address : Nat) :
    PrimarySet.find (set.map update) address = (PrimarySet.find set address).map update := by
  induction set with
  | nil => rfl
  | cons accountState set ih =>
    rw [List.map_cons, PrimarySet.find_cons, PrimarySet.find_cons, hAddress]
    split_ifs
    · rfl
    · exact ih

theorem PrimarySet.find_modify_self (set : List AccountState) (address : Nat)
    (update : AccountState → AccountState)
    (hAddress : ∀ accountState, (update accountState).Address = accountState.Address) :
    PrimarySet.find (PrimarySet.modify set address update) address
      = (PrimarySet.find set address).map update := by
  unfold PrimarySet.modify
  rw [PrimarySet.find_map _ _ (by intro s; split_ifs <;> simp [hAddress])]
  cases hFind : PrimarySet.find set address with
  | none => rfl
  | some found =>
    have := (PrimarySet.find_some _ _ _ hFind).2
    simp [this]

theorem PrimarySet.find_modify_other (set : List AccountState) (address other : Nat)
    (update : AccountState → AccountState)
    (hAddress : ∀ accountState, (update accountState).Address = accountState.Address)
    (hOther : other ≠ address) :
    PrimarySet.find (PrimarySet.modify set address update) other
      = PrimarySet.find set other := by
  unfold PrimarySet.modify
  rw [PrimarySet.find_map _ _ (by intro s; split_ifs <;> simp [hAddress])]
  cases hFind : PrimarySet.find set other with
  | none => rfl
  | some found =>
    have := (PrimarySet.find_some _ _ _ hFind).2
    have hNe : ¬ found.Address = address := by rw [this]; exact hOther
    simp [hNe]

theorem PrimarySet.find_after_remove (set : List AccountState) (removed address : Nat) :
    PrimarySet.find (PrimarySet.remove set removed) address
      = if address = removed then none else PrimarySet.find set address := by
  induction set with
  | nil => simp [PrimarySet.remove, PrimarySet.find]
  | cons accountState set ih =>
    have hCons : PrimarySet.remove (accountState :: set) removed
        = if accountState.Address = removed then PrimarySet.remove set removed
          else accountState :: PrimarySet.remove set removed := by
      unfold PrimarySet.remove
      by_cases h : accountState.Address = removed <;> simp [List.filter_cons, h]
    rw [hCons, PrimarySet.find_cons]
    by_cases h1 : accountState.Address = removed
    · rw [if_pos h1, ih]
      by_cases h2 : address = removed
      · simp [h2]
      · have h3 : ¬ accountState.Address = address := fun h => h2 (h ▸ h1)
        simp [h2, h3]
    · rw [if_neg h1, PrimarySet.find_cons, ih]
      by_cases h2 : address = removed
      · simp [h2, h1]
      · simp [h2]

end cache

end catapult

namespace catapult

namespace cache

open state

theorem PrimarySet.modify_of_find_none (set : List AccountState) (address : Nat)
    (update : AccountState → AccountState) (hFind : PrimarySet.find set address = none) :
    PrimarySet.modify set address update = set := by
  unfold PrimarySet.modify
  unfold PrimarySet.find at hFind
  rw [List.find?_eq_none] at hFind
  conv_rhs => rw [← List.map_id set]
  apply List.map_congr_left
  intro accountState hMem
  have := hFind accountState hMem
  simp only [decide_eq_true_eq] at this
  simp [this]

namespace BasicAccountStateCacheDelta

/-- The address form of addAccount on a new address puts the fresh account state, with the
currency mosaic as optimized slot, in front of the primary set. -/
theorem addAccountByAddress_of_not_found (delta : BasicAccountStateCacheDelta)
    (address height : Nat) (hFind : delta.findByAddress address = none) :
    delta.addAccountByAddress address height
      = { delta with
          m_pStateByAddress :=
            { AccountState.create address height with
              Balances := (AccountState.create address height).Balances.optimize
                delta.m_options.CurrencyMosaicId } :: delta.m_pStateByAddress } := by
  have hContains : ¬ delta.contains address = true := by simp [contains, hFind]
  have hCreate : (AccountState.create address height).Address = address := rfl
  unfold addAccountByAddress addAccountState
  rw [if_neg hContains, hCreate, if_neg hContains]
  have hInsert : PrimarySet.insert delta.m_pStateByAddress (AccountState.create address height)
      = AccountState.create address height :: delta.m_pStateByAddress := by
    unfold PrimarySet.insert
    unfold findByAddress at hFind
    rw [hCreate, hFind]
    rfl
  have hModify : PrimarySet.modify
      (AccountState.create address height :: delta.m_pStateByAddress) address
      (fun stored =>
        { stored with Balances := stored.Balances.optimize delta.m_options.CurrencyMosaicId })
      = { AccountState.create address height with
          Balances := (AccountState.create address height).Balances.optimize
            delta.m_options.CurrencyMosaicId } :: delta.m_pStateByAddress := by
    have hTail := PrimarySet.modify_of_find_none delta.m_pStateByAddress address
      (fun stored =>
        { stored with Balances := stored.Balances.optimize delta.m_options.CurrencyMosaicId })
      hFind
    unfold PrimarySet.modify at hTail ⊢
    rw [List.map_cons, hTail, if_pos hCreate]
  simp only [hInsert, hModify]
  rfl

theorem addAccountByAddress_of_found (delta : BasicAccountStateCacheDelta)
    (address height : Nat) (accountState : AccountState)
    (hFind : delta.findByAddress address = some accountState) :
    delta.addAccountByAddress address height = delta := by
  unfold addAccountByAddress
  rw [if_pos (by simp [contains, hFind])]

end BasicAccountStateCacheDelta

end cache

end catapult

namespace catapult

namespace cache

open state

namespace BasicAccountStateCacheDelta

/-- When the key lookup map has no entry for a key or maps it to the derived address,
getAddress returns the derived address, the key is mapped to it afterwards, and the primary
set is untouched. -/
theorem getAddress_of_derived (PublicKeyToAddress : Nat → Nat → Nat)
    (delta : BasicAccountStateCacheDelta) (publicKey : Nat)
    (hIndex : KeyLookupMap.find delta.m_pKeyToAddress publicKey = none
      ∨ KeyLookupMap.find delta.m_pKeyToAddress publicKey
        = some (PublicKeyToAddress publicKey delta.m_options.NetworkIdentifier)) :
    (getAddress PublicKeyToAddress delta publicKey).1
        = PublicKeyToAddress publicKey delta.m_options.NetworkIdentifier
    ∧ KeyLookupMap.find (getAddress PublicKeyToAddress delta publicKey).2.m_pKeyToAddress publicKey
        = some (PublicKeyToAddress publicKey delta.m_options.NetworkIdentifier)
    ∧ (getAddress PublicKeyToAddress delta publicKey).2.m_pStateByAddress
        = delta.m_pStateByAddress := by
  unfold getAddress
  rcases hIndex with h | h
  · simp only [h, KeyLookupMap.find_emplace_self, Option.getD_none, and_self]
  · simp only [h, and_self]

/-- C11 as stated fails: in the delta reached from the empty delta by
addAccount(accountState) for an account state with public key 9 at address 5,
no account is stored at the address derived from key 9, and after
addAccount(key 9, height 7) the lookup by that derived address still finds
nothing: getAddress returns the address 5 that the key lookup map holds for
the key. -/
theorem addAccountByPublicKey_follows_the_key_lookup_map :
    (7 : Nat) ≠ 0
    ∧ test.InsertedForeignDelta.findByAddress
        (test.ToAddress 9 test.InsertedForeignDelta.m_options.NetworkIdentifier) = none
    ∧ (test.InsertedForeignDelta.addAccountByPublicKey test.ToAddress 9 7).findByAddress
        (test.ToAddress 9 test.InsertedForeignDelta.m_options.NetworkIdentifier) = none := by
  decide

/-- C11 (amended): for every delta whose key lookup map has no entry for the
public key pk or maps it to PublicKeyToAddress(pk, networkId), and in which
the account at that address is absent or has public key height 0: after
addAccount(pk, h), for every height h and so for every h other than 0,
find(pk) and find(PublicKeyToAddress(pk, networkId)) both succeed and return
the same account state, whose PublicKey is pk and whose PublicKeyHeight is h. -/
theorem addAccountByPublicKey_finds_promoted_account (PublicKeyToAddress : Nat → Nat → Nat)
    (delta : BasicAccountStateCacheDelta) (publicKey height : Nat)
    (hIndex : KeyLookupMap.find delta.m_pKeyToAddress publicKey = none
      ∨ KeyLookupMap.find delta.m_pKeyToAddress publicKey
        = some (PublicKeyToAddress publicKey delta.m_options.NetworkIdentifier))
    (hAccount : delta.findByAddress
        (PublicKeyToAddress publicKey delta.m_options.NetworkIdentifier) = none
      ∨ ∃ existing, delta.findByAddress
          (PublicKeyToAddress publicKey delta.m_options.NetworkIdentifier) = some existing
        ∧ existing.PublicKeyHeight = 0) :
    ∃ accountState,
      (delta.addAccountByPublicKey PublicKeyToAddress publicKey height).findByPublicKey publicKey
        = some accountState
      ∧ (delta.addAccountByPublicKey PublicKeyToAddress publicKey height).findByAddress
          (PublicKeyToAddress publicKey delta.m_options.NetworkIdentifier) = some accountState
      ∧ accountState.PublicKey = publicKey
      ∧ accountState.PublicKeyHeight = height := by
  obtain ⟨hAddress, hKey, hSet⟩ := getAddress_of_derived PublicKeyToAddress delta publicKey hIndex
  have hFound : ∃ current,
      ((getAddress PublicKeyToAddress delta publicKey).2.addAccountByAddress
        (PublicKeyToAddress publicKey delta.m_options.NetworkIdentifier) height).findByAddress
          (PublicKeyToAddress publicKey delta.m_options.NetworkIdentifier) = some current
      ∧ current.PublicKeyHeight = 0
      ∧ ((getAddress PublicKeyToAddress delta publicKey).2.addAccountByAddress
        (PublicKeyToAddress publicKey delta.m_options.NetworkIdentifier) height).m_pKeyToAddress
          = (getAddress PublicKeyToAddress delta publicKey).2.m_pKeyToAddress := by
    rcases hAccount with hNone | ⟨existing, hSome, hHeight⟩
    · have hNone' : (getAddress PublicKeyToAddress delta publicKey).2.findByAddress
          (PublicKeyToAddress publicKey delta.m_options.NetworkIdentifier) = none := by
        unfold findByAddress at hNone ⊢
        rw [hSet]
        exact hNone
      rw [addAccountByAddress_of_not_found _ _ _ hNone']
      exact ⟨_, by simp only [findByAddress, PrimarySet.find_cons]; exact if_pos rfl, rfl, rfl⟩
    · have hSome' : (getAddress PublicKeyToAddress delta publicKey).2.findByAddress
          (PublicKeyToAddress publicKey delta.m_options.NetworkIdentifier) = some existing := by
        unfold findByAddress at hSome ⊢
        rw [hSet]
        exact hSome
      rw [addAccountByAddress_of_found _ _ _ _ hSome']
      exact ⟨existing, hSome', hHeight, rfl⟩
  obtain ⟨current, hCurrent, hCurrentHeight, hSameKeys⟩ := hFound
  unfold addAccountByPublicKey
  simp only [hAddress, hCurrent]
  rw [if_neg (by simp [hCurrentHeight])]
  refine ⟨{ current with PublicKey := publicKey, PublicKeyHeight := height }, ?_, ?_, rfl, rfl⟩
  · unfold findByPublicKey
    simp only [hSameKeys, hKey]
    rw [PrimarySet.find_modify_self _ _
      (fun stored => { stored with PublicKey := publicKey, PublicKeyHeight := height })
      (fun _ => rfl)]
    unfold findByAddress at hCurrent
    rw [hCurrent]
    rfl
  · unfold findByAddress at hCurrent ⊢
    simp only
    rw [PrimarySet.find_modify_self _ _
      (fun stored => { stored with PublicKey := publicKey, PublicKeyHeight := height })
      (fun _ => rfl), hCurrent]
    rfl

/-- Witness of C11 (amended): addAccount(key 7, height 5) on the empty delta. -/
theorem addAccountByPublicKey_finds_promoted_account_witness :
    KeyLookupMap.find test.EmptyDelta.m_pKeyToAddress 7 = none
    ∧ test.EmptyDelta.findByAddress
        (test.ToAddress 7 test.EmptyDelta.m_options.NetworkIdentifier) = none
    ∧ ∃ accountState,
      (test.EmptyDelta.addAccountByPublicKey test.ToAddress 7 5).findByPublicKey 7
        = some accountState
      ∧ (test.EmptyDelta.addAccountByPublicKey test.ToAddress 7 5).findByAddress
          (test.ToAddress 7 test.EmptyDelta.m_options.NetworkIdentifier) = some accountState
      ∧ accountState.PublicKey = 7
      ∧ accountState.PublicKeyHeight = 5 :=
  ⟨by decide, by decide,
    addAccountByPublicKey_finds_promoted_account test.ToAddress test.EmptyDelta 7 5
      (Or.inl (by decide)) (Or.inl (by decide))⟩

/-- C12: addAccount(publicKey, height) is idempotent on an account that already
has a public key: when find(pk) returns an account state whose public key
height is not 0, addAccount(pk, h) returns the delta unchanged for every
height h: the account states (with their PublicKey and PublicKeyHeight) and the
key lookup map are what they were. -/
theorem addAccountByPublicKey_of_known_key (PublicKeyToAddress : Nat → Nat → Nat)
    (delta : BasicAccountStateCacheDelta) (publicKey height : Nat) (accountState : AccountState)
    (hFind : delta.findByPublicKey publicKey = some accountState)
    (hKey : accountState.PublicKeyHeight ≠ 0) :
    delta.addAccountByPublicKey PublicKeyToAddress publicKey height = delta := by
  unfold findByPublicKey at hFind
  cases hIndex : KeyLookupMap.find delta.m_pKeyToAddress publicKey with
  | none => simp [hIndex] at hFind
  | some address =>
    simp only [hIndex] at hFind
    have hGet : getAddress PublicKeyToAddress delta publicKey = (address, delta) := by
      unfold getAddress
      simp only [hIndex]
    have hAdded : delta.addAccountByAddress address height = delta :=
      addAccountByAddress_of_found delta address height accountState hFind
    unfold addAccountByPublicKey
    simp only [hGet, hAdded]
    have hFind' : delta.findByAddress address = some accountState := hFind
    simp only [hFind']
    rw [if_pos (fun h => hKey h.symm)]

/-- Witness of C12: a second addAccount(key 7, height 9) after addAccount(key 7, height 5). -/
theorem addAccountByPublicKey_of_known_key_witness :
    test.KnownKeyDelta.findByPublicKey 7 = some test.KnownKeyAccountState
    ∧ test.KnownKeyAccountState.PublicKeyHeight ≠ 0
    ∧ test.KnownKeyDelta.addAccountByPublicKey test.ToAddress 7 9 = test.KnownKeyDelta :=
  ⟨by decide, by decide,
    addAccountByPublicKey_of_known_key test.ToAddress test.KnownKeyDelta 7 9
      test.KnownKeyAccountState (by decide) (by decide)⟩

/-- C13: when the delta already contains an account at an address,
addAccount(address, height) and addAccount(accountState) for an account state
with that address return the delta unchanged, for every height and every such
account state; the existing account keeps its address height, public key and
balances. -/
theorem addAccount_of_contained_address (delta : BasicAccountStateCacheDelta)
    (address : Nat) (hContains : delta.contains address = true) :
    (∀ height, delta.addAccountByAddress address height = delta)
    ∧ (∀ accountState : AccountState, accountState.Address = address →
        delta.addAccountState accountState = delta) := by
  constructor
  · intro height
    unfold addAccountByAddress
    rw [if_pos hContains]
  · intro accountState hAddress
    unfold addAccountState
    rw [hAddress, if_pos hContains]

/-- Witness of C13: the address 50 is added twice. -/
theorem addAccount_of_contained_address_witness :
    test.AddressOnlyDelta.contains 50 = true
    ∧ (∀ height, test.AddressOnlyDelta.addAccountByAddress 50 height = test.AddressOnlyDelta)
    ∧ (∀ accountState : AccountState, accountState.Address = 50 →
        test.AddressOnlyDelta.addAccountState accountState = test.AddressOnlyDelta) :=
  ⟨by decide, addAccount_of_contained_address test.AddressOnlyDelta 50 (by decide)⟩

end BasicAccountStateCacheDelta

end cache

end catapult

namespace catapult

namespace cache

open state

namespace BasicAccountStateCacheDelta

/-- C14: when the delta does not contain an address, after
addAccount(address, height) the delta holds exactly one more account,
find(address) returns an account state with that Address, AddressHeight =
height, PublicKeyHeight = 0 and no balances, the account stored under every
other address is the one stored before, and the key lookup map is unchanged. -/
theorem addAccountByAddress_adds_one_fresh_account (delta : BasicAccountStateCacheDelta)
    (address height : Nat) (hAbsent : delta.contains address = false) :
    (delta.addAccountByAddress address height).size = delta.size + 1
    ∧ (∃ accountState,
        (delta.addAccountByAddress address height).findByAddress address = some accountState
        ∧ accountState.Address = address
        ∧ accountState.AddressHeight = height
        ∧ accountState.PublicKeyHeight = 0
        ∧ accountState.Balances.balances = [])
    ∧ (∀ other, other ≠ address →
        (delta.addAccountByAddress address height).findByAddress other
          = delta.findByAddress other)
    ∧ (delta.addAccountByAddress address height).m_pKeyToAddress = delta.m_pKeyToAddress := by
  have hFind : delta.findByAddress address = none := by
    unfold contains at hAbsent
    cases h : delta.findByAddress address with
    | none => rfl
    | some found => simp [h] at hAbsent
  rw [addAccountByAddress_of_not_found delta address height hFind]
  refine ⟨by simp [size],
    ⟨{ AccountState.create address height with
        Balances := (AccountState.create address height).Balances.optimize
          delta.m_options.CurrencyMosaicId }, ?_, rfl, rfl, rfl, rfl⟩, ?_, rfl⟩
  · simp only [findByAddress, PrimarySet.find_cons]
    exact if_pos rfl
  · intro other hOther
    simp only [findByAddress, PrimarySet.find_cons]
    exact if_neg (fun h => hOther h.symm)

/-- Witness of C14: addAccount(address 50, height 3) on the delta that knows key 7. -/
theorem addAccountByAddress_adds_one_fresh_account_witness :
    test.KnownKeyDelta.contains 50 = false
    ∧ (test.KnownKeyDelta.addAccountByAddress 50 3).size = test.KnownKeyDelta.size + 1
    ∧ (∃ accountState,
        (test.KnownKeyDelta.addAccountByAddress 50 3).findByAddress 50 = some accountState
        ∧ accountState.Address = 50
        ∧ accountState.AddressHeight = 3
        ∧ accountState.PublicKeyHeight = 0
        ∧ accountState.Balances.balances = [])
    ∧ (∀ other, other ≠ 50 →
        (test.KnownKeyDelta.addAccountByAddress 50 3).findByAddress other
          = test.KnownKeyDelta.findByAddress other)
    ∧ (test.KnownKeyDelta.addAccountByAddress 50 3).m_pKeyToAddress
        = test.KnownKeyDelta.m_pKeyToAddress :=
  ⟨by decide, addAccountByAddress_adds_one_fresh_account test.KnownKeyDelta 50 3 (by decide)⟩

/-- C15: remove is silent on a miss: remove(address, h) returns the delta
unchanged when the address is absent or the address height of the account
differs from h, and remove(publicKey, h) returns the delta unchanged when the
public key is not found or the public key height of the account differs from h;
both are total, so neither raises an error. -/
theorem remove_of_miss (delta : BasicAccountStateCacheDelta) (id height : Nat) :
    (delta.findByAddress id = none → delta.removeByAddress id height = delta)
    ∧ (∀ accountState, delta.findByAddress id = some accountState →
        accountState.AddressHeight ≠ height → delta.removeByAddress id height = delta)
    ∧ (delta.findByPublicKey id = none → delta.removeByPublicKey id height = delta)
    ∧ (∀ accountState, delta.findByPublicKey id = some accountState →
        accountState.PublicKeyHeight ≠ height → delta.removeByPublicKey id height = delta) := by
  refine ⟨?_, ?_, ?_, ?_⟩
  · intro hFind
    unfold removeByAddress
    simp only [hFind]
  · intro accountState hFind hHeight
    unfold removeByAddress
    simp only [hFind]
    rw [if_pos (fun h => hHeight h.symm)]
  · intro hFind
    unfold removeByPublicKey
    simp only [hFind]
  · intro accountState hFind hHeight
    unfold removeByPublicKey
    simp only [hFind]
    rw [if_pos (fun h => hHeight h.symm)]

/-- Witness of C15: on the delta that knows key 7 at height 5, the address 50 and
the key 8 are absent, and the account of key 7 is removed neither by address
nor by key at height 6. -/
theorem remove_of_miss_witness :
    test.KnownKeyDelta.findByAddress 50 = none
    ∧ test.KnownKeyDelta.removeByAddress 50 5 = test.KnownKeyDelta
    ∧ test.KnownKeyDelta.findByAddress (test.ToAddress 7 144) = some test.KnownKeyAccountState
    ∧ test.KnownKeyAccountState.AddressHeight ≠ 6
    ∧ test.KnownKeyDelta.removeByAddress (test.ToAddress 7 144) 6 = test.KnownKeyDelta
    ∧ test.KnownKeyDelta.findByPublicKey 8 = none
    ∧ test.KnownKeyDelta.removeByPublicKey 8 5 = test.KnownKeyDelta
    ∧ test.KnownKeyDelta.findByPublicKey 7 = some test.KnownKeyAccountState
    ∧ test.KnownKeyAccountState.PublicKeyHeight ≠ 6
    ∧ test.KnownKeyDelta.removeByPublicKey 7 6 = test.KnownKeyDelta :=
  ⟨by decide,
    (remove_of_miss test.KnownKeyDelta 50 5).1 (by decide),
    by decide, by decide,
    (remove_of_miss test.KnownKeyDelta (test.ToAddress 7 144) 6).2.1
      test.KnownKeyAccountState (by decide) (by decide),
    by decide,
    (remove_of_miss test.KnownKeyDelta 8 5).2.2.1 (by decide),
    by decide, by decide,
    (remove_of_miss test.KnownKeyDelta 7 6).2.2.2 test.KnownKeyAccountState (by decide)
      (by decide)⟩

/-- C16: when find(publicKey) returns an account state with that public key and
public key height h: if its address height differs from h, remove(publicKey, h)
clears only the public key: afterwards find(publicKey) is empty and
find(address) returns the account state with PublicKeyHeight = 0 and the zero
PublicKey and every other field (address height, account type, balances) as
before; if its address height equals h, the account is removed from the
primary set and the key from the key lookup map. -/
theorem removeByPublicKey_clears_key_or_removes_account (delta : BasicAccountStateCacheDelta)
    (publicKey height : Nat) (accountState : AccountState)
    (hFind : delta.findByPublicKey publicKey = some accountState)
    (hKey : accountState.PublicKey = publicKey)
    (hHeight : accountState.PublicKeyHeight = height) :
    (accountState.AddressHeight ≠ height →
      (delta.removeByPublicKey publicKey height).findByPublicKey publicKey = none
      ∧ (delta.removeByPublicKey publicKey height).findByAddress accountState.Address
          = some { accountState with PublicKeyHeight := 0, PublicKey := 0 })
    ∧ (accountState.AddressHeight = height →
      (delta.removeByPublicKey publicKey height).findByAddress accountState.Address = none
      ∧ KeyLookupMap.find (delta.removeByPublicKey publicKey height).m_pKeyToAddress publicKey
          = none
      ∧ (delta.removeByPublicKey publicKey height).findByPublicKey publicKey = none) := by
  have hStored : PrimarySet.find delta.m_pStateByAddress accountState.Address
      = some accountState := by
    unfold findByPublicKey at hFind
    split at hFind
    · rename_i address _
      rw [(PrimarySet.find_some _ _ _ hFind).2]
      exact hFind
    · simp at hFind
  constructor
  · intro hAddressHeight
    unfold removeByPublicKey
    simp only [hFind]
    rw [if_neg (fun h => h hHeight.symm), if_neg (fun h => hAddressHeight (h.symm.trans hHeight))]
    constructor
    · unfold findByPublicKey
      simp only [hKey, KeyLookupMap.find_remove, if_true]
    · unfold findByAddress
      simp only
      rw [PrimarySet.find_modify_self _ _
        (fun stored => { stored with PublicKeyHeight := 0, PublicKey := 0 }) (fun _ => rfl),
        hStored]
      rfl
  · intro hAddressHeight
    unfold removeByPublicKey
    simp only [hFind]
    rw [if_neg (fun h => h hHeight.symm), if_pos (hHeight.trans hAddressHeight.symm)]
    refine ⟨?_, ?_, ?_⟩
    · unfold findByAddress
      simp only [PrimarySet.find_after_remove, if_true]
    · simp only [hKey, KeyLookupMap.find_remove, if_true]
    · unfold findByPublicKey
      simp only [hKey, KeyLookupMap.find_remove, if_true]

end BasicAccountStateCacheDelta

end cache

end catapult

namespace catapult

namespace cache

open state

theorem QueuedRemovals.erase_emplace (queue : List (Nat × Nat)) (entry : Nat × Nat) :
    QueuedRemovals.erase (QueuedRemovals.emplace queue entry) entry
      = QueuedRemovals.erase queue entry := by
  induction queue with
  | nil => simp [QueuedRemovals.emplace, QueuedRemovals.erase]
  | cons head tail ih =>
    unfold QueuedRemovals.emplace
    split_ifs with h1 h2
    · rfl
    · simp [QueuedRemovals.erase, List.filter_cons]
    · unfold QueuedRemovals.erase at ih ⊢
      rw [List.filter_cons, ih, List.filter_cons]

theorem QueuedRemovals.erase_of_not_mem (queue : List (Nat × Nat)) (entry : Nat × Nat)
    (hEntry : entry ∉ queue) : QueuedRemovals.erase queue entry = queue := by
  unfold QueuedRemovals.erase
  rw [List.filter_eq_self]
  intro queued hQueued
  simp only [decide_eq_true_eq]
  exact fun h => hEntry (h ▸ hQueued)

namespace BasicAccountStateCacheDelta

/-- Witness of C16: the key 7 set at height 5 on an account added at height 3 is
cleared, and set on an account added at height 5 it takes the account with it. -/
theorem removeByPublicKey_clears_key_or_removes_account_witness :
    test.LaterKeyDelta.findByPublicKey 7 = some test.LaterKeyAccountState
    ∧ test.LaterKeyAccountState.AddressHeight ≠ 5
    ∧ ((test.LaterKeyDelta.removeByPublicKey 7 5).findByPublicKey 7 = none
      ∧ (test.LaterKeyDelta.removeByPublicKey 7 5).findByAddress test.LaterKeyAccountState.Address
          = some { test.LaterKeyAccountState with PublicKeyHeight := 0, PublicKey := 0 })
    ∧ test.KnownKeyDelta.findByPublicKey 7 = some test.KnownKeyAccountState
    ∧ test.KnownKeyAccountState.AddressHeight = 5
    ∧ ((test.KnownKeyDelta.removeByPublicKey 7 5).findByAddress test.KnownKeyAccountState.Address
        = none
      ∧ KeyLookupMap.find (test.KnownKeyDelta.removeByPublicKey 7 5).m_pKeyToAddress 7 = none
      ∧ (test.KnownKeyDelta.removeByPublicKey 7 5).findByPublicKey 7 = none) :=
  ⟨by decide, by decide,
    (removeByPublicKey_clears_key_or_removes_account test.LaterKeyDelta 7 5
      test.LaterKeyAccountState (by decide) (by decide) (by decide)).1 (by decide),
    by decide, by decide,
    (removeByPublicKey_clears_key_or_removes_account test.KnownKeyDelta 7 5
      test.KnownKeyAccountState (by decide) (by decide) (by decide)).2 (by decide)⟩

theorem foldl_removeByAddress_eq (queued : List (Nat × Nat))
    (delta : BasicAccountStateCacheDelta) :
    queued.foldl (fun current pair => current.removeByAddress pair.2 pair.1) delta
      = removeQueuedAddresses queued delta := by
  induction queued generalizing delta with
  | nil => rfl
  | cons pair queued ih => exact ih _

theorem foldl_removeByPublicKey_eq (queued : List (Nat × Nat))
    (delta : BasicAccountStateCacheDelta) :
    queued.foldl (fun current pair => current.removeByPublicKey pair.2 pair.1) delta
      = removeQueuedPublicKeys queued delta := by
  induction queued generalizing delta with
  | nil => rfl
  | cons pair queued ih => exact ih _

/-- C17: commitRemovals equals the batch removal as the specification words it
(remove(address, height) for every queued (height, address) pair, then
remove(publicKey, height) for every queued (height, publicKey) pair, then both
queues emptied), and a second commitRemovals right after the first changes
nothing. -/
theorem commitRemovals_refines_spec_and_is_idempotent (delta : BasicAccountStateCacheDelta) :
    delta.commitRemovals = delta.commitRemovalsSpec
    ∧ delta.commitRemovals.commitRemovals = delta.commitRemovals := by
  constructor
  · unfold commitRemovals commitRemovalsSpec
    simp only [foldl_removeByAddress_eq, foldl_removeByPublicKey_eq]
  · rfl

/-- C18 as stated fails: in the delta reached from the empty delta by
addAccount(address 50, height 3) and queueRemove(address 50, height 3),
commitRemovals alone removes the account at address 50, while queueRemove and
clearRemove of that same pair followed by commitRemovals keep it: the pair is
held once in the queue, so clearRemove cancels the earlier request too. -/
theorem clearRemove_cancels_an_earlier_request :
    test.QueuedRemovalDelta.commitRemovals.findByAddress 50 = none
    ∧ (((test.QueuedRemovalDelta.queueRemoveByAddress 50 3).clearRemoveByAddress 50 3
        ).commitRemovals.findByAddress 50) = some test.AddressOnlyAccountState := by
  decide

/-- C18 (amended): for every delta, id (address or public key) and height h:
queueRemove(id, h) followed by clearRemove(id, h) leaves the delta that
clearRemove(id, h) alone leaves; when the pair (h, id) is not already queued
this is the delta itself, so that a following commitRemovals has the effect of
commitRemovals alone, and clearRemove of a pair that is not queued (never
queued, or queued only at another height) changes nothing. -/
theorem queueRemove_then_clearRemove (delta : BasicAccountStateCacheDelta) (id height : Nat) :
    (delta.queueRemoveByAddress id height).clearRemoveByAddress id height
        = delta.clearRemoveByAddress id height
    ∧ (delta.queueRemoveByPublicKey id height).clearRemoveByPublicKey id height
        = delta.clearRemoveByPublicKey id height
    ∧ ((height, id) ∉ delta.m_queuedRemoveByAddress →
        delta.clearRemoveByAddress id height = delta
        ∧ ((delta.queueRemoveByAddress id height).clearRemoveByAddress id height).commitRemovals
            = delta.commitRemovals)
    ∧ ((height, id) ∉ delta.m_queuedRemoveByPublicKey →
        delta.clearRemoveByPublicKey id height = delta
        ∧ ((delta.queueRemoveByPublicKey id height).clearRemoveByPublicKey id height).commitRemovals
            = delta.commitRemovals) := by
  have hAddress : (delta.queueRemoveByAddress id height).clearRemoveByAddress id height
      = delta.clearRemoveByAddress id height := by
    unfold queueRemoveByAddress clearRemoveByAddress
    simp only [QueuedRemovals.erase_emplace]
  have hKey : (delta.queueRemoveByPublicKey id height).clearRemoveByPublicKey id height
      = delta.clearRemoveByPublicKey id height := by
    unfold queueRemoveByPublicKey clearRemoveByPublicKey
    simp only [QueuedRemovals.erase_emplace]
  refine ⟨hAddress, hKey, ?_, ?_⟩
  · intro hQueued
    have hClear : delta.clearRemoveByAddress id height = delta := by
      unfold clearRemoveByAddress
      rw [QueuedRemovals.erase_of_not_mem _ _ hQueued]
    exact ⟨hClear, by rw [hAddress, hClear]⟩
  · intro hQueued
    have hClear : delta.clearRemoveByPublicKey id height = delta := by
      unfold clearRemoveByPublicKey
      rw [QueuedRemovals.erase_of_not_mem _ _ hQueued]
    exact ⟨hClear, by rw [hKey, hClear]⟩

/-- Witness of C18 (amended): on the delta holding address 50, the removal of
address 50 at height 3 is queued and cancelled before commitRemovals. -/
theorem queueRemove_then_clearRemove_witness :
    (3, 50) ∉ test.AddressOnlyDelta.m_queuedRemoveByAddress
    ∧ test.AddressOnlyDelta.clearRemoveByAddress 50 3 = test.AddressOnlyDelta
    ∧ ((test.AddressOnlyDelta.queueRemoveByAddress 50 3).clearRemoveByAddress 50 3).commitRemovals
        = test.AddressOnlyDelta.commitRemovals :=
  ⟨by decide, (queueRemove_then_clearRemove test.AddressOnlyDelta 50 3).2.2.1 (by decide)⟩

end BasicAccountStateCacheDelta

end cache

end catapult

namespace catapult

namespace cache

open state

theorem PrimarySet.mem_elements (set : List AccountState) (accountState : AccountState) :
    accountState ∈ PrimarySet.elements set
      ↔ PrimarySet.find set accountState.Address = some accountState := by
  unfold PrimarySet.elements
  rw [List.mem_filter]
  simp only [decide_eq_true_eq]
  exact ⟨fun h => h.2, fun h => ⟨(PrimarySet.find_some _ _ _ h).1, h⟩⟩

namespace BasicAccountStateCacheDelta

/-- An account state is an added or modified element at an address exactly when it is the
current element at that address and not the committed one. -/
theorem mem_touched_iff (delta : BasicAccountStateCacheDelta) (accountState : AccountState)
    (address : Nat) :
    (accountState ∈ delta.deltas.Added ++ delta.deltas.Copied ∧ accountState.Address = address)
      ↔ PrimarySet.find delta.m_pStateByAddress address = some accountState
        ∧ PrimarySet.find delta.m_originalStateByAddress address ≠ some accountState := by
  unfold deltas
  simp only [List.mem_append, List.mem_filter, PrimarySet.mem_elements]
  constructor
  · rintro ⟨hTouched, rfl⟩
    rcases hTouched with ⟨hCurrent, hOriginal⟩ | ⟨hCurrent, hOriginal⟩
    · refine ⟨hCurrent, ?_⟩
      intro h
      rw [h] at hOriginal
      simp at hOriginal
    · refine ⟨hCurrent, ?_⟩
      intro h
      rw [h] at hOriginal
      simp at hOriginal
  · rintro ⟨hCurrent, hOriginal⟩
    have hAddress := (PrimarySet.find_some _ _ _ hCurrent).2
    subst hAddress
    refine ⟨?_, rfl⟩
    cases hFind : PrimarySet.find delta.m_originalStateByAddress accountState.Address with
    | none => exact Or.inl ⟨hCurrent, by simp⟩
    | some original =>
      refine Or.inr ⟨hCurrent, ?_⟩
      rw [hFind] at hOriginal
      simpa using hOriginal

/-- A committed element was removed at an address exactly when the address has a committed
element and no current one. -/
theorem mem_removed_iff (delta : BasicAccountStateCacheDelta) (address : Nat) :
    (∃ original ∈ delta.deltas.Removed, original.Address = address)
      ↔ PrimarySet.find delta.m_pStateByAddress address = none
        ∧ ∃ original, PrimarySet.find delta.m_originalStateByAddress address = some original := by
  unfold deltas
  simp only [List.mem_filter, PrimarySet.mem_elements]
  constructor
  · rintro ⟨original, ⟨hOriginal, hCurrent⟩, rfl⟩
    exact ⟨by simpa using hCurrent, original, hOriginal⟩
  · rintro ⟨hCurrent, original, hOriginal⟩
    have hAddress := (PrimarySet.find_some _ _ _ hOriginal).2
    subst hAddress
    exact ⟨original, ⟨hOriginal, by simp [hCurrent]⟩, rfl⟩

/-- Membership in the current set computed by highValueAddresses. -/
theorem mem_highValueAddresses_current (delta : BasicAccountStateCacheDelta) (address : Nat) :
    address ∈ delta.highValueAddresses.1
      ↔ (address ∈ delta.m_highValueAccounts
          ∨ ∃ accountState, (accountState ∈ delta.deltas.Added ++ delta.deltas.Copied
              ∧ accountState.Address = address)
            ∧ HighValueAccountsUpdater.hasHighValue delta.m_options accountState = true)
        ∧ ¬ ((∃ accountState, (accountState ∈ delta.deltas.Added ++ delta.deltas.Copied
              ∧ accountState.Address = address)
            ∧ HighValueAccountsUpdater.hasHighValue delta.m_options accountState = false)
          ∨ ∃ original ∈ delta.deltas.Removed, original.Address = address) := by
  unfold highValueAddresses HighValueAccountsUpdater.update HighValueAccountsUpdater.create
    HighValueAccountsUpdater.addresses
  simp only [List.mem_filter, List.mem_append, List.mem_map, decide_eq_true_eq,
    Bool.not_eq_true']
  constructor
  · rintro ⟨hIn, hOut⟩
    refine ⟨?_, ?_⟩
    · rcases hIn with h | ⟨accountState, ⟨hMem, hHigh⟩, hAddress⟩
      · exact Or.inl h
      · exact Or.inr ⟨accountState, ⟨hMem, hAddress⟩, hHigh⟩
    · rintro (⟨accountState, ⟨hMem, hAddress⟩, hLow⟩ | ⟨original, hMem, hAddress⟩)
      · exact hOut (Or.inl ⟨accountState, ⟨hMem, hLow⟩, hAddress⟩)
      · exact hOut (Or.inr ⟨original, hMem, hAddress⟩)
  · rintro ⟨hIn, hOut⟩
    refine ⟨?_, ?_⟩
    · rcases hIn with h | ⟨accountState, ⟨hMem, hAddress⟩, hHigh⟩
      · exact Or.inl h
      · exact Or.inr ⟨accountState, ⟨hMem, hHigh⟩, hAddress⟩
    · rintro (⟨accountState, ⟨hMem, hLow⟩, hAddress⟩ | ⟨original, hMem, hAddress⟩)
      · exact hOut (Or.inl ⟨accountState, ⟨hMem, hAddress⟩, hLow⟩)
      · exact hOut (Or.inr ⟨original, hMem, hAddress⟩)

/-- Under a baseline that satisfies I4, the current set of highValueAddresses holds the
addresses whose current account state passes the predicate of the updater. -/
theorem mem_highValueAddresses_current_iff_hasHighValue (delta : BasicAccountStateCacheDelta)
    (hBaseline : BaselineIsHighValue delta) (address : Nat) :
    address ∈ delta.highValueAddresses.1
      ↔ ∃ accountState, delta.findByAddress address = some accountState
          ∧ HighValueAccountsUpdater.hasHighValue delta.m_options accountState = true := by
  rw [mem_highValueAddresses_current, mem_removed_iff]
  simp only [mem_touched_iff, findByAddress]
  constructor
  · rintro ⟨hIn, hOut⟩
    rcases hIn with hBase | ⟨accountState, ⟨hCurrent, -⟩, hHigh⟩
    · obtain ⟨original, hOriginal, hHigh⟩ := (hBaseline address).1 hBase
      cases hFind : PrimarySet.find delta.m_pStateByAddress address with
      | none => exact absurd (Or.inr ⟨hFind, original, hOriginal⟩) hOut
      | some current =>
        refine ⟨current, rfl, ?_⟩
        by_cases hSame : original = current
        · rw [← hSame]
          exact hHigh
        · by_contra hLow
          apply hOut
          refine Or.inl ⟨current, ⟨hFind, ?_⟩, by simpa using hLow⟩
          rw [hOriginal]
          exact fun h => hSame (Option.some.inj h)
    · exact ⟨accountState, hCurrent, hHigh⟩
  · rintro ⟨accountState, hCurrent, hHigh⟩
    refine ⟨?_, ?_⟩
    · by_cases hSame : PrimarySet.find delta.m_originalStateByAddress address = some accountState
      · exact Or.inl ((hBaseline address).2 ⟨accountState, hSame, hHigh⟩)
      · exact Or.inr ⟨accountState, ⟨hCurrent, hSame⟩, hHigh⟩
    · rintro (⟨other, ⟨hOther, -⟩, hLow⟩ | ⟨hNone, -⟩)
      · rw [hCurrent] at hOther
        rw [← Option.some.inj hOther, hHigh] at hLow
        exact Bool.noConfusion hLow
      · rw [hCurrent] at hNone
        exact Option.noConfusion hNone

end BasicAccountStateCacheDelta

end cache

end catapult

namespace catapult

namespace cache

open state

namespace BasicAccountStateCacheDelta

/-- The high value addresses of a delta are the same before and after
updateHighValueAccounts, whose body is empty. -/
theorem highValueAddresses_updateHighValueAccounts (delta : BasicAccountStateCacheDelta)
    (height : Nat) :
    (delta.updateHighValueAccounts height).highValueAddresses = delta.highValueAddresses :=
  rfl

end BasicAccountStateCacheDelta

end cache

end catapult

/-! ## Importance view: theorems -/

namespace catapult

namespace cache

open state

namespace ImportanceView

/-- C20: for every cache, height H and address of a non-Remote account A whose
importance snapshot height equals the importance height of H, canHarvest
returns a boolean, and it returns true if and only if the current importance
of A is greater than 0 and the balance of the harvesting mosaic of A lies
between MinHarvesterBalance and MaxHarvesterBalance, both included. -/
theorem canHarvest_of_account_with_importance_at_height
    (ConvertToImportanceHeight : Nat → Nat → Nat) (m_cache : BasicAccountStateCacheDelta)
    (address height : Nat) (accountState : AccountState)
    (hFind : m_cache.findByAddress address = some accountState)
    (hType : accountState.AccountType ≠ AccountType.Remote)
    (hHeight : accountState.ImportanceSnapshots.height
      = ConvertToImportanceHeight height m_cache.m_options.ImportanceGrouping) :
    canHarvest ConvertToImportanceHeight m_cache address height
      = Except.ok (decide (0 < accountState.ImportanceSnapshots.current
          ∧ m_cache.m_options.MinHarvesterBalance
            ≤ accountState.Balances.get m_cache.m_options.HarvestingMosaicId
          ∧ accountState.Balances.get m_cache.m_options.HarvestingMosaicId
            ≤ m_cache.m_options.MaxHarvesterBalance)) := by
  unfold canHarvest FindAccountStateWithImportance
  simp only [hFind, ForwardingSteps, ForwardIfAccountHasImportanceAtHeight, if_neg hType,
    hHeight, ne_eq, not_true_eq_false, if_false]
  by_cases hImportance : 0 = accountState.ImportanceSnapshots.current
  · simp [← hImportance]
  · have hPositive : 0 < accountState.ImportanceSnapshots.current := by omega
    simp [hImportance, hPositive]

/-- Witness of C20: a main account with importance 10 at the importance height of
height 600 and a balance equal to the minimum harvester balance can harvest. -/
theorem canHarvest_of_account_with_importance_at_height_witness :
    (test.MainAccountCache 1000).findByAddress 1 = some (test.MainAccountState 1000)
    ∧ (test.MainAccountState 1000).AccountType ≠ AccountType.Remote
    ∧ (test.MainAccountState 1000).ImportanceSnapshots.height
      = test.ConvertToImportanceHeight 600 (test.MainAccountCache 1000).m_options.ImportanceGrouping
    ∧ canHarvest test.ConvertToImportanceHeight (test.MainAccountCache 1000) 1 600
      = Except.ok (decide (0 < (test.MainAccountState 1000).ImportanceSnapshots.current
          ∧ (test.MainAccountCache 1000).m_options.MinHarvesterBalance
            ≤ (test.MainAccountState 1000).Balances.get
                (test.MainAccountCache 1000).m_options.HarvestingMosaicId
          ∧ (test.MainAccountState 1000).Balances.get
                (test.MainAccountCache 1000).m_options.HarvestingMosaicId
            ≤ (test.MainAccountCache 1000).m_options.MaxHarvesterBalance))
    ∧ canHarvest test.ConvertToImportanceHeight (test.MainAccountCache 1000) 1 600
      = Except.ok true :=
  ⟨by decide, by decide, by decide,
    canHarvest_of_account_with_importance_at_height test.ConvertToImportanceHeight
      (test.MainAccountCache 1000) 1 600 (test.MainAccountState 1000) (by decide) (by decide)
      (by decide),
    rfl⟩

end ImportanceView

end cache

end catapult

/-! ## Importance view: forwarding of remote accounts -/

namespace catapult

namespace cache

open state

theorem findByPublicKey_address (cache : BasicAccountStateCacheDelta) (publicKey : Nat)
    (accountState : AccountState)
    (hFind : cache.findByPublicKey publicKey = some accountState) :
    cache.findByAddress accountState.Address = some accountState := by
  unfold BasicAccountStateCacheDelta.findByPublicKey at hFind
  unfold BasicAccountStateCacheDelta.findByAddress
  cases hKey : KeyLookupMap.find cache.m_pKeyToAddress publicKey with
  | none => simp [hKey] at hFind
  | some address =>
    simp only [hKey] at hFind
    have hAddress := (PrimarySet.find_some _ _ _ hFind).2
    rw [hAddress]
    exact hFind

/-- Forwarding from a remote account whose link is intact continues at the
linked account with one step less. -/
theorem ForwardIfAccountHasImportanceAtHeight_remote {σ : Type}
    (ConvertToImportanceHeight : Nat → Nat → Nat) (steps : Nat)
    (remoteAccountState mainAccountState : AccountState) (cache : BasicAccountStateCacheDelta)
    (height : Nat) (action : AccountState → σ → Bool × σ) (captured : σ)
    (hRemote : remoteAccountState.AccountType = AccountType.Remote)
    (hLinked : cache.findByPublicKey (GetLinkedPublicKey remoteAccountState)
      = some mainAccountState)
    (hMain : mainAccountState.AccountType = AccountType.Main)
    (hBack : GetLinkedPublicKey mainAccountState = remoteAccountState.PublicKey) :
    ForwardIfAccountHasImportanceAtHeight ConvertToImportanceHeight (steps + 1)
        remoteAccountState cache height action captured
      = ForwardIfAccountHasImportanceAtHeight ConvertToImportanceHeight steps
        mainAccountState cache height action captured := by
  rw [ForwardIfAccountHasImportanceAtHeight]
  simp [hRemote, hLinked, RequireLinkedRemoteAndMainAccounts, hMain, hBack]

/-- Forwarding from an account that is not remote does not depend on the
number of steps left, as long as there is one. -/
theorem ForwardIfAccountHasImportanceAtHeight_not_remote {σ : Type}
    (ConvertToImportanceHeight : Nat → Nat → Nat) (steps steps' : Nat)
    (accountState : AccountState) (cache : BasicAccountStateCacheDelta)
    (height : Nat) (action : AccountState → σ → Bool × σ) (captured : σ)
    (hType : accountState.AccountType ≠ AccountType.Remote) :
    ForwardIfAccountHasImportanceAtHeight ConvertToImportanceHeight (steps + 1)
        accountState cache height action captured
      = ForwardIfAccountHasImportanceAtHeight ConvertToImportanceHeight (steps' + 1)
        accountState cache height action captured := by
  rw [ForwardIfAccountHasImportanceAtHeight, ForwardIfAccountHasImportanceAtHeight]
  simp [hType]

/-- A query on the address of a remote account with an intact link is the
query on the address of its main account. -/
theorem FindAccountStateWithImportance_remote {σ : Type}
    (ConvertToImportanceHeight : Nat → Nat → Nat) (cache : BasicAccountStateCacheDelta)
    (address height : Nat) (remoteAccountState mainAccountState : AccountState)
    (action : AccountState → σ → Bool × σ) (captured : σ)
    (hFind : cache.findByAddress address = some remoteAccountState)
    (hRemote : remoteAccountState.AccountType = AccountType.Remote)
    (hLinked : cache.findByPublicKey (GetLinkedPublicKey remoteAccountState)
      = some mainAccountState)
    (hMain : mainAccountState.AccountType = AccountType.Main)
    (hBack : GetLinkedPublicKey mainAccountState = remoteAccountState.PublicKey) :
    FindAccountStateWithImportance ConvertToImportanceHeight cache address height action captured
      = FindAccountStateWithImportance ConvertToImportanceHeight cache mainAccountState.Address
          height action captured := by
  have hNotRemote : mainAccountState.AccountType ≠ AccountType.Remote := by
    rw [hMain]; decide
  unfold FindAccountStateWithImportance
  rw [hFind, findByPublicKey_address cache _ _ hLinked]
  simp only [ForwardingSteps]
  rw [ForwardIfAccountHasImportanceAtHeight_remote ConvertToImportanceHeight 1
    remoteAccountState mainAccountState cache height action captured hRemote hLinked hMain hBack]
  exact ForwardIfAccountHasImportanceAtHeight_not_remote ConvertToImportanceHeight 0 1
    mainAccountState cache height action captured hNotRemote

namespace ImportanceView

/-- C21: importance queries on a Remote account are forwarded to its Main
account: for every cache in which the Remote account R found at an address
links to a present account M of type Main whose linked public key is the
public key of R, and for every height, tryGetAccountImportance,
getAccountImportanceOrDefault and canHarvest called with the address of R
return exactly what they return when called with the address of M. -/
theorem remote_queries_equal_main_queries
    (ConvertToImportanceHeight : Nat → Nat → Nat) (m_cache : BasicAccountStateCacheDelta)
    (address height importance : Nat) (remoteAccountState mainAccountState : AccountState)
    (hFind : m_cache.findByAddress address = some remoteAccountState)
    (hRemote : remoteAccountState.AccountType = AccountType.Remote)
    (hLinked : m_cache.findByPublicKey (GetLinkedPublicKey remoteAccountState)
      = some mainAccountState)
    (hMain : mainAccountState.AccountType = AccountType.Main)
    (hBack : GetLinkedPublicKey mainAccountState = remoteAccountState.PublicKey) :
    tryGetAccountImportance ConvertToImportanceHeight m_cache address height importance
        = tryGetAccountImportance ConvertToImportanceHeight m_cache mainAccountState.Address
            height importance
      ∧ getAccountImportanceOrDefault ConvertToImportanceHeight m_cache address height
        = getAccountImportanceOrDefault ConvertToImportanceHeight m_cache
            mainAccountState.Address height
      ∧ canHarvest ConvertToImportanceHeight m_cache address height
        = canHarvest ConvertToImportanceHeight m_cache mainAccountState.Address height := by
  refine ⟨?_, ?_, ?_⟩
  · unfold tryGetAccountImportance
    exact FindAccountStateWithImportance_remote ConvertToImportanceHeight m_cache address height
      remoteAccountState mainAccountState _ importance hFind hRemote hLinked hMain hBack
  · unfold getAccountImportanceOrDefault tryGetAccountImportance
    rw [FindAccountStateWithImportance_remote ConvertToImportanceHeight m_cache address height
      remoteAccountState mainAccountState _ 0 hFind hRemote hLinked hMain hBack]
  · unfold canHarvest
    simp only
    rw [FindAccountStateWithImportance_remote ConvertToImportanceHeight m_cache address height
      remoteAccountState mainAccountState _ () hFind hRemote hLinked hMain hBack]

/-- Witness of C21: the remote account at address 2 links to the main account
at address 1, which has importance 10 at the importance height of height 600
and balance 1500: the three queries on address 2 return what they return on
address 1, namely importance 10 and that the account can harvest. -/
theorem remote_queries_equal_main_queries_witness :
    (tryGetAccountImportance test.ConvertToImportanceHeight (test.LinkedAccountsCache 1500)
        2 600 7
        = tryGetAccountImportance test.ConvertToImportanceHeight (test.LinkedAccountsCache 1500)
            (test.LinkedMainAccountState 1500).Address 600 7
      ∧ getAccountImportanceOrDefault test.ConvertToImportanceHeight
          (test.LinkedAccountsCache 1500) 2 600
        = getAccountImportanceOrDefault test.ConvertToImportanceHeight
            (test.LinkedAccountsCache 1500) (test.LinkedMainAccountState 1500).Address 600
      ∧ canHarvest test.ConvertToImportanceHeight (test.LinkedAccountsCache 1500) 2 600
        = canHarvest test.ConvertToImportanceHeight (test.LinkedAccountsCache 1500)
            (test.LinkedMainAccountState 1500).Address 600)
    ∧ tryGetAccountImportance test.ConvertToImportanceHeight (test.LinkedAccountsCache 1500)
        2 600 7 = Except.ok (true, 10)
    ∧ getAccountImportanceOrDefault test.ConvertToImportanceHeight
        (test.LinkedAccountsCache 1500) 2 600 = Except.ok 10
    ∧ canHarvest test.ConvertToImportanceHeight (test.LinkedAccountsCache 1500) 2 600
        = Except.ok true :=
  ⟨remote_queries_equal_main_queries test.ConvertToImportanceHeight
      (test.LinkedAccountsCache 1500) 2 600 7 test.RemoteAccountState
      (test.LinkedMainAccountState 1500) (by decide) (by decide) (by decide) (by decide)
      (by decide),
    rfl, rfl, rfl⟩

end ImportanceView

end cache

end catapult

/-! ## Importance view: failures and negative results -/

namespace catapult

namespace cache

open state

/-- A query on the address of a remote account whose linked public key is not
in the cache fails: the find iterator has nothing to get. -/
theorem FindAccountStateWithImportance_missing_main {σ : Type}
    (ConvertToImportanceHeight : Nat → Nat → Nat) (cache : BasicAccountStateCacheDelta)
    (address height : Nat) (remoteAccountState : AccountState)
    (action : AccountState → σ → Bool × σ) (captured : σ)
    (hFind : cache.findByAddress address = some remoteAccountState)
    (hRemote : remoteAccountState.AccountType = AccountType.Remote)
    (hLinked : cache.findByPublicKey (GetLinkedPublicKey remoteAccountState) = none) :
    FindAccountStateWithImportance ConvertToImportanceHeight cache address height action captured
      = Except.error ImportanceViewError.InvariantViolation := by
  unfold FindAccountStateWithImportance
  rw [hFind]
  simp only [ForwardingSteps]
  rw [ForwardIfAccountHasImportanceAtHeight]
  simp [hRemote, hLinked]

/-- A query on the address of a remote account whose linked account fails the
link check fails with the corrupted link error. -/
theorem FindAccountStateWithImportance_corrupted_link {σ : Type}
    (ConvertToImportanceHeight : Nat → Nat → Nat) (cache : BasicAccountStateCacheDelta)
    (address height : Nat) (remoteAccountState linkedAccountState : AccountState)
    (action : AccountState → σ → Bool × σ) (captured : σ)
    (hFind : cache.findByAddress address = some remoteAccountState)
    (hRemote : remoteAccountState.AccountType = AccountType.Remote)
    (hLinked : cache.findByPublicKey (GetLinkedPublicKey remoteAccountState)
      = some linkedAccountState)
    (hCorrupted : linkedAccountState.AccountType ≠ AccountType.Main
      ∨ GetLinkedPublicKey linkedAccountState ≠ remoteAccountState.PublicKey) :
    FindAccountStateWithImportance ConvertToImportanceHeight cache address height action captured
      = Except.error ImportanceViewError.CorruptedLink := by
  have hCheck : ¬ (linkedAccountState.AccountType = AccountType.Main
      ∧ GetLinkedPublicKey linkedAccountState = remoteAccountState.PublicKey) := by
    rintro ⟨hMain, hBack⟩
    rcases hCorrupted with h | h
    · exact h hMain
    · exact h hBack
  unfold FindAccountStateWithImportance
  rw [hFind]
  simp only [ForwardingSteps]
  rw [ForwardIfAccountHasImportanceAtHeight]
  simp [hRemote, hLinked, RequireLinkedRemoteAndMainAccounts, hCheck]

/-- A query on the address of an account that is not remote and whose
importance was set at another importance height returns false and leaves the
captured state as it was. -/
theorem FindAccountStateWithImportance_other_height {σ : Type}
    (ConvertToImportanceHeight : Nat → Nat → Nat) (cache : BasicAccountStateCacheDelta)
    (address height : Nat) (accountState : AccountState)
    (action : AccountState → σ → Bool × σ) (captured : σ)
    (hFind : cache.findByAddress address = some accountState)
    (hType : accountState.AccountType ≠ AccountType.Remote)
    (hHeight : accountState.ImportanceSnapshots.height
      ≠ ConvertToImportanceHeight height cache.m_options.ImportanceGrouping) :
    FindAccountStateWithImportance ConvertToImportanceHeight cache address height action captured
      = Except.ok (false, captured) := by
  unfold FindAccountStateWithImportance
  rw [hFind]
  simp only [ForwardingSteps]
  rw [ForwardIfAccountHasImportanceAtHeight]
  simp [hType, Ne.symm hHeight]

namespace ImportanceView

/-- C22: for every cache holding a Remote account R whose linked public key is
not present in the cache, tryGetAccountImportance, getAccountImportanceOrDefault
and canHarvest on the address of R fail with an error (the invariant violation)
for every height; they do not return false or 0. -/
theorem remote_without_main_fails
    (ConvertToImportanceHeight : Nat → Nat → Nat) (m_cache : BasicAccountStateCacheDelta)
    (address height importance : Nat) (remoteAccountState : AccountState)
    (hFind : m_cache.findByAddress address = some remoteAccountState)
    (hRemote : remoteAccountState.AccountType = AccountType.Remote)
    (hLinked : m_cache.findByPublicKey (GetLinkedPublicKey remoteAccountState) = none) :
    tryGetAccountImportance ConvertToImportanceHeight m_cache address height importance
        = Except.error ImportanceViewError.InvariantViolation
      ∧ getAccountImportanceOrDefault ConvertToImportanceHeight m_cache address height
        = Except.error ImportanceViewError.InvariantViolation
      ∧ canHarvest ConvertToImportanceHeight m_cache address height
        = Except.error ImportanceViewError.InvariantViolation := by
  refine ⟨?_, ?_, ?_⟩
  · unfold tryGetAccountImportance
    exact FindAccountStateWithImportance_missing_main ConvertToImportanceHeight m_cache address
      height remoteAccountState _ importance hFind hRemote hLinked
  · unfold getAccountImportanceOrDefault tryGetAccountImportance
    rw [FindAccountStateWithImportance_missing_main ConvertToImportanceHeight m_cache address
      height remoteAccountState _ 0 hFind hRemote hLinked]
  · unfold canHarvest
    simp only
    rw [FindAccountStateWithImportance_missing_main ConvertToImportanceHeight m_cache address
      height remoteAccountState _ () hFind hRemote hLinked]

/-- Witness of C22: the cache holds the remote account at address 2 only; its
linked public key 10 is not in the cache and the queries at height 600 fail. -/
theorem remote_without_main_fails_witness :
    test.MissingMainCache.findByAddress 2 = some test.RemoteAccountState
    ∧ test.MissingMainCache.findByPublicKey (GetLinkedPublicKey test.RemoteAccountState) = none
    ∧ tryGetAccountImportance test.ConvertToImportanceHeight test.MissingMainCache 2 600 7
        = Except.error ImportanceViewError.InvariantViolation
    ∧ getAccountImportanceOrDefault test.ConvertToImportanceHeight test.MissingMainCache 2 600
        = Except.error ImportanceViewError.InvariantViolation
    ∧ canHarvest test.ConvertToImportanceHeight test.MissingMainCache 2 600
        = Except.error ImportanceViewError.InvariantViolation :=
  ⟨by decide, by decide,
    remote_without_main_fails test.ConvertToImportanceHeight test.MissingMainCache 2 600 7
      test.RemoteAccountState (by decide) (by decide) (by decide)⟩

/-- C23: for every cache holding a Remote account R whose linked account M is
present but is not of type Main, or whose linked public key differs from the
public key of R, tryGetAccountImportance and canHarvest on the address of R
fail with the corrupted link error instead of returning a result. -/
theorem remote_with_corrupted_link_fails
    (ConvertToImportanceHeight : Nat → Nat → Nat) (m_cache : BasicAccountStateCacheDelta)
    (address height importance : Nat) (remoteAccountState linkedAccountState : AccountState)
    (hFind : m_cache.findByAddress address = some remoteAccountState)
    (hRemote : remoteAccountState.AccountType = AccountType.Remote)
    (hLinked : m_cache.findByPublicKey (GetLinkedPublicKey remoteAccountState)
      = some linkedAccountState)
    (hCorrupted : linkedAccountState.AccountType ≠ AccountType.Main
      ∨ GetLinkedPublicKey linkedAccountState ≠ remoteAccountState.PublicKey) :
    tryGetAccountImportance ConvertToImportanceHeight m_cache address height importance
        = Except.error ImportanceViewError.CorruptedLink
      ∧ canHarvest ConvertToImportanceHeight m_cache address height
        = Except.error ImportanceViewError.CorruptedLink := by
  refine ⟨?_, ?_⟩
  · unfold tryGetAccountImportance
    exact FindAccountStateWithImportance_corrupted_link ConvertToImportanceHeight m_cache address
      height remoteAccountState linkedAccountState _ importance hFind hRemote hLinked hCorrupted
  · unfold canHarvest
    simp only
    rw [FindAccountStateWithImportance_corrupted_link ConvertToImportanceHeight m_cache address
      height remoteAccountState linkedAccountState _ () hFind hRemote hLinked hCorrupted]

/-- Witness of C23: the account linked by the remote account at address 2 is of
type Main but links to public key 30, which is not the public key 20 of the
remote account; the queries at height 600 fail with the corrupted link error. -/
theorem remote_with_corrupted_link_fails_witness :
    test.ForeignLinkCache.findByAddress 2 = some test.RemoteAccountState
    ∧ test.ForeignLinkCache.findByPublicKey (GetLinkedPublicKey test.RemoteAccountState)
        = some test.ForeignLinkAccountState
    ∧ GetLinkedPublicKey test.ForeignLinkAccountState ≠ test.RemoteAccountState.PublicKey
    ∧ tryGetAccountImportance test.ConvertToImportanceHeight test.ForeignLinkCache 2 600 7
        = Except.error ImportanceViewError.CorruptedLink
    ∧ canHarvest test.ConvertToImportanceHeight test.ForeignLinkCache 2 600
        = Except.error ImportanceViewError.CorruptedLink :=
  ⟨by decide, by decide, by decide,
    remote_with_corrupted_link_fails test.ConvertToImportanceHeight test.ForeignLinkCache 2 600 7
      test.RemoteAccountState test.ForeignLinkAccountState (by decide) (by decide) (by decide)
      (Or.inr (by decide))⟩

/-- C24: for every cache, height H and address of a present non-Remote account
A whose importance snapshot height differs from the importance height of H
(computed with the importance grouping of the cache), tryGetAccountImportance
returns false and leaves the importance as it was, getAccountImportanceOrDefault
returns 0 and canHarvest returns false, whatever the importance and the balance
of A are. -/
theorem queries_of_account_without_importance_at_height
    (ConvertToImportanceHeight : Nat → Nat → Nat) (m_cache : BasicAccountStateCacheDelta)
    (address height importance : Nat) (accountState : AccountState)
    (hFind : m_cache.findByAddress address = some accountState)
    (hType : accountState.AccountType ≠ AccountType.Remote)
    (hHeight : accountState.ImportanceSnapshots.height
      ≠ ConvertToImportanceHeight height m_cache.m_options.ImportanceGrouping) :
    tryGetAccountImportance ConvertToImportanceHeight m_cache address height importance
        = Except.ok (false, importance)
      ∧ getAccountImportanceOrDefault ConvertToImportanceHeight m_cache address height
        = Except.ok 0
      ∧ canHarvest ConvertToImportanceHeight m_cache address height = Except.ok false := by
  refine ⟨?_, ?_, ?_⟩
  · unfold tryGetAccountImportance
    exact FindAccountStateWithImportance_other_height ConvertToImportanceHeight m_cache address
      height accountState _ importance hFind hType hHeight
  · unfold getAccountImportanceOrDefault tryGetAccountImportance
    rw [FindAccountStateWithImportance_other_height ConvertToImportanceHeight m_cache address
      height accountState _ 0 hFind hType hHeight]
    rfl
  · unfold canHarvest
    simp only
    rw [FindAccountStateWithImportance_other_height ConvertToImportanceHeight m_cache address
      height accountState _ () hFind hType hHeight]

/-- Witness of C24: the main account at address 1 has importance 10 set at
importance height 543 and balance 1500; at height 1100, whose importance height
is 1086, the queries return false, 0 and false. -/
theorem queries_of_account_without_importance_at_height_witness :
    (test.MainAccountCache 1500).findByAddress 1 = some (test.MainAccountState 1500)
    ∧ (test.MainAccountState 1500).ImportanceSnapshots.height
      ≠ test.ConvertToImportanceHeight 1100 (test.MainAccountCache 1500).m_options.ImportanceGrouping
    ∧ tryGetAccountImportance test.ConvertToImportanceHeight (test.MainAccountCache 1500)
        1 1100 7 = Except.ok (false, 7)
    ∧ getAccountImportanceOrDefault test.ConvertToImportanceHeight (test.MainAccountCache 1500)
        1 1100 = Except.ok 0
    ∧ canHarvest test.ConvertToImportanceHeight (test.MainAccountCache 1500) 1 1100
        = Except.ok false :=
  ⟨by decide, by decide,
    queries_of_account_without_importance_at_height test.ConvertToImportanceHeight
      (test.MainAccountCache 1500) 1 1100 7 (test.MainAccountState 1500) (by decide) (by decide)
      (by decide)⟩

/-- C25: for every cache, height and address that is not in the cache,
tryGetAccountImportance returns false without raising an error and leaves the
importance as it was, getAccountImportanceOrDefault returns importance 0 and
canHarvest returns false. -/
theorem queries_of_unknown_address
    (ConvertToImportanceHeight : Nat → Nat → Nat) (m_cache : BasicAccountStateCacheDelta)
    (address height importance : Nat)
    (hFind : m_cache.findByAddress address = none) :
    tryGetAccountImportance ConvertToImportanceHeight m_cache address height importance
        = Except.ok (false, importance)
      ∧ getAccountImportanceOrDefault ConvertToImportanceHeight m_cache address height
        = Except.ok 0
      ∧ canHarvest ConvertToImportanceHeight m_cache address height = Except.ok false := by
  refine ⟨?_, ?_, ?_⟩
  · unfold tryGetAccountImportance FindAccountStateWithImportance
    rw [hFind]
  · unfold getAccountImportanceOrDefault tryGetAccountImportance FindAccountStateWithImportance
    rw [hFind]
    rfl
  · unfold canHarvest FindAccountStateWithImportance
    simp only [hFind]

/-- Witness of C25: address 5 is not in the cache of the main account. -/
theorem queries_of_unknown_address_witness :
    (test.MainAccountCache 1500).findByAddress 5 = none
    ∧ tryGetAccountImportance test.ConvertToImportanceHeight (test.MainAccountCache 1500)
        5 600 7 = Except.ok (false, 7)
    ∧ getAccountImportanceOrDefault test.ConvertToImportanceHeight (test.MainAccountCache 1500)
        5 600 = Except.ok 0
    ∧ canHarvest test.ConvertToImportanceHeight (test.MainAccountCache 1500) 5 600
        = Except.ok false :=
  ⟨by decide,
    queries_of_unknown_address test.ConvertToImportanceHeight (test.MainAccountCache 1500)
      5 600 7 (by decide)⟩

end ImportanceView

end cache

end catapult

/-! ## Balance history: theorems -/

namespace catapult

namespace state

namespace BalanceHistory

theorem lower_bound_eq_none_iff (heightBalanceMap : List (Nat × Nat)) (height : Nat) :
    lower_bound heightBalanceMap height = none
      ↔ ∀ pair ∈ heightBalanceMap, height < pair.1 := by
  unfold lower_bound
  rw [List.find?_eq_none]
  constructor
  · intro h pair hPair
    have := h pair hPair
    simpa using this
  · intro h pair hPair
    have := h pair hPair
    simpa using this

/-- On a descending map the lower bound of a height is the entry with the
largest height that is not above the height. -/
theorem lower_bound_some (heightBalanceMap : List (Nat × Nat)) (height : Nat)
    (found : Nat × Nat)
    (hDescending : heightBalanceMap.Pairwise (fun earlier later => later.1 < earlier.1))
    (hFound : lower_bound heightBalanceMap height = some found) :
    found ∈ heightBalanceMap ∧ found.1 ≤ height
      ∧ ∀ other ∈ heightBalanceMap, other.1 ≤ height → other.1 ≤ found.1 := by
  induction heightBalanceMap with
  | nil => simp [lower_bound] at hFound
  | cons head tail ih =>
    rw [List.pairwise_cons] at hDescending
    unfold lower_bound at hFound
    rw [List.find?_cons] at hFound
    by_cases hHead : head.1 ≤ height
    · simp only [hHead, decide_True, Option.some.injEq] at hFound
      subst hFound
      refine ⟨List.mem_cons_self _ _, hHead, ?_⟩
      intro other hOther _
      rcases List.mem_cons.mp hOther with hEq | hTail
      · rw [hEq]
      · exact Nat.le_of_lt (hDescending.1 other hTail)
    · simp only [hHead, decide_False] at hFound
      obtain ⟨hMem, hLe, hLargest⟩ := ih hDescending.2 hFound
      refine ⟨List.mem_cons_of_mem _ hMem, hLe, ?_⟩
      intro other hOther hOtherLe
      rcases List.mem_cons.mp hOther with hEq | hTail
      · rw [hEq] at hOtherLe
        exact absurd hOtherLe hHead
      · exact hLargest other hTail hOtherLe

/-- The map is the entries before the lower bound, followed by the lower bound
and the entries after it. -/
theorem eraseFromLowerBound_append (heightBalanceMap : List (Nat × Nat)) (height : Nat)
    (found : Nat × Nat) (hFound : lower_bound heightBalanceMap height = some found) :
    ∃ rest, heightBalanceMap = eraseFromLowerBound heightBalanceMap height ++ found :: rest := by
  induction heightBalanceMap with
  | nil => simp [lower_bound] at hFound
  | cons head tail ih =>
    unfold lower_bound at hFound
    rw [List.find?_cons] at hFound
    unfold eraseFromLowerBound
    rw [List.takeWhile_cons]
    by_cases hHead : head.1 ≤ height
    · simp only [hHead, decide_True, Option.some.injEq] at hFound
      subst hFound
      have hNot : ¬ height < head.1 := Nat.not_lt.mpr hHead
      exact ⟨tail, by simp [hNot]⟩
    · simp only [hHead, decide_False] at hFound
      obtain ⟨rest, hRest⟩ := ih hFound
      have hAbove : height < head.1 := Nat.lt_of_not_le hHead
      refine ⟨rest, ?_⟩
      simp only [hAbove, decide_True, if_true, List.cons_append]
      exact congrArg (List.cons head) hRest

theorem mem_eraseFromLowerBound (heightBalanceMap : List (Nat × Nat)) (height : Nat)
    (pair : Nat × Nat) (hPair : pair ∈ eraseFromLowerBound heightBalanceMap height) :
    height < pair.1 := by
  unfold eraseFromLowerBound at hPair
  simpa using List.mem_takeWhile_imp hPair

/-- After the erasure the assignment at the prune height appends the entry. -/
theorem assign_eraseFromLowerBound (heightBalanceMap : List (Nat × Nat))
    (height balance : Nat) :
    assign (eraseFromLowerBound heightBalanceMap height) height balance
      = eraseFromLowerBound heightBalanceMap height ++ [(height, balance)] := by
  unfold assign
  have hKeep : (eraseFromLowerBound heightBalanceMap height).filter
      (fun pair => decide (height < pair.1)) = eraseFromLowerBound heightBalanceMap height := by
    rw [List.filter_eq_self]
    intro pair hPair
    simpa using mem_eraseFromLowerBound heightBalanceMap height pair hPair
  have hDrop : (eraseFromLowerBound heightBalanceMap height).filter
      (fun pair => decide (pair.1 < height)) = [] := by
    rw [List.filter_eq_nil_iff]
    intro pair hPair
    have := mem_eraseFromLowerBound heightBalanceMap height pair hPair
    simp only [decide_eq_true_eq]
    omega
  rw [hKeep, hDrop]

theorem prune_of_none (history : BalanceHistory) (height : Nat)
    (hNone : lower_bound history.m_heightBalanceMap height = none) :
    history.prune height = history := by
  unfold prune
  rw [hNone]

theorem prune_map_of_some (history : BalanceHistory) (height : Nat) (found : Nat × Nat)
    (hFound : lower_bound history.m_heightBalanceMap height = some found) :
    (history.prune height).m_heightBalanceMap
      = eraseFromLowerBound history.m_heightBalanceMap height ++ [(height, found.2)] := by
  unfold prune
  rw [hFound]
  exact assign_eraseFromLowerBound history.m_heightBalanceMap height found.2

theorem eq_of_map_eq (first second : BalanceHistory)
    (h : first.m_heightBalanceMap = second.m_heightBalanceMap) : first = second := by
  cases first
  cases second
  simp only [mk.injEq]
  exact h

end BalanceHistory

end state

end catapult

/-! ## Balance history: balance at a height and pruning -/

namespace catapult

namespace state

namespace BalanceHistory

/-- The lower bound of a height at or above the prune height holds the same
balance after the prune as before it. -/
theorem lower_bound_prune (history : BalanceHistory) (height other : Nat)
    (hOther : height ≤ other) :
    (lower_bound (history.prune height).m_heightBalanceMap other).map Prod.snd
      = (lower_bound history.m_heightBalanceMap other).map Prod.snd := by
  cases hFound : lower_bound history.m_heightBalanceMap height with
  | none => rw [prune_of_none history height hFound]
  | some found =>
    obtain ⟨rest, hRest⟩ := eraseFromLowerBound_append history.m_heightBalanceMap height found
      hFound
    have hFoundLe : found.1 ≤ other := by
      have := List.find?_some hFound
      simp only [decide_eq_true_eq] at this
      omega
    rw [prune_map_of_some history height found hFound]
    nth_rewrite 2 [hRest]
    unfold lower_bound
    rw [List.find?_append, List.find?_append]
    cases List.find? (fun pair => decide (pair.1 ≤ other))
        (eraseFromLowerBound history.m_heightBalanceMap height) with
    | some pair => rfl
    | none => simp [List.find?_cons, hOther, hFoundLe]

/-- A prune leaves queries at or above the prune height as they were. -/
theorem balanceAt_prune (history : BalanceHistory) (height other : Nat)
    (hOther : height ≤ other) :
    (history.prune height).balanceAt other = history.balanceAt other := by
  have h := lower_bound_prune history height other hOther
  unfold balanceAt
  cases hAfter : lower_bound (history.prune height).m_heightBalanceMap other with
  | none =>
    rw [hAfter] at h
    cases hBefore : lower_bound history.m_heightBalanceMap other with
    | none => rfl
    | some pair => rw [hBefore] at h; simp at h
  | some pair =>
    rw [hAfter] at h
    cases hBefore : lower_bound history.m_heightBalanceMap other with
    | none => rw [hBefore] at h; simp at h
    | some pair' =>
      rw [hBefore] at h
      simpa using h

/-- After a prune no entry has a height below the prune height. -/
theorem height_le_of_mem_prune (history : BalanceHistory) (height : Nat) (pair : Nat × Nat)
    (hPair : pair ∈ (history.prune height).m_heightBalanceMap) : height ≤ pair.1 := by
  cases hFound : lower_bound history.m_heightBalanceMap height with
  | none =>
    rw [prune_of_none history height hFound] at hPair
    exact Nat.le_of_lt ((lower_bound_eq_none_iff _ _).mp hFound pair hPair)
  | some found =>
    rw [prune_map_of_some history height found hFound] at hPair
    rcases List.mem_append.mp hPair with hKept | hNew
    · exact Nat.le_of_lt (mem_eraseFromLowerBound _ _ _ hKept)
    · simp only [List.mem_singleton] at hNew
      rw [hNew]

/-- C26, counterexample: in the history with balance 12 from height 11, 98 from
height 22 and 67 from height 33, the smallest height at or above 15 is 22 with
balance 98, yet balance(15) is 12, the balance at height 11; and no height is
at or above 40, yet balance(40) is 67 and not 0. -/
theorem balanceAt_is_not_the_amount_at_the_smallest_key_above :
    (22, 98) ∈ test.ThreeHistory.m_heightBalanceMap
    ∧ 15 ≤ 22
    ∧ (∀ pair ∈ test.ThreeHistory.m_heightBalanceMap, 15 ≤ pair.1 → 22 ≤ pair.1)
    ∧ test.ThreeHistory.balanceAt 15 = 12
    ∧ (∀ pair ∈ test.ThreeHistory.m_heightBalanceMap, ¬ 40 ≤ pair.1)
    ∧ test.ThreeHistory.balanceAt 40 = 67 := by
  decide

/-- C26, amended: for every balance history and height h, balance(h) returns
the amount stored at the largest key that is less than or equal to h, and 0
when no key is less than or equal to h. -/
theorem balanceAt_is_the_amount_at_the_largest_key_not_above
    (history : BalanceHistory) (height : Nat) :
    (∃ pair ∈ history.m_heightBalanceMap, pair.1 ≤ height
        ∧ (∀ other ∈ history.m_heightBalanceMap, other.1 ≤ height → other.1 ≤ pair.1)
        ∧ history.balanceAt height = pair.2)
      ∨ ((∀ pair ∈ history.m_heightBalanceMap, ¬ pair.1 ≤ height)
        ∧ history.balanceAt height = 0) := by
  cases hFound : lower_bound history.m_heightBalanceMap height with
  | none =>
    refine Or.inr ⟨?_, ?_⟩
    · intro pair hPair
      exact Nat.not_le.mpr ((lower_bound_eq_none_iff _ _).mp hFound pair hPair)
    · unfold balanceAt
      rw [hFound]
  | some found =>
    obtain ⟨hMem, hLe, hLargest⟩ :=
      lower_bound_some history.m_heightBalanceMap height found history.descending hFound
    refine Or.inl ⟨found, hMem, hLe, hLargest, ?_⟩
    unfold balanceAt
    rw [hFound]

/-- C27, counterexample: pruning the history with heights 11, 22 and 33 at
height 22 keeps the entry of height 33, which is greater than 22, and changes
the query at height 11, which is below 22, from 12 to 0. -/
theorem prune_keeps_keys_above_and_drops_queries_below :
    (33, 67) ∈ (test.ThreeHistory.prune 22).m_heightBalanceMap
    ∧ 22 < 33
    ∧ 11 ≤ 22
    ∧ test.ThreeHistory.balanceAt 11 = 12
    ∧ (test.ThreeHistory.prune 22).balanceAt 11 = 0 := by
  decide

/-- C27, amended: for every balance history and height h, prune(h) removes
every entry with key less than h and keeps the queries at or above h intact:
for every h' >= h, balance(h') after prune(h) equals balance(h') before it. -/
theorem prune_removes_keys_below_and_keeps_queries_above
    (history : BalanceHistory) (height other : Nat) (hOther : height ≤ other) :
    (∀ pair ∈ (history.prune height).m_heightBalanceMap, ¬ pair.1 < height)
      ∧ (history.prune height).balanceAt other = history.balanceAt other :=
  ⟨fun pair hPair => Nat.not_lt.mpr (height_le_of_mem_prune history height pair hPair),
    balanceAt_prune history height other hOther⟩

/-- Witness of C27, amended: pruning the history with heights 11, 22 and 33 at
height 22 leaves the heights 33 and 22, and the query at height 25 is 98 before
and after. -/
theorem prune_removes_keys_below_and_keeps_queries_above_witness :
    ((∀ pair ∈ (test.ThreeHistory.prune 22).m_heightBalanceMap, ¬ pair.1 < 22)
      ∧ (test.ThreeHistory.prune 22).balanceAt 25 = test.ThreeHistory.balanceAt 25)
    ∧ (test.ThreeHistory.prune 22).m_heightBalanceMap = [(33, 67), (22, 98)]
    ∧ test.ThreeHistory.balanceAt 25 = 98 :=
  ⟨prune_removes_keys_below_and_keeps_queries_above test.ThreeHistory 22 25 (by decide),
    by decide, by decide⟩

/-- C28: prune is idempotent: for every balance history and height h, prune(h)
followed by prune(h) yields the same height to amount map as a single
prune(h). -/
theorem prune_is_idempotent (history : BalanceHistory) (height : Nat) :
    (history.prune height).prune height = history.prune height
      ∧ ((history.prune height).prune height).m_heightBalanceMap
        = (history.prune height).m_heightBalanceMap := by
  have hEq : (history.prune height).prune height = history.prune height := by
    cases hFound : lower_bound history.m_heightBalanceMap height with
    | none =>
      rw [prune_of_none history height hFound]
      exact prune_of_none history height hFound
    | some found =>
      have hMap := prune_map_of_some history height found hFound
      have hNone : List.find? (fun pair => decide (pair.1 ≤ height))
          (eraseFromLowerBound history.m_heightBalanceMap height) = none := by
        rw [List.find?_eq_none]
        intro pair hPair
        have := mem_eraseFromLowerBound _ _ _ hPair
        simp only [decide_eq_true_eq]
        omega
      have hAgain : lower_bound (history.prune height).m_heightBalanceMap height
          = some (height, found.2) := by
        rw [hMap]
        unfold lower_bound
        rw [List.find?_append, hNone]
        simp [List.find?_cons]
      have hErase : eraseFromLowerBound (history.prune height).m_heightBalanceMap height
          = eraseFromLowerBound history.m_heightBalanceMap height := by
        rw [hMap]
        unfold eraseFromLowerBound
        rw [List.takeWhile_append_of_pos]
        · simp [List.takeWhile_cons]
        · intro pair hPair
          simpa using mem_eraseFromLowerBound history.m_heightBalanceMap height pair hPair
      apply eq_of_map_eq
      rw [prune_map_of_some (history.prune height) height (height, found.2) hAgain, hErase, hMap]
  exact ⟨hEq, congrArg BalanceHistory.m_heightBalanceMap hEq⟩

end BalanceHistory

end state

end catapult

/-! ## Notification publisher: theorems -/

namespace catapult

namespace model

/-- C29, counterexample: the transaction of size 234 with maximum fee 765,
published with a block header of fee multiplier 4, raises a notification with
fee 936, whereas the minimum of the maximum fee and 4 * 234 is 765. -/
theorem block_fee_is_not_capped_by_the_maximum_fee :
    (PublishTransactionFee
        { entity := test.TransactionWithSize234
          hash := 1
          associatedBlockHeader := some test.BlockHeaderWithMultiplier4 }).Fee = 936
    ∧ min test.TransactionWithSize234.MaxFee
        (test.BlockHeaderWithMultiplier4.FeeMultiplier * test.TransactionWithSize234.Size) = 765 := by
  decide

/-- C29, amended: for every transaction published together with a block header
of fee multiplier m, the TransactionFeeNotification carries fee =
m * transaction.Size; for a transaction published standalone (no block header)
it carries fee = transaction.MaxFee. -/
theorem fee_of_published_transaction (transaction : Transaction) (hash : Nat)
    (blockHeader : BlockHeader) :
    (PublishTransactionFee
        { entity := transaction, hash := hash, associatedBlockHeader := some blockHeader }).Fee
      = blockHeader.FeeMultiplier * transaction.Size
    ∧ (PublishTransactionFee
        { entity := transaction, hash := hash, associatedBlockHeader := none }).Fee
      = transaction.MaxFee :=
  ⟨rfl, rfl⟩

/-- C30: for every transaction published together with a block header of fee
multiplier m, the TransactionFeeNotification has Fee = m * transaction.Size,
TransactionSize = transaction.Size and MaxFee = transaction.MaxFee, also when
m * transaction.Size exceeds MaxFee: multiplier 4, size 234 and MaxFee 765 give
Fee 936. -/
theorem block_dependent_fee_notification (transaction : Transaction) (hash : Nat)
    (blockHeader : BlockHeader) :
    PublishTransactionFee
        { entity := transaction, hash := hash, associatedBlockHeader := some blockHeader }
      = { Sender := transaction.SignerPublicKey
          TransactionSize := transaction.Size
          Fee := blockHeader.FeeMultiplier * transaction.Size
          MaxFee := transaction.MaxFee }
    ∧ PublishTransactionFee
        { entity := test.TransactionWithSize234
          hash := hash
          associatedBlockHeader := some test.BlockHeaderWithMultiplier4 }
      = { Sender := 5, TransactionSize := 234, Fee := 936, MaxFee := 765 } :=
  ⟨rfl, rfl⟩

end model

end catapult

/-! ## Balance history: frame of a prune -/

namespace catapult

namespace state

namespace BalanceHistory

/-- On a descending map an entry above the height lies before the lower bound. -/
theorem mem_eraseFromLowerBound_of_lt (heightBalanceMap : List (Nat × Nat)) (height : Nat)
    (pair : Nat × Nat)
    (hDescending : heightBalanceMap.Pairwise (fun earlier later => later.1 < earlier.1))
    (hPair : pair ∈ heightBalanceMap) (hAbove : height < pair.1) :
    pair ∈ eraseFromLowerBound heightBalanceMap height := by
  induction heightBalanceMap with
  | nil => simp at hPair
  | cons head tail ih =>
    rw [List.pairwise_cons] at hDescending
    unfold eraseFromLowerBound
    rw [List.takeWhile_cons]
    rcases List.mem_cons.mp hPair with hEq | hTail
    · subst hEq
      simp [hAbove]
    · have hHead : height < head.1 := Nat.lt_trans hAbove (hDescending.1 pair hTail)
      simp only [hHead, decide_True, if_true]
      exact List.mem_cons_of_mem _ (ih hDescending.2 hTail)

theorem mem_of_mem_eraseFromLowerBound (heightBalanceMap : List (Nat × Nat)) (height : Nat)
    (pair : Nat × Nat) (hPair : pair ∈ eraseFromLowerBound heightBalanceMap height) :
    pair ∈ heightBalanceMap :=
  (List.takeWhile_sublist _).subset hPair

/-- A prune leaves the current balance as it was. -/
theorem balance_prune (history : BalanceHistory) (height : Nat) :
    (history.prune height).balance = history.balance := by
  cases hFound : lower_bound history.m_heightBalanceMap height with
  | none => rw [prune_of_none history height hFound]
  | some found =>
    obtain ⟨rest, hRest⟩ := eraseFromLowerBound_append history.m_heightBalanceMap height found
      hFound
    unfold balance
    rw [prune_map_of_some history height found hFound]
    nth_rewrite 2 [hRest]
    cases eraseFromLowerBound history.m_heightBalanceMap height with
    | nil => rfl
    | cons head tail => rfl

/-- A prune does not add entries. -/
theorem size_prune_le (history : BalanceHistory) (height : Nat) :
    (history.prune height).size ≤ history.size := by
  cases hFound : lower_bound history.m_heightBalanceMap height with
  | none => rw [prune_of_none history height hFound]
  | some found =>
    obtain ⟨rest, hRest⟩ := eraseFromLowerBound_append history.m_heightBalanceMap height found
      hFound
    unfold size
    rw [prune_map_of_some history height found hFound]
    nth_rewrite 2 [hRest]
    simp

/-- The entries above the prune height are the same before and after a prune. -/
theorem mem_prune_iff_of_lt (history : BalanceHistory) (height : Nat) (pair : Nat × Nat)
    (hAbove : height < pair.1) :
    pair ∈ (history.prune height).m_heightBalanceMap ↔ pair ∈ history.m_heightBalanceMap := by
  cases hFound : lower_bound history.m_heightBalanceMap height with
  | none => rw [prune_of_none history height hFound]
  | some found =>
    rw [prune_map_of_some history height found hFound]
    constructor
    · intro hPair
      rcases List.mem_append.mp hPair with hKept | hNew
      · exact mem_of_mem_eraseFromLowerBound _ _ _ hKept
      · simp only [List.mem_singleton] at hNew
        rw [hNew] at hAbove
        exact absurd hAbove (Nat.lt_irrefl _)
    · intro hPair
      exact List.mem_append_left _
        (mem_eraseFromLowerBound_of_lt _ _ _ history.descending hPair hAbove)

/-- C39: with the history keyed in descending height order, prune(h) never
changes a query at or after h: for every balance history and heights h <= h',
balance(h') after prune(h) equals balance(h') before it, and the current
balance() is unchanged. -/
theorem prune_keeps_later_queries_and_current_balance
    (history : BalanceHistory) (height other : Nat) (hOther : height ≤ other) :
    (history.prune height).balanceAt other = history.balanceAt other
      ∧ (history.prune height).balance = history.balance :=
  ⟨balanceAt_prune history height other hOther, balance_prune history height⟩

/-- Witness of C39: pruning the history with heights 11, 22 and 33 at height 15
keeps the query at height 30, which is 98, and the current balance 67. -/
theorem prune_keeps_later_queries_and_current_balance_witness :
    ((test.ThreeHistory.prune 15).balanceAt 30 = test.ThreeHistory.balanceAt 30
      ∧ (test.ThreeHistory.prune 15).balance = test.ThreeHistory.balance)
    ∧ test.ThreeHistory.balanceAt 30 = 98
    ∧ test.ThreeHistory.balance = 67
    ∧ (test.ThreeHistory.prune 15).m_heightBalanceMap = [(33, 67), (22, 98), (15, 12)] :=
  ⟨prune_keeps_later_queries_and_current_balance test.ThreeHistory 15 30 (by decide),
    by decide, by decide, by decide⟩

/-- C40: with the history keyed in descending height order, for every balance
history and height h, prune(h) never increases size(), leaves no key below h,
leaves every entry with key above h untouched, and is a no-op when the history
has no key at or below h. -/
theorem prune_size_keys_and_frame (history : BalanceHistory) (height : Nat) :
    (history.prune height).size ≤ history.size
      ∧ (∀ pair ∈ (history.prune height).m_heightBalanceMap, ¬ pair.1 < height)
      ∧ (∀ pair : Nat × Nat, height < pair.1 →
          (pair ∈ (history.prune height).m_heightBalanceMap
            ↔ pair ∈ history.m_heightBalanceMap))
      ∧ ((∀ pair ∈ history.m_heightBalanceMap, ¬ pair.1 ≤ height) →
          history.prune height = history) := by
  refine ⟨size_prune_le history height, ?_, ?_, ?_⟩
  · intro pair hPair
    exact Nat.not_lt.mpr (height_le_of_mem_prune history height pair hPair)
  · intro pair hAbove
    exact mem_prune_iff_of_lt history height pair hAbove
  · intro hNone
    apply prune_of_none
    rw [lower_bound_eq_none_iff]
    intro pair hPair
    exact Nat.lt_of_not_le (hNone pair hPair)

/-- Witness of C40: pruning the history with heights 11, 22 and 33 at height 25
leaves the two entries of heights 33 and 25; pruning it at height 5, below every
height, changes nothing. -/
theorem prune_size_keys_and_frame_witness :
    ((test.ThreeHistory.prune 25).size ≤ test.ThreeHistory.size
      ∧ (∀ pair ∈ (test.ThreeHistory.prune 25).m_heightBalanceMap, ¬ pair.1 < 25)
      ∧ (∀ pair : Nat × Nat, 25 < pair.1 →
          (pair ∈ (test.ThreeHistory.prune 25).m_heightBalanceMap
            ↔ pair ∈ test.ThreeHistory.m_heightBalanceMap))
      ∧ ((∀ pair ∈ test.ThreeHistory.m_heightBalanceMap, ¬ pair.1 ≤ 25) →
          test.ThreeHistory.prune 25 = test.ThreeHistory))
    ∧ (test.ThreeHistory.prune 25).m_heightBalanceMap = [(33, 67), (25, 98)]
    ∧ (∀ pair ∈ test.ThreeHistory.m_heightBalanceMap, ¬ pair.1 ≤ 5)
    ∧ (test.ThreeHistory.prune 5).m_heightBalanceMap = test.ThreeHistory.m_heightBalanceMap :=
  ⟨prune_size_keys_and_frame test.ThreeHistory 25, by decide, by decide, by decide⟩

end BalanceHistory

end state

end catapult

/-! ## Importance view: termination of the forwarding -/

namespace catapult

namespace cache

open state

/-- Two steps are enough: with more steps the forwarding returns what it
returns with two. -/
theorem ForwardIfAccountHasImportanceAtHeight_steps {σ : Type}
    (ConvertToImportanceHeight : Nat → Nat → Nat) (extra : Nat)
    (accountState : AccountState) (cache : BasicAccountStateCacheDelta)
    (height : Nat) (action : AccountState → σ → Bool × σ) (captured : σ) :
    ForwardIfAccountHasImportanceAtHeight ConvertToImportanceHeight (extra + 2)
        accountState cache height action captured
      = ForwardIfAccountHasImportanceAtHeight ConvertToImportanceHeight 2
        accountState cache height action captured := by
  by_cases hRemote : accountState.AccountType = AccountType.Remote
  · rw [ForwardIfAccountHasImportanceAtHeight, ForwardIfAccountHasImportanceAtHeight]
    simp only [hRemote, if_true]
    cases cache.findByPublicKey (GetLinkedPublicKey accountState) with
    | none => rfl
    | some linkedAccountState =>
      simp only
      by_cases hCheck : linkedAccountState.AccountType = AccountType.Main
          ∧ GetLinkedPublicKey linkedAccountState = accountState.PublicKey
      · have hNotRemote : linkedAccountState.AccountType ≠ AccountType.Remote := by
          rw [hCheck.1]; decide
        simp only [RequireLinkedRemoteAndMainAccounts, hCheck, and_self, if_true]
        exact ForwardIfAccountHasImportanceAtHeight_not_remote ConvertToImportanceHeight extra 0
          linkedAccountState cache height action captured hNotRemote
      · simp only [RequireLinkedRemoteAndMainAccounts, hCheck, if_false]
  · exact ForwardIfAccountHasImportanceAtHeight_not_remote ConvertToImportanceHeight (extra + 1) 1
      accountState cache height action captured hRemote

/-- With two steps the forwarding never runs out of steps. -/
theorem ForwardIfAccountHasImportanceAtHeight_ne_limit {σ : Type}
    (ConvertToImportanceHeight : Nat → Nat → Nat)
    (accountState : AccountState) (cache : BasicAccountStateCacheDelta)
    (height : Nat) (action : AccountState → σ → Bool × σ) (captured : σ) :
    ForwardIfAccountHasImportanceAtHeight ConvertToImportanceHeight 2
        accountState cache height action captured
      ≠ Except.error ImportanceViewError.ForwardingLimit := by
  rw [ForwardIfAccountHasImportanceAtHeight]
  by_cases hRemote : accountState.AccountType = AccountType.Remote
  · simp only [hRemote, if_true]
    cases cache.findByPublicKey (GetLinkedPublicKey accountState) with
    | none => simp
    | some linkedAccountState =>
      simp only
      by_cases hCheck : linkedAccountState.AccountType = AccountType.Main
          ∧ GetLinkedPublicKey linkedAccountState = accountState.PublicKey
      · have hNotRemote : linkedAccountState.AccountType ≠ AccountType.Remote := by
          rw [hCheck.1]; decide
        simp only [RequireLinkedRemoteAndMainAccounts, hCheck, and_self, if_true]
        rw [ForwardIfAccountHasImportanceAtHeight]
        simp only [hNotRemote, if_false]
        split_ifs <;> simp
      · simp [RequireLinkedRemoteAndMainAccounts, hCheck]
  · simp only [hRemote, if_false]
    split_ifs <;> simp

theorem FindAccountStateWithImportance_ne_limit {σ : Type}
    (ConvertToImportanceHeight : Nat → Nat → Nat) (cache : BasicAccountStateCacheDelta)
    (address height : Nat) (action : AccountState → σ → Bool × σ) (captured : σ) :
    FindAccountStateWithImportance ConvertToImportanceHeight cache address height action captured
      ≠ Except.error ImportanceViewError.ForwardingLimit := by
  unfold FindAccountStateWithImportance
  cases cache.findByAddress address with
  | none => simp
  | some accountState =>
    exact ForwardIfAccountHasImportanceAtHeight_ne_limit ConvertToImportanceHeight accountState
      cache height action captured

namespace ImportanceView

/-- C36: the remote to main forwarding of the importance view always terminates
and follows at most one link: for every cache (links forming cycles or chains of
Remote accounts included), address and height, tryGetAccountImportance and
canHarvest return within the two steps of a query (a boolean or an error, never
the exhaustion of the steps), more steps change no result, and a forwarding
from a Remote account to a linked account that is not of type Main fails with
the corrupted link error instead of taking a second step; in the cache where
two Remote accounts link to each other both queries fail with that error. -/
theorem forwarding_terminates_within_one_link
    (ConvertToImportanceHeight : Nat → Nat → Nat) (m_cache : BasicAccountStateCacheDelta)
    (address height importance extra : Nat) (accountState : AccountState) :
    tryGetAccountImportance ConvertToImportanceHeight m_cache address height importance
        ≠ Except.error ImportanceViewError.ForwardingLimit
      ∧ canHarvest ConvertToImportanceHeight m_cache address height
        ≠ Except.error ImportanceViewError.ForwardingLimit
      ∧ ForwardIfAccountHasImportanceAtHeight ConvertToImportanceHeight (extra + ForwardingSteps)
          accountState m_cache height
          (fun found (_ : Nat) => (true, found.ImportanceSnapshots.current)) importance
        = ForwardIfAccountHasImportanceAtHeight ConvertToImportanceHeight ForwardingSteps
          accountState m_cache height
          (fun found (_ : Nat) => (true, found.ImportanceSnapshots.current)) importance
      ∧ (∀ linkedAccountState : AccountState,
          accountState.AccountType = AccountType.Remote →
          m_cache.findByPublicKey (GetLinkedPublicKey accountState) = some linkedAccountState →
          linkedAccountState.AccountType ≠ AccountType.Main →
          ForwardIfAccountHasImportanceAtHeight ConvertToImportanceHeight (extra + 1)
              accountState m_cache height
              (fun found (_ : Nat) => (true, found.ImportanceSnapshots.current)) importance
            = Except.error ImportanceViewError.CorruptedLink)
      ∧ tryGetAccountImportance ConvertToImportanceHeight test.RemoteMainCache 2 height importance
        = Except.error ImportanceViewError.CorruptedLink
      ∧ canHarvest ConvertToImportanceHeight test.RemoteMainCache 2 height
        = Except.error ImportanceViewError.CorruptedLink := by
  refine ⟨?_, ?_, ?_, ?_, rfl, rfl⟩
  · unfold tryGetAccountImportance
    exact FindAccountStateWithImportance_ne_limit ConvertToImportanceHeight m_cache address height
      _ importance
  · unfold canHarvest
    simp only
    intro hLimit
    split at hLimit
    · rename_i failure hFailure
      simp only [Except.error.injEq] at hLimit
      rw [hLimit] at hFailure
      exact FindAccountStateWithImportance_ne_limit ConvertToImportanceHeight m_cache address
        height _ () hFailure
    · simp at hLimit
  · exact ForwardIfAccountHasImportanceAtHeight_steps ConvertToImportanceHeight extra accountState
      m_cache height _ importance
  · intro linkedAccountState hRemote hLinked hType
    rw [ForwardIfAccountHasImportanceAtHeight]
    simp [hRemote, hLinked, RequireLinkedRemoteAndMainAccounts, hType]

end ImportanceView

end cache

end catapult

/-! ## Chain-sync consumer: score comparison and processor -/

namespace catapult

namespace consumers

theorem unwindLocalChain_filterMap_processor {κ : Type}
    (UndoBlock : BlockElement → ObserverState κ → ObserverState κ)
    (unwound : List BlockElement) (state : ObserverState κ) :
    (unwindLocalChain UndoBlock unwound state).1.filterMap Call.processor? = [] := by
  induction unwound generalizing state with
  | nil => rfl
  | cons blockElement remaining ih =>
    simp only [unwindLocalChain, List.filterMap_cons, Call.processor?]
    exact ih _

/-- C35: the score comparison precedes processing: for every input that passes
the height pre-check and the difficulty check but whose score is not strictly
better than the score of the unwound local blocks (scoreDelta at most zero
relative to the stored parent of the first candidate), the sync aborts with
ScoreNotBetter, the unwinds are performed (L - S + 1 UndoBlock calls for local
height L and first candidate height S) and the processor is never invoked. -/
theorem score_comparison_precedes_processing {κ : Type} (handlers : BlockChainSyncHandlers κ)
    (CalculateChainScore : Block → List Block → Nat) (node : NodeState κ) (input : ConsumerInput)
    (commonBlockElement : BlockElement)
    (hLinked : IsLinked input.first.Block.Height (chainHeight node.Storage) input.source = true)
    (hDifficulty : handlers.DifficultyChecker (ExtractBlocks input.blocks) node.Cache = true)
    (hCommon : loadBlockElement node.Storage (input.first.Block.Height - 1)
      = some commonBlockElement)
    (hScore : scoreDelta CalculateChainScore node input commonBlockElement ≤ 0) :
    (BlockChainSyncConsumer handlers CalculateChainScore node input).Result
        = ConsumerResult.Aborted AbortCode.Failure_Consumer_Remote_Chain_Score_Not_Better
      ∧ ((BlockChainSyncConsumer handlers CalculateChainScore node input).Calls.filterMap
          Call.undoBlock?).length + input.first.Block.Height = chainHeight node.Storage + 1
      ∧ (BlockChainSyncConsumer handlers CalculateChainScore node input).Calls.filterMap
          Call.processor? = [] := by
  have h := (IsLinked_iff _ _ _).1 hLinked
  have hlt : input.first.Block.Height - 2 < node.Storage.length := by
    simp only [chainHeight] at h; omega
  have hGet : commonBlockElement = node.Storage.get ⟨input.first.Block.Height - 2, hlt⟩ := by
    have hLoad := loadBlockElement_common node.Storage input.first.Block.Height hlt h.1
    rw [hCommon] at hLoad
    exact Option.some.inj hLoad
  have hUndo := sync_undo_calls handlers CalculateChainScore node input hLinked hDifficulty
  have hBlocks := unwindLocalChain_undo_blocks handlers.UndoBlock
    (unwoundElements node input).reverse (ObserverState.mk node.Cache node.State)
  have hUnwound : (unwoundElements node input).length
      = node.Storage.length - (input.first.Block.Height - 1) := by
    simp only [unwoundElements, List.length_drop]
  have hLength := congrArg List.length hBlocks
  simp only [List.length_map, List.length_reverse, hUnwound] at hLength
  subst hGet
  simp only [scoreDelta, unwoundElements] at hScore
  refine ⟨?_, ?_, ?_⟩
  · unfold BlockChainSyncConsumer syncFromCommonBlock
    simp only [dif_pos hLinked, if_pos hDifficulty, if_pos hScore]
  · rw [hUndo, hLength]
    simp only [chainHeight] at h ⊢
    omega
  · unfold BlockChainSyncConsumer syncFromCommonBlock
    simp only [dif_pos hLinked, if_pos hDifficulty, if_pos hScore, List.filterMap_cons,
      Call.processor?]
    exact unwindLocalChain_filterMap_processor _ _ _

/-- Witness of C35: the test ChainWithSmallerScoreIsRejected (local blocks 1-7,
candidates 5-6): three undo calls, no processor call, ScoreNotBetter. -/
theorem score_comparison_precedes_processing_witness :
    scoreDelta test.CalculateChainScore (test.Context 7 0)
        (test.CreateInput 5 2 InputSource.Remote_Pull) (test.SeedBlockElement 0 4) ≤ 0
    ∧ ((BlockChainSyncConsumer (test.Handlers true ValidationResult.Success)
          test.CalculateChainScore (test.Context 7 0)
          (test.CreateInput 5 2 InputSource.Remote_Pull)).Result
        = ConsumerResult.Aborted AbortCode.Failure_Consumer_Remote_Chain_Score_Not_Better
      ∧ ((BlockChainSyncConsumer (test.Handlers true ValidationResult.Success)
          test.CalculateChainScore (test.Context 7 0)
          (test.CreateInput 5 2 InputSource.Remote_Pull)).Calls.filterMap
            Call.undoBlock?).length
          + (test.CreateInput 5 2 InputSource.Remote_Pull).first.Block.Height
        = chainHeight (test.Context 7 0).Storage + 1
      ∧ (BlockChainSyncConsumer (test.Handlers true ValidationResult.Success)
          test.CalculateChainScore (test.Context 7 0)
          (test.CreateInput 5 2 InputSource.Remote_Pull)).Calls.filterMap
            Call.processor? = [])
    ∧ ((BlockChainSyncConsumer (test.Handlers true ValidationResult.Success)
          test.CalculateChainScore (test.Context 7 0)
          (test.CreateInput 5 2 InputSource.Remote_Pull)).Calls.filterMap
            Call.undoBlock?).length = 3 :=
  ⟨by decide,
    score_comparison_precedes_processing (test.Handlers true ValidationResult.Success)
      test.CalculateChainScore (test.Context 7 0) (test.CreateInput 5 2 InputSource.Remote_Pull)
      (test.SeedBlockElement 0 4) (by decide) (by decide) (by decide) (by decide),
    by decide⟩

end consumers

end catapult

/-! ## Account state cache delta: removal after addition -/

namespace catapult

namespace cache

open state

theorem PrimarySet.remove_of_find_none (set : List AccountState) (address : Nat)
    (hFind : PrimarySet.find set address = none) : PrimarySet.remove set address = set := by
  unfold PrimarySet.remove
  unfold PrimarySet.find at hFind
  rw [List.find?_eq_none] at hFind
  rw [List.filter_eq_self]
  intro accountState hMem
  have := hFind accountState hMem
  simpa using this

theorem KeyLookupMap.find_eq_none_iff (map : List (Nat × Nat)) (publicKey : Nat) :
    KeyLookupMap.find map publicKey = none ↔ ∀ pair ∈ map, pair.1 ≠ publicKey := by
  induction map with
  | nil => simp [KeyLookupMap.find]
  | cons pair pairs ih =>
    simp only [KeyLookupMap.find, List.mem_cons, forall_eq_or_imp]
    by_cases h : pair.1 = publicKey
    · simp [h]
    · simp [h, ih]

theorem KeyLookupMap.remove_of_unmapped (map : List (Nat × Nat)) (publicKey : Nat)
    (hFind : KeyLookupMap.find map publicKey = none) : KeyLookupMap.remove map publicKey = map := by
  unfold KeyLookupMap.remove
  rw [List.filter_eq_self]
  intro pair hMem
  have := (KeyLookupMap.find_eq_none_iff map publicKey).mp hFind pair hMem
  simpa using this

namespace BasicAccountStateCacheDelta

/-- The delta after addAccount(publicKey, height) when neither the public key
nor the address derived from it is known: the key is mapped to the address and
the fresh account carries the public key at the height. -/
theorem addAccountByPublicKey_of_unknown (PublicKeyToAddress : Nat → Nat → Nat)
    (delta : BasicAccountStateCacheDelta) (publicKey height : Nat)
    (hKey : KeyLookupMap.find delta.m_pKeyToAddress publicKey = none)
    (hFind : delta.findByAddress
      (PublicKeyToAddress publicKey delta.m_options.NetworkIdentifier) = none) :
    addAccountByPublicKey PublicKeyToAddress delta publicKey height
      = { delta with
          m_pKeyToAddress :=
            (publicKey, PublicKeyToAddress publicKey delta.m_options.NetworkIdentifier)
              :: delta.m_pKeyToAddress
          m_pStateByAddress :=
            { AccountState.create
                (PublicKeyToAddress publicKey delta.m_options.NetworkIdentifier) height with
              Balances := (AccountState.create
                (PublicKeyToAddress publicKey delta.m_options.NetworkIdentifier)
                  height).Balances.optimize delta.m_options.CurrencyMosaicId
              PublicKey := publicKey
              PublicKeyHeight := height } :: delta.m_pStateByAddress } := by
  have hGet : getAddress PublicKeyToAddress delta publicKey
      = (PublicKeyToAddress publicKey delta.m_options.NetworkIdentifier,
          { delta with
            m_pKeyToAddress :=
              (publicKey, PublicKeyToAddress publicKey delta.m_options.NetworkIdentifier)
                :: delta.m_pKeyToAddress }) := by
    unfold getAddress
    simp only [hKey, KeyLookupMap.emplace, Option.isSome_none, Bool.false_eq_true, if_false]
  have hModify : PrimarySet.modify delta.m_pStateByAddress
      (PublicKeyToAddress publicKey delta.m_options.NetworkIdentifier)
      (fun accountState => { accountState with PublicKey := publicKey, PublicKeyHeight := height })
      = delta.m_pStateByAddress :=
    PrimarySet.modify_of_find_none _ _ _ hFind
  unfold addAccountByPublicKey
  simp only [hGet]
  rw [addAccountByAddress_of_not_found _ _ _ (by exact hFind)]
  simp only [findByAddress, PrimarySet.find_cons, AccountState.create, if_true, ne_eq,
    not_true_eq_false, if_false]
  simp only [PrimarySet.modify, List.map_cons, if_true] at hModify ⊢
  rw [hModify]

end BasicAccountStateCacheDelta

end cache

end catapult

namespace catapult

namespace cache

open state

namespace BasicAccountStateCacheDelta

/-- The delta after addAccount(publicKey, height) when the public key is not
mapped and the address derived from it holds an account without public key:
the key is mapped to the address and the account takes the key and the height. -/
theorem addAccountByPublicKey_of_known_address (PublicKeyToAddress : Nat → Nat → Nat)
    (delta : BasicAccountStateCacheDelta) (publicKey height : Nat) (existing : AccountState)
    (hKey : KeyLookupMap.find delta.m_pKeyToAddress publicKey = none)
    (hFind : delta.findByAddress
      (PublicKeyToAddress publicKey delta.m_options.NetworkIdentifier) = some existing)
    (hNoKey : existing.PublicKeyHeight = 0) :
    addAccountByPublicKey PublicKeyToAddress delta publicKey height
      = { delta with
          m_pKeyToAddress :=
            (publicKey, PublicKeyToAddress publicKey delta.m_options.NetworkIdentifier)
              :: delta.m_pKeyToAddress
          m_pStateByAddress :=
            PrimarySet.modify delta.m_pStateByAddress
              (PublicKeyToAddress publicKey delta.m_options.NetworkIdentifier)
              (fun accountState =>
                { accountState with PublicKey := publicKey, PublicKeyHeight := height }) } := by
  have hGet : getAddress PublicKeyToAddress delta publicKey
      = (PublicKeyToAddress publicKey delta.m_options.NetworkIdentifier,
          { delta with
            m_pKeyToAddress :=
              (publicKey, PublicKeyToAddress publicKey delta.m_options.NetworkIdentifier)
                :: delta.m_pKeyToAddress }) := by
    unfold getAddress
    simp only [hKey, KeyLookupMap.emplace, Option.isSome_none, Bool.false_eq_true, if_false]
  unfold addAccountByPublicKey
  simp only [hGet]
  rw [addAccountByAddress_of_found _ _ _ existing (by exact hFind)]
  have hFind' : findByAddress
      { delta with
        m_pKeyToAddress :=
          (publicKey, PublicKeyToAddress publicKey delta.m_options.NetworkIdentifier)
            :: delta.m_pKeyToAddress }
      (PublicKeyToAddress publicKey delta.m_options.NetworkIdentifier) = some existing := hFind
  simp only [hFind', hNoKey, ne_eq, not_true_eq_false, if_false]

/-- C37: removal undoes addition: for every delta that contains neither the
account nor a key mapping for it, and every height h, addAccount(address, h)
followed by remove(address, h), and addAccount(publicKey, h) followed by
remove(publicKey, h), restore the set of account states and the key to address
index of the delta (the whole delta) to what they were before; when the account
already existed by address at a height different from h with no public key,
addAccount(publicKey, h) followed by remove(publicKey, h) restores that account
with public key height 0 and the zero key, restores the index and changes no
other account. -/
theorem remove_undoes_addAccount (PublicKeyToAddress : Nat → Nat → Nat)
    (delta : BasicAccountStateCacheDelta) (address publicKey height : Nat) :
    (delta.findByAddress address = none →
        (delta.addAccountByAddress address height).removeByAddress address height = delta)
      ∧ (KeyLookupMap.find delta.m_pKeyToAddress publicKey = none →
          delta.findByAddress
            (PublicKeyToAddress publicKey delta.m_options.NetworkIdentifier) = none →
          (addAccountByPublicKey PublicKeyToAddress delta publicKey height).removeByPublicKey
            publicKey height = delta)
      ∧ (∀ existing : AccountState,
          KeyLookupMap.find delta.m_pKeyToAddress publicKey = none →
          delta.findByAddress
            (PublicKeyToAddress publicKey delta.m_options.NetworkIdentifier) = some existing →
          existing.PublicKeyHeight = 0 →
          existing.AddressHeight ≠ height →
          ((addAccountByPublicKey PublicKeyToAddress delta publicKey height).removeByPublicKey
              publicKey height).findByAddress
              (PublicKeyToAddress publicKey delta.m_options.NetworkIdentifier)
            = some { existing with PublicKey := 0, PublicKeyHeight := 0 }
          ∧ ((addAccountByPublicKey PublicKeyToAddress delta publicKey height).removeByPublicKey
              publicKey height).m_pKeyToAddress = delta.m_pKeyToAddress
          ∧ ∀ other, other ≠ PublicKeyToAddress publicKey delta.m_options.NetworkIdentifier →
            ((addAccountByPublicKey PublicKeyToAddress delta publicKey height).removeByPublicKey
              publicKey height).findByAddress other = delta.findByAddress other) := by
  refine ⟨?_, ?_, ?_⟩
  · intro hFind
    rw [addAccountByAddress_of_not_found delta address height hFind]
    unfold removeByAddress
    simp only [findByAddress, PrimarySet.find_cons, AccountState.create, if_true, ne_eq,
      not_true_eq_false, if_false]
    have hRemove : PrimarySet.remove delta.m_pStateByAddress address = delta.m_pStateByAddress :=
      PrimarySet.remove_of_find_none _ _ hFind
    simp only [PrimarySet.remove, List.filter_cons, ne_eq, not_true_eq_false, decide_False,
      Bool.false_eq_true, if_false] at hRemove ⊢
    rw [hRemove]
  · intro hKey hFind
    rw [addAccountByPublicKey_of_unknown PublicKeyToAddress delta publicKey height hKey hFind]
    unfold removeByPublicKey
    simp only [findByPublicKey, KeyLookupMap.find, if_true, PrimarySet.find_cons,
      AccountState.create, ne_eq, not_true_eq_false, if_false]
    have hRemove : PrimarySet.remove delta.m_pStateByAddress
        (PublicKeyToAddress publicKey delta.m_options.NetworkIdentifier)
          = delta.m_pStateByAddress :=
      PrimarySet.remove_of_find_none _ _ hFind
    have hKeys : KeyLookupMap.remove delta.m_pKeyToAddress publicKey = delta.m_pKeyToAddress :=
      KeyLookupMap.remove_of_unmapped _ _ hKey
    simp only [PrimarySet.remove, List.filter_cons, ne_eq, not_true_eq_false, decide_False,
      Bool.false_eq_true, if_false, KeyLookupMap.remove] at hRemove hKeys ⊢
    rw [hRemove, hKeys]
  · intro existing hKey hFind hNoKey hHeight
    have hAddress : existing.Address
        = PublicKeyToAddress publicKey delta.m_options.NetworkIdentifier :=
      (PrimarySet.find_some _ _ _ hFind).2
    have hKeys : KeyLookupMap.remove delta.m_pKeyToAddress publicKey = delta.m_pKeyToAddress :=
      KeyLookupMap.remove_of_unmapped _ _ hKey
    have hFound : PrimarySet.find
        (PrimarySet.modify delta.m_pStateByAddress
          (PublicKeyToAddress publicKey delta.m_options.NetworkIdentifier)
          (fun accountState =>
            { accountState with PublicKey := publicKey, PublicKeyHeight := height }))
        (PublicKeyToAddress publicKey delta.m_options.NetworkIdentifier)
          = some { existing with PublicKey := publicKey, PublicKeyHeight := height } := by
      rw [PrimarySet.find_modify_self _ _
        (fun accountState =>
          { accountState with PublicKey := publicKey, PublicKeyHeight := height })
        (fun _ => rfl)]
      unfold findByAddress at hFind
      rw [hFind]
      rfl
    rw [addAccountByPublicKey_of_known_address PublicKeyToAddress delta publicKey height existing
      hKey hFind hNoKey]
    unfold removeByPublicKey
    simp only [findByPublicKey, KeyLookupMap.find, if_true, hFound, ne_eq, not_true_eq_false,
      if_false, Ne.symm hHeight, hAddress]
    refine ⟨?_, ?_, ?_⟩
    · unfold findByAddress
      simp only
      rw [PrimarySet.find_modify_self _ _
        (fun stored => { stored with PublicKeyHeight := 0, PublicKey := 0 }) (fun _ => rfl),
        hFound]
      simp only [Option.map_some', hAddress]
    · simp only [KeyLookupMap.remove_cons, if_true]
      exact hKeys
    · intro other hOther
      unfold findByAddress
      simp only
      rw [PrimarySet.find_modify_other _ _ _
          (fun stored => { stored with PublicKeyHeight := 0, PublicKey := 0 }) (fun _ => rfl)
          hOther,
        PrimarySet.find_modify_other _ _ _
          (fun accountState =>
            { accountState with PublicKey := publicKey, PublicKeyHeight := height })
          (fun _ => rfl) hOther]

end BasicAccountStateCacheDelta

end cache

end catapult
namespace catapult

namespace cache

open state

namespace BasicAccountStateCacheDelta

/-- Witness of C37: on the delta holding only the account at the address
derived from key 7 (added at height 3, no public key), address 60 and key 8
are unknown, so adding and removing them at height 5 restores the delta; adding
and removing key 7 at height 5 restores the account of key 7 without public
key. -/
theorem remove_undoes_addAccount_witness :
    test.DerivedAddressOnlyDelta.findByAddress 60 = none
    ∧ (test.DerivedAddressOnlyDelta.addAccountByAddress 60 5).removeByAddress 60 5
        = test.DerivedAddressOnlyDelta
    ∧ KeyLookupMap.find test.DerivedAddressOnlyDelta.m_pKeyToAddress 8 = none
    ∧ test.DerivedAddressOnlyDelta.findByAddress
        (test.ToAddress 8 test.DerivedAddressOnlyDelta.m_options.NetworkIdentifier) = none
    ∧ (addAccountByPublicKey test.ToAddress test.DerivedAddressOnlyDelta 8 5).removeByPublicKey 8 5
        = test.DerivedAddressOnlyDelta
    ∧ KeyLookupMap.find test.DerivedAddressOnlyDelta.m_pKeyToAddress 7 = none
    ∧ test.DerivedAddressOnlyDelta.findByAddress
        (test.ToAddress 7 test.DerivedAddressOnlyDelta.m_options.NetworkIdentifier)
        = some test.DerivedAddressOnlyAccountState
    ∧ test.DerivedAddressOnlyAccountState.PublicKeyHeight = 0
    ∧ test.DerivedAddressOnlyAccountState.AddressHeight ≠ 5
    ∧ ((addAccountByPublicKey test.ToAddress test.DerivedAddressOnlyDelta 7 5).removeByPublicKey
          7 5).findByAddress
          (test.ToAddress 7 test.DerivedAddressOnlyDelta.m_options.NetworkIdentifier)
        = some { test.DerivedAddressOnlyAccountState with PublicKey := 0, PublicKeyHeight := 0 }
    ∧ ((addAccountByPublicKey test.ToAddress test.DerivedAddressOnlyDelta 7 5).removeByPublicKey
          7 5).m_pKeyToAddress = test.DerivedAddressOnlyDelta.m_pKeyToAddress :=
  ⟨by decide,
    (remove_undoes_addAccount test.ToAddress test.DerivedAddressOnlyDelta 60 8 5).1 (by decide),
    by decide, by decide,
    (remove_undoes_addAccount test.ToAddress test.DerivedAddressOnlyDelta 60 8 5).2.1
      (by decide) (by decide),
    by decide, by decide, by decide, by decide,
    ((remove_undoes_addAccount test.ToAddress test.DerivedAddressOnlyDelta 60 7 5).2.2
      test.DerivedAddressOnlyAccountState (by decide) (by decide) (by decide) (by decide)).1,
    ((remove_undoes_addAccount test.ToAddress test.DerivedAddressOnlyDelta 60 7 5).2.2
      test.DerivedAddressOnlyAccountState (by decide) (by decide) (by decide) (by decide)).2.1⟩

end BasicAccountStateCacheDelta

end cache

end catapult

/-! ## Account state cache delta: single removals seen from another address -/

namespace catapult

namespace cache

open state

namespace BasicAccountStateCacheDelta

theorem removeByAddress_findByAddress_other (delta : BasicAccountStateCacheDelta)
    (address height other : Nat) (hOther : other ≠ address) :
    (delta.removeByAddress address height).findByAddress other = delta.findByAddress other := by
  unfold removeByAddress
  cases hFind : delta.findByAddress address with
  | none => rfl
  | some accountState =>
    simp only
    split_ifs <;>
      first
        | rfl
        | simp only [findByAddress, PrimarySet.find_after_remove, if_neg hOther]

theorem removeByAddress_keys (delta : BasicAccountStateCacheDelta)
    (address height publicKey : Nat) :
    KeyLookupMap.find (delta.removeByAddress address height).m_pKeyToAddress publicKey = none
      ∨ KeyLookupMap.find (delta.removeByAddress address height).m_pKeyToAddress publicKey
        = KeyLookupMap.find delta.m_pKeyToAddress publicKey := by
  unfold removeByAddress
  cases hFind : delta.findByAddress address with
  | none => exact Or.inr rfl
  | some accountState =>
    simp only
    split_ifs
    · exact Or.inr rfl
    · simp only [KeyLookupMap.find_remove]
      split_ifs
      · exact Or.inl rfl
      · exact Or.inr rfl
    · exact Or.inr rfl

theorem removeByAddress_find_none (delta : BasicAccountStateCacheDelta)
    (address height other : Nat) (hNone : delta.findByAddress other = none) :
    (delta.removeByAddress address height).findByAddress other = none := by
  by_cases hOther : other = address
  · subst hOther
    unfold removeByAddress
    rw [hNone]
    exact hNone
  · rw [removeByAddress_findByAddress_other delta address height other hOther]
    exact hNone

/-- Removing an account by its address at its address height takes it out of the
primary set and, when it has a public key, takes its key out of the index. -/
theorem removeByAddress_self (delta : BasicAccountStateCacheDelta)
    (address : Nat) (stored : AccountState)
    (hFind : delta.findByAddress address = some stored) :
    (delta.removeByAddress address stored.AddressHeight).findByAddress address = none
      ∧ (stored.PublicKeyHeight ≠ 0 →
          KeyLookupMap.find
            (delta.removeByAddress address stored.AddressHeight).m_pKeyToAddress
            stored.PublicKey = none) := by
  unfold removeByAddress
  rw [hFind]
  simp only [ne_eq, not_true_eq_false, if_false]
  refine ⟨?_, ?_⟩
  · simp only [findByAddress, PrimarySet.find_after_remove, if_true]
  · intro hKey
    have hKey' : ¬ 0 = stored.PublicKeyHeight := fun h => hKey h.symm
    simp only [hKey', not_false_eq_true, if_true, KeyLookupMap.find_remove]

theorem removeByPublicKey_findByAddress_other (delta : BasicAccountStateCacheDelta)
    (publicKey height other : Nat)
    (hOther : KeyLookupMap.find delta.m_pKeyToAddress publicKey ≠ some other) :
    (delta.removeByPublicKey publicKey height).findByAddress other
      = delta.findByAddress other := by
  unfold removeByPublicKey
  cases hFind : delta.findByPublicKey publicKey with
  | none => rfl
  | some accountState =>
    have hAddress : other ≠ accountState.Address := by
      unfold findByPublicKey at hFind
      cases hKey : KeyLookupMap.find delta.m_pKeyToAddress publicKey with
      | none => simp [hKey] at hFind
      | some address =>
        simp only [hKey] at hFind
        have := (PrimarySet.find_some _ _ _ hFind).2
        rw [hKey] at hOther
        intro hEq
        apply hOther
        rw [hEq, this]
    simp only
    split_ifs
    · rfl
    · simp only [findByAddress, PrimarySet.find_after_remove, if_neg hAddress]
    · simp only [findByAddress]
      exact PrimarySet.find_modify_other _ _ _
        (fun stored => { stored with PublicKeyHeight := 0, PublicKey := 0 }) (fun _ => rfl)
        hAddress

theorem removeByPublicKey_keys (delta : BasicAccountStateCacheDelta)
    (removed height publicKey : Nat) :
    KeyLookupMap.find (delta.removeByPublicKey removed height).m_pKeyToAddress publicKey = none
      ∨ KeyLookupMap.find (delta.removeByPublicKey removed height).m_pKeyToAddress publicKey
        = KeyLookupMap.find delta.m_pKeyToAddress publicKey := by
  unfold removeByPublicKey
  cases hFind : delta.findByPublicKey removed with
  | none => exact Or.inr rfl
  | some accountState =>
    simp only
    split_ifs
    · exact Or.inr rfl
    · simp only [KeyLookupMap.find_remove]
      split_ifs
      · exact Or.inl rfl
      · exact Or.inr rfl
    · simp only [KeyLookupMap.find_remove]
      split_ifs
      · exact Or.inl rfl
      · exact Or.inr rfl

theorem removeByPublicKey_find_none (delta : BasicAccountStateCacheDelta)
    (publicKey height other : Nat) (hNone : delta.findByAddress other = none) :
    (delta.removeByPublicKey publicKey height).findByAddress other = none := by
  by_cases hKey : KeyLookupMap.find delta.m_pKeyToAddress publicKey = some other
  · have hFind : delta.findByPublicKey publicKey = none := by
      unfold findByPublicKey
      rw [hKey]
      exact hNone
    unfold removeByPublicKey
    rw [hFind]
    exact hNone
  · rw [removeByPublicKey_findByAddress_other delta publicKey height other hKey]
    exact hNone

end BasicAccountStateCacheDelta

end cache

end catapult
/-! ## Account state cache delta: batch removals seen from an address -/

namespace catapult

namespace cache

open state

theorem QueuedRemovals.mem_emplace_self (queue : List (Nat × Nat)) (entry : Nat × Nat) :
    entry ∈ QueuedRemovals.emplace queue entry := by
  induction queue with
  | nil => simp [QueuedRemovals.emplace]
  | cons head tail ih =>
    unfold QueuedRemovals.emplace
    split_ifs with h1 h2
    · rw [h1]
      exact List.mem_cons_self _ _
    · exact List.mem_cons_self _ _
    · exact List.mem_cons_of_mem _ ih

theorem QueuedRemovals.mem_of_mem_emplace (queue : List (Nat × Nat)) (entry queued : Nat × Nat)
    (hQueued : queued ∈ QueuedRemovals.emplace queue entry) :
    queued = entry ∨ queued ∈ queue := by
  induction queue with
  | nil =>
    simp only [QueuedRemovals.emplace, List.mem_singleton] at hQueued
    exact Or.inl hQueued
  | cons head tail ih =>
    unfold QueuedRemovals.emplace at hQueued
    split_ifs at hQueued with h1 h2
    · exact Or.inr hQueued
    · rcases List.mem_cons.mp hQueued with h | h
      · exact Or.inl h
      · exact Or.inr h
    · rcases List.mem_cons.mp hQueued with h | h
      · exact Or.inr (h ▸ List.mem_cons_self _ _)
      · rcases ih h with h' | h'
        · exact Or.inl h'
        · exact Or.inr (List.mem_cons_of_mem _ h')

namespace BasicAccountStateCacheDelta

theorem removeByAddress_of_height_ne (delta : BasicAccountStateCacheDelta)
    (address height : Nat) (stored : AccountState)
    (hFind : delta.findByAddress address = some stored)
    (hHeight : height ≠ stored.AddressHeight) :
    delta.removeByAddress address height = delta := by
  unfold removeByAddress
  rw [hFind]
  simp only [hHeight, ne_eq, not_false_eq_true, if_true]

theorem foldl_removeByAddress_find_none (queued : List (Nat × Nat))
    (delta : BasicAccountStateCacheDelta) (other : Nat)
    (hNone : delta.findByAddress other = none) :
    (queued.foldl (fun current pair => current.removeByAddress pair.2 pair.1) delta
      ).findByAddress other = none := by
  induction queued generalizing delta with
  | nil => exact hNone
  | cons pair queued ih =>
    exact ih _ (removeByAddress_find_none delta pair.2 pair.1 other hNone)

theorem foldl_removeByPublicKey_find_none (queued : List (Nat × Nat))
    (delta : BasicAccountStateCacheDelta) (other : Nat)
    (hNone : delta.findByAddress other = none) :
    (queued.foldl (fun current pair => current.removeByPublicKey pair.2 pair.1) delta
      ).findByAddress other = none := by
  induction queued generalizing delta with
  | nil => exact hNone
  | cons pair queued ih =>
    exact ih _ (removeByPublicKey_find_none delta pair.2 pair.1 other hNone)

/-- Batch removal by address only takes keys out of the key lookup map. -/
theorem foldl_removeByAddress_keys (queued : List (Nat × Nat))
    (delta : BasicAccountStateCacheDelta) (publicKey : Nat) :
    KeyLookupMap.find
        (queued.foldl (fun current pair => current.removeByAddress pair.2 pair.1) delta
          ).m_pKeyToAddress publicKey = none
      ∨ KeyLookupMap.find
        (queued.foldl (fun current pair => current.removeByAddress pair.2 pair.1) delta
          ).m_pKeyToAddress publicKey
        = KeyLookupMap.find delta.m_pKeyToAddress publicKey := by
  induction queued generalizing delta with
  | nil => exact Or.inr rfl
  | cons pair queued ih =>
    rcases ih (delta.removeByAddress pair.2 pair.1) with h | h
    · exact Or.inl h
    · rcases removeByAddress_keys delta pair.2 pair.1 publicKey with h' | h'
      · exact Or.inl (h.trans h')
      · exact Or.inr (h.trans h')

/-- Batch removal by public key only takes keys out of the key lookup map. -/
theorem foldl_removeByPublicKey_keys (queued : List (Nat × Nat))
    (delta : BasicAccountStateCacheDelta) (publicKey : Nat) :
    KeyLookupMap.find
        (queued.foldl (fun current pair => current.removeByPublicKey pair.2 pair.1) delta
          ).m_pKeyToAddress publicKey = none
      ∨ KeyLookupMap.find
        (queued.foldl (fun current pair => current.removeByPublicKey pair.2 pair.1) delta
          ).m_pKeyToAddress publicKey
        = KeyLookupMap.find delta.m_pKeyToAddress publicKey := by
  induction queued generalizing delta with
  | nil => exact Or.inr rfl
  | cons pair queued ih =>
    rcases ih (delta.removeByPublicKey pair.2 pair.1) with h | h
    · exact Or.inl h
    · rcases removeByPublicKey_keys delta pair.2 pair.1 publicKey with h' | h'
      · exact Or.inl (h.trans h')
      · exact Or.inr (h.trans h')

/-- A batch removal by address that holds the pair of an account takes the
account out of the primary set and its key, if it has one, out of the index. -/
theorem foldl_removeByAddress_purges (queued : List (Nat × Nat))
    (delta : BasicAccountStateCacheDelta) (address : Nat) (stored : AccountState)
    (hMem : (stored.AddressHeight, address) ∈ queued)
    (hFind : delta.findByAddress address = some stored) :
    (queued.foldl (fun current pair => current.removeByAddress pair.2 pair.1) delta
        ).findByAddress address = none
      ∧ (stored.PublicKeyHeight ≠ 0 →
          KeyLookupMap.find
            (queued.foldl (fun current pair => current.removeByAddress pair.2 pair.1) delta
              ).m_pKeyToAddress stored.PublicKey = none) := by
  induction queued generalizing delta with
  | nil => simp at hMem
  | cons pair queued ih =>
    by_cases hPair : pair = (stored.AddressHeight, address)
    · subst hPair
      have hSelf := removeByAddress_self delta address stored hFind
      refine ⟨foldl_removeByAddress_find_none queued _ address hSelf.1, ?_⟩
      intro hKey
      rcases foldl_removeByAddress_keys queued
          (delta.removeByAddress address stored.AddressHeight) stored.PublicKey with h | h
      · exact h
      · exact h.trans (hSelf.2 hKey)
    · have hTail : (stored.AddressHeight, address) ∈ queued := by
        rcases List.mem_cons.mp hMem with h | h
        · exact absurd h.symm hPair
        · exact h
      have hStep : (delta.removeByAddress pair.2 pair.1).findByAddress address = some stored := by
        by_cases hAddress : pair.2 = address
        · have hHeight : pair.1 ≠ stored.AddressHeight := by
            intro hEq
            apply hPair
            rw [← hEq, ← hAddress]
          rw [hAddress, removeByAddress_of_height_ne delta address pair.1 stored hFind hHeight]
          exact hFind
        · rw [removeByAddress_findByAddress_other delta pair.2 pair.1 address
            (fun h => hAddress h.symm)]
          exact hFind
      exact ih _ hTail hStep

/-- A batch removal by address leaves the accounts whose address is not queued. -/
theorem foldl_removeByAddress_frame (queued : List (Nat × Nat))
    (delta : BasicAccountStateCacheDelta) (other : Nat)
    (hQueued : ∀ pair ∈ queued, pair.2 ≠ other) :
    (queued.foldl (fun current pair => current.removeByAddress pair.2 pair.1) delta
      ).findByAddress other = delta.findByAddress other := by
  induction queued generalizing delta with
  | nil => rfl
  | cons pair queued ih =>
    have hHead := hQueued pair (List.mem_cons_self _ _)
    have hStep := ih (delta.removeByAddress pair.2 pair.1)
      (fun queuedPair hMem => hQueued queuedPair (List.mem_cons_of_mem _ hMem))
    exact hStep.trans
      (removeByAddress_findByAddress_other delta pair.2 pair.1 other (fun h => hHead h.symm))

/-- A batch removal by public key leaves the accounts to whose address no queued
key is mapped; the key lookup map of the delta holds no more than the map the
queued keys are looked up in. -/
theorem foldl_removeByPublicKey_frame (queued : List (Nat × Nat))
    (delta : BasicAccountStateCacheDelta) (keyToAddress : List (Nat × Nat)) (other : Nat)
    (hKeys : ∀ publicKey, KeyLookupMap.find delta.m_pKeyToAddress publicKey = none
      ∨ KeyLookupMap.find delta.m_pKeyToAddress publicKey
        = KeyLookupMap.find keyToAddress publicKey)
    (hQueued : ∀ pair ∈ queued, KeyLookupMap.find keyToAddress pair.2 ≠ some other) :
    (queued.foldl (fun current pair => current.removeByPublicKey pair.2 pair.1) delta
      ).findByAddress other = delta.findByAddress other := by
  induction queued generalizing delta with
  | nil => rfl
  | cons pair queued ih =>
    have hHead : KeyLookupMap.find delta.m_pKeyToAddress pair.2 ≠ some other := by
      rcases hKeys pair.2 with h | h
      · rw [h]
        simp
      · rw [h]
        exact hQueued pair (List.mem_cons_self _ _)
    have hKeysStep : ∀ publicKey,
        KeyLookupMap.find (delta.removeByPublicKey pair.2 pair.1).m_pKeyToAddress publicKey = none
        ∨ KeyLookupMap.find (delta.removeByPublicKey pair.2 pair.1).m_pKeyToAddress publicKey
          = KeyLookupMap.find keyToAddress publicKey := by
      intro publicKey
      rcases removeByPublicKey_keys delta pair.2 pair.1 publicKey with h | h
      · exact Or.inl h
      · rcases hKeys publicKey with h' | h'
        · exact Or.inl (h.trans h')
        · exact Or.inr (h.trans h')
    have hStep := ih (delta.removeByPublicKey pair.2 pair.1) hKeysStep
      (fun queuedPair hMem => hQueued queuedPair (List.mem_cons_of_mem _ hMem))
    exact hStep.trans (removeByPublicKey_findByAddress_other delta pair.2 pair.1 other hHead)

end BasicAccountStateCacheDelta

end cache

end catapult
/-! ## Account state cache storage: purge -/

namespace catapult

namespace cache

open state

namespace AccountStateCacheStorage

open BasicAccountStateCacheDelta

/-- C38, counterexample: the delta holds the account at address 50, which has no
public key (zero key, public key height 0), and the account of the zero key
with public key height 5; after the purge of the account at address 50 its
address is not found any more, yet find of its public key still returns the
account of the zero key. -/
theorem purge_of_account_without_public_key_leaves_its_key_found :
    test.ZeroKeyDelta.findByAddress BasicAccountStateCacheDelta.test.AddressOnlyAccountState.Address
        = some BasicAccountStateCacheDelta.test.AddressOnlyAccountState
    ∧ (Purge BasicAccountStateCacheDelta.test.AddressOnlyAccountState test.ZeroKeyDelta
        ).findByAddress BasicAccountStateCacheDelta.test.AddressOnlyAccountState.Address = none
    ∧ BasicAccountStateCacheDelta.test.AddressOnlyAccountState.PublicKeyHeight = 0
    ∧ (Purge BasicAccountStateCacheDelta.test.AddressOnlyAccountState test.ZeroKeyDelta
        ).findByPublicKey BasicAccountStateCacheDelta.test.AddressOnlyAccountState.PublicKey
      ≠ none := by
  decide

/-- C38, amended: for every delta containing an account state s (same Address,
AddressHeight, PublicKey and PublicKeyHeight), after
AccountStateCacheStorage::Purge(s, delta) find(s.Address) is empty and, when s
has a public key (its PublicKeyHeight is not 0), find(s.PublicKey) is empty too,
whether or not PublicKeyHeight equals AddressHeight, and accounts that were not
queued for removal are unchanged: those whose address is neither the address of
s nor a queued address nor the address that the public key of s or a queued
public key is mapped to. -/
theorem purge_removes_account_from_both_indices
    (accountState stored : AccountState) (cacheDelta : BasicAccountStateCacheDelta)
    (hFind : cacheDelta.findByAddress accountState.Address = some stored)
    (hAddressHeight : stored.AddressHeight = accountState.AddressHeight)
    (hPublicKey : stored.PublicKey = accountState.PublicKey)
    (hPublicKeyHeight : stored.PublicKeyHeight = accountState.PublicKeyHeight) :
    (Purge accountState cacheDelta).findByAddress accountState.Address = none
      ∧ (accountState.PublicKeyHeight ≠ 0 →
          (Purge accountState cacheDelta).findByPublicKey accountState.PublicKey = none)
      ∧ (∀ other, other ≠ accountState.Address →
          (∀ pair ∈ cacheDelta.m_queuedRemoveByAddress, pair.2 ≠ other) →
          KeyLookupMap.find cacheDelta.m_pKeyToAddress accountState.PublicKey ≠ some other →
          (∀ pair ∈ cacheDelta.m_queuedRemoveByPublicKey,
            KeyLookupMap.find cacheDelta.m_pKeyToAddress pair.2 ≠ some other) →
          (Purge accountState cacheDelta).findByAddress other
            = cacheDelta.findByAddress other) := by
  have hMem : (stored.AddressHeight, accountState.Address)
      ∈ QueuedRemovals.emplace cacheDelta.m_queuedRemoveByAddress
          (accountState.AddressHeight, accountState.Address) := by
    rw [hAddressHeight]
    exact QueuedRemovals.mem_emplace_self _ _
  have hPurged := foldl_removeByAddress_purges
    (QueuedRemovals.emplace cacheDelta.m_queuedRemoveByAddress
      (accountState.AddressHeight, accountState.Address))
    ((cacheDelta.queueRemoveByPublicKey accountState.PublicKey accountState.PublicKeyHeight
      ).queueRemoveByAddress accountState.Address accountState.AddressHeight)
    accountState.Address stored hMem hFind
  refine ⟨?_, ?_, ?_⟩
  · exact foldl_removeByPublicKey_find_none _ _ _ hPurged.1
  · intro hKey
    have hKeyNone := hPurged.2 (by rw [hPublicKeyHeight]; exact hKey)
    rw [hPublicKey] at hKeyNone
    have hAfter : KeyLookupMap.find (Purge accountState cacheDelta).m_pKeyToAddress
        accountState.PublicKey = none := by
      rcases foldl_removeByPublicKey_keys
          (QueuedRemovals.emplace cacheDelta.m_queuedRemoveByPublicKey
            (accountState.PublicKeyHeight, accountState.PublicKey))
          ((QueuedRemovals.emplace cacheDelta.m_queuedRemoveByAddress
              (accountState.AddressHeight, accountState.Address)).foldl
            (fun current pair => current.removeByAddress pair.2 pair.1)
            ((cacheDelta.queueRemoveByPublicKey accountState.PublicKey
              accountState.PublicKeyHeight).queueRemoveByAddress accountState.Address
                accountState.AddressHeight))
          accountState.PublicKey with h | h
      · exact h
      · exact h.trans hKeyNone
    unfold findByPublicKey
    rw [hAfter]
  · intro other hOther hAddresses hOwnKey hKeys
    have hFrameAddresses := foldl_removeByAddress_frame
      (QueuedRemovals.emplace cacheDelta.m_queuedRemoveByAddress
        (accountState.AddressHeight, accountState.Address))
      ((cacheDelta.queueRemoveByPublicKey accountState.PublicKey accountState.PublicKeyHeight
        ).queueRemoveByAddress accountState.Address accountState.AddressHeight)
      other
      (by
        intro pair hPair
        rcases QueuedRemovals.mem_of_mem_emplace _ _ _ hPair with h | h
        · rw [h]
          exact fun hEq => hOther hEq.symm
        · exact hAddresses pair h)
    have hFrameKeys := foldl_removeByPublicKey_frame
      (QueuedRemovals.emplace cacheDelta.m_queuedRemoveByPublicKey
        (accountState.PublicKeyHeight, accountState.PublicKey))
      ((QueuedRemovals.emplace cacheDelta.m_queuedRemoveByAddress
          (accountState.AddressHeight, accountState.Address)).foldl
        (fun current pair => current.removeByAddress pair.2 pair.1)
        ((cacheDelta.queueRemoveByPublicKey accountState.PublicKey
          accountState.PublicKeyHeight).queueRemoveByAddress accountState.Address
            accountState.AddressHeight))
      cacheDelta.m_pKeyToAddress other
      (fun publicKey => foldl_removeByAddress_keys _ _ publicKey)
      (by
        intro pair hPair
        rcases QueuedRemovals.mem_of_mem_emplace _ _ _ hPair with h | h
        · rw [h]
          exact hOwnKey
        · exact hKeys pair h)
    exact hFrameKeys.trans hFrameAddresses

/-- Witness of C38, amended: the delta holds the account of key 7 (address height
3, public key height 5) and the account at address 50; after the purge of the
account of key 7 neither its address nor its key is found, and the account at
address 50 is as before. -/
theorem purge_removes_account_from_both_indices_witness :
    test.TwoAccountsDelta.findByAddress
        BasicAccountStateCacheDelta.test.LaterKeyAccountState.Address
      = some BasicAccountStateCacheDelta.test.LaterKeyAccountState
    ∧ BasicAccountStateCacheDelta.test.LaterKeyAccountState.PublicKeyHeight ≠ 0
    ∧ (Purge BasicAccountStateCacheDelta.test.LaterKeyAccountState test.TwoAccountsDelta
        ).findByAddress BasicAccountStateCacheDelta.test.LaterKeyAccountState.Address = none
    ∧ (Purge BasicAccountStateCacheDelta.test.LaterKeyAccountState test.TwoAccountsDelta
        ).findByPublicKey BasicAccountStateCacheDelta.test.LaterKeyAccountState.PublicKey = none
    ∧ (Purge BasicAccountStateCacheDelta.test.LaterKeyAccountState test.TwoAccountsDelta
        ).findByAddress 50 = test.TwoAccountsDelta.findByAddress 50
    ∧ test.TwoAccountsDelta.findByAddress 50
      = some BasicAccountStateCacheDelta.test.AddressOnlyAccountState :=
  ⟨by decide, by decide,
    (purge_removes_account_from_both_indices
      BasicAccountStateCacheDelta.test.LaterKeyAccountState
      BasicAccountStateCacheDelta.test.LaterKeyAccountState test.TwoAccountsDelta
      (by decide) rfl rfl rfl).1,
    (purge_removes_account_from_both_indices
      BasicAccountStateCacheDelta.test.LaterKeyAccountState
      BasicAccountStateCacheDelta.test.LaterKeyAccountState test.TwoAccountsDelta
      (by decide) rfl rfl rfl).2.1 (by decide),
    (purge_removes_account_from_both_indices
      BasicAccountStateCacheDelta.test.LaterKeyAccountState
      BasicAccountStateCacheDelta.test.LaterKeyAccountState test.TwoAccountsDelta
      (by decide) rfl rfl rfl).2.2 50 (by decide) (by decide) (by decide) (by decide),
    by decide⟩

end AccountStateCacheStorage

end cache

end catapult

/-! ## Multisig aggregate eligible cosigners validator: theorems -/

namespace catapult

namespace validators

theorem MultisigCache.mem_of_find_some (m_multisigCache : List (Nat × List Nat)) (publicKey : Nat)
    (cosignatories : List Nat)
    (hFind : MultisigCache.find m_multisigCache publicKey = some cosignatories) :
    (publicKey, cosignatories) ∈ m_multisigCache := by
  induction m_multisigCache with
  | nil => simp [MultisigCache.find] at hFind
  | cons entry entries ih =>
    unfold MultisigCache.find at hFind
    split_ifs at hFind with h
    · simp only [Option.some.injEq] at hFind
      rw [← h, ← hFind]
      exact List.mem_cons_self _ _
    · exact List.mem_cons_of_mem _ (ih hFind)

namespace AggregateCosignaturesChecker

theorem markAll_nil (m_cosigners : List (Nat × Bool)) : markAll [] m_cosigners = m_cosigners := by
  unfold markAll
  simp

theorem markEligible_eq_markAll (m_cosigners : List (Nat × Bool)) (key : Nat) :
    markEligible m_cosigners key = markAll [key] m_cosigners := by
  unfold markEligible markAll
  simp

theorem markAll_markAll (first second : List Nat) (m_cosigners : List (Nat × Bool)) :
    markAll second (markAll first m_cosigners) = markAll (first ++ second) m_cosigners := by
  unfold markAll
  rw [List.map_map]
  apply List.map_congr_left
  intro pair _
  simp only [Function.comp, List.mem_append]
  by_cases h1 : pair.1 ∈ first
  · simp [h1]
  · simp [h1]

theorem findEligibleCosignersOfModification_eq (transaction : EmbeddedTransaction)
    (m_cosigners : List (Nat × Bool)) :
    findEligibleCosignersOfModification transaction m_cosigners
      = markAll (addedCosignatories transaction) m_cosigners := by
  unfold findEligibleCosignersOfModification addedCosignatories
  induction transaction.Modifications generalizing m_cosigners with
  | nil => simp [markAll_nil]
  | cons modification modifications ih =>
    rw [List.foldl_cons, ih, List.filterMap_cons]
    by_cases hAdd : CosignatoryModificationType.Add = modification.ModificationType
    · simp only [hAdd, if_true]
      rw [markEligible_eq_markAll, markAll_markAll]
      rfl
    · simp only [hAdd, if_false]

theorem mem_addedCosignatories (transaction : EmbeddedTransaction) (key : Nat) :
    key ∈ addedCosignatories transaction
      ↔ ∃ modification ∈ transaction.Modifications,
          modification.ModificationType = CosignatoryModificationType.Add
            ∧ modification.CosignatoryPublicKey = key := by
  unfold addedCosignatories
  rw [List.mem_filterMap]
  constructor
  · rintro ⟨modification, hMem, hSome⟩
    split_ifs at hSome with hAdd
    · exact ⟨modification, hMem, hAdd.symm, Option.some.inj hSome⟩
  · rintro ⟨modification, hMem, hAdd, hKey⟩
    exact ⟨modification, hMem, by simp [hAdd, hKey]⟩

/-- After the marks no flag is false exactly when every key that was not
eligible before is one of the marked keys. -/
theorem any_not_markAll (keys : List Nat) (m_cosigners : List (Nat × Bool)) :
    (markAll keys m_cosigners).any (fun pair => !pair.2) = false
      ↔ ∀ pair ∈ m_cosigners, pair.2 = true ∨ pair.1 ∈ keys := by
  unfold markAll
  rw [List.any_eq_false]
  constructor
  · intro h pair hPair
    have := h _ (List.mem_map_of_mem _ hPair)
    by_cases hKey : pair.1 ∈ keys
    · exact Or.inr hKey
    · simp only [hKey, if_false] at this
      left
      simpa using this
  · intro h mapped hMapped
    obtain ⟨pair, hPair, rfl⟩ := List.mem_map.mp hMapped
    by_cases hKey : pair.1 ∈ keys
    · simp [hKey]
    · rcases h pair hPair with hFlag | hIn
      · simp [hKey, hFlag]
      · exact absurd hIn hKey

theorem mem_emplace_false (map : List (Nat × Bool)) (key : Nat)
    (hFlags : ∀ pair ∈ map, pair.2 = false) :
    (∀ pair ∈ KeyPointerFlagMap.emplace map key false, pair.2 = false)
      ∧ ∀ other, (∃ pair ∈ KeyPointerFlagMap.emplace map key false, pair.1 = other)
          ↔ (other = key ∨ ∃ pair ∈ map, pair.1 = other) := by
  unfold KeyPointerFlagMap.emplace
  by_cases hAny : map.any (fun pair => decide (pair.1 = key)) = true
  · rw [if_pos hAny]
    refine ⟨hFlags, ?_⟩
    intro other
    constructor
    · intro h
      exact Or.inr h
    · rintro (h | h)
      · rw [List.any_eq_true] at hAny
        obtain ⟨pair, hPair, hKey⟩ := hAny
        exact ⟨pair, hPair, by rw [h]; simpa using hKey⟩
      · exact h
  · rw [if_neg hAny]
    refine ⟨?_, ?_⟩
    · intro pair hPair
      rcases List.mem_append.mp hPair with h | h
      · exact hFlags pair h
      · simp only [List.mem_singleton] at h
        rw [h]
    · intro other
      constructor
      · rintro ⟨pair, hPair, hKey⟩
        rcases List.mem_append.mp hPair with h | h
        · exact Or.inr ⟨pair, h, hKey⟩
        · simp only [List.mem_singleton] at h
          rw [h] at hKey
          exact Or.inl hKey.symm
      · rintro (h | ⟨pair, hPair, hKey⟩)
        · exact ⟨(key, false), List.mem_append_right _ (List.mem_singleton.mpr rfl), h.symm⟩
        · exact ⟨pair, List.mem_append_left _ hPair, hKey⟩

/-- The map of a fresh checker holds the cosigners of the aggregate, none of
them eligible. -/
theorem create_spec (notification : AggregateCosignaturesNotification) :
    (∀ pair ∈ create notification, pair.2 = false)
      ∧ ∀ key, (∃ pair ∈ create notification, pair.1 = key) ↔ key ∈ Cosigners notification := by
  unfold create Cosigners
  have hStart := mem_emplace_false [] notification.Signer (by simp)
  generalize KeyPointerFlagMap.emplace [] notification.Signer false = start at hStart
  have hGeneral : ∀ (cosignatures : List Cosignature) (map : List (Nat × Bool)),
      (∀ pair ∈ map, pair.2 = false) →
      (∀ pair ∈ cosignatures.foldl
          (fun cosigners cosignature =>
            KeyPointerFlagMap.emplace cosigners cosignature.Signer false) map, pair.2 = false)
        ∧ ∀ key, (∃ pair ∈ cosignatures.foldl
            (fun cosigners cosignature =>
              KeyPointerFlagMap.emplace cosigners cosignature.Signer false) map, pair.1 = key)
          ↔ ((∃ pair ∈ map, pair.1 = key) ∨ key ∈ cosignatures.map Cosignature.Signer) := by
    intro cosignatures
    induction cosignatures with
    | nil => intro map hFlags; simpa using hFlags
    | cons cosignature cosignatures ih =>
      intro map hFlags
      have hStep := mem_emplace_false map cosignature.Signer hFlags
      obtain ⟨hFlags', hKeys'⟩ := ih _ hStep.1
      refine ⟨hFlags', ?_⟩
      intro key
      rw [List.foldl_cons, hKeys' key, hStep.2 key, List.map_cons, List.mem_cons]
      constructor
      · rintro ((h | h) | h)
        · exact Or.inr (Or.inl h)
        · exact Or.inl h
        · exact Or.inr (Or.inr h)
      · rintro (h | h | h)
        · exact Or.inl (Or.inr h)
        · exact Or.inl (Or.inl h)
        · exact Or.inr h
  obtain ⟨hFlags, hKeys⟩ := hGeneral notification.Cosignatures start hStart.1
  refine ⟨hFlags, ?_⟩
  intro key
  rw [hKeys key, hStart.2 key, List.mem_cons]
  simp

end AggregateCosignaturesChecker

end validators

end catapult
namespace catapult

namespace validators

/-- The keys a multisig account with cosignatories expands to are the keys its
cosignatories expand to. -/
theorem ExpandsTo_of_cosignatories (m_multisigCache : List (Nat × List Nat)) (publicKey : Nat)
    (cosignatories : List Nat)
    (hFind : MultisigCache.find m_multisigCache publicKey = some cosignatories)
    (hNotEmpty : cosignatories ≠ []) (key : Nat) :
    ExpandsTo m_multisigCache publicKey key
      ↔ ∃ cosignatoryPublicKey ∈ cosignatories,
          ExpandsTo m_multisigCache cosignatoryPublicKey key := by
  constructor
  · intro hExpands
    cases hExpands with
    | self _ hLeaf =>
      rcases hLeaf with h | h
      · rw [hFind] at h
        simp at h
      · rw [hFind] at h
        exact absurd (Option.some.inj h) hNotEmpty
    | cosignatory _ found cosignatoryPublicKey _ hFound hMem hRest =>
      rw [hFind] at hFound
      rw [Option.some.inj hFound]
      exact ⟨cosignatoryPublicKey, hMem, hRest⟩
  · rintro ⟨cosignatoryPublicKey, hMem, hRest⟩
    exact ExpandsTo.cosignatory publicKey cosignatories cosignatoryPublicKey key hFind hMem hRest

/-- An account that is unknown or has no cosignatories expands to itself only. -/
theorem ExpandsTo_of_leaf (m_multisigCache : List (Nat × List Nat)) (publicKey : Nat)
    (hLeaf : MultisigCache.find m_multisigCache publicKey = none
      ∨ MultisigCache.find m_multisigCache publicKey = some []) (key : Nat) :
    ExpandsTo m_multisigCache publicKey key ↔ key = publicKey := by
  constructor
  · intro hExpands
    cases hExpands with
    | self _ _ => rfl
    | cosignatory _ found cosignatoryPublicKey _ hFound hMem hRest =>
      rcases hLeaf with h | h
      · rw [h] at hFound
        simp at hFound
      · rw [h] at hFound
        rw [← Option.some.inj hFound] at hMem
        simp at hMem
  · intro hKey
    rw [hKey]
    exact ExpandsTo.self publicKey hLeaf

namespace AggregateCosignaturesChecker

/-- A loop that calls a marking step for every element of a list marks the
keys marked for the elements. -/
theorem foldlM_marks {α : Type} (step : List (Nat × Bool) → α → Option (List (Nat × Bool)))
    (reached : α → Nat → Prop) (elements : List α)
    (hStep : ∀ element ∈ elements, ∀ cosigners found, step cosigners element = some found →
      ∃ keys, found = markAll keys cosigners ∧ ∀ key, key ∈ keys ↔ reached element key)
    (m_cosigners found : List (Nat × Bool))
    (hFound : elements.foldlM step m_cosigners = some found) :
    ∃ keys, found = markAll keys m_cosigners
      ∧ ∀ key, key ∈ keys ↔ ∃ element ∈ elements, reached element key := by
  induction elements generalizing m_cosigners with
  | nil =>
    simp only [List.foldlM_nil] at hFound
    have hEq : m_cosigners = found := Option.some.inj hFound
    refine ⟨[], ?_, ?_⟩
    · rw [markAll_nil, hEq]
    · simp
  | cons element elements ih =>
    rw [List.foldlM_cons] at hFound
    cases hFirst : step m_cosigners element with
    | none =>
      rw [hFirst] at hFound
      simp at hFound
    | some middle =>
      rw [hFirst] at hFound
      obtain ⟨firstKeys, hMiddle, hFirstKeys⟩ :=
        hStep element (List.mem_cons_self _ _) m_cosigners middle hFirst
      obtain ⟨restKeys, hRest, hRestKeys⟩ :=
        ih (fun other hOther => hStep other (List.mem_cons_of_mem _ hOther)) middle hFound
      refine ⟨firstKeys ++ restKeys, ?_, ?_⟩
      · rw [hRest, hMiddle, markAll_markAll]
      · intro key
        rw [List.mem_append, hFirstKeys, hRestKeys]
        constructor
        · rintro (h | ⟨other, hOther, h⟩)
          · exact ⟨element, List.mem_cons_self _ _, h⟩
          · exact ⟨other, List.mem_cons_of_mem _ hOther, h⟩
        · rintro ⟨other, hOther, h⟩
          rcases List.mem_cons.mp hOther with hEq | hTail
          · rw [hEq] at h
            exact Or.inl h
          · exact Or.inr ⟨other, hTail, h⟩

/-- A loop whose step returns for every element of the list returns. -/
theorem foldlM_returns {α : Type} (step : List (Nat × Bool) → α → Option (List (Nat × Bool)))
    (elements : List α)
    (hStep : ∀ element ∈ elements, ∀ cosigners, ∃ found, step cosigners element = some found)
    (m_cosigners : List (Nat × Bool)) :
    ∃ found, elements.foldlM step m_cosigners = some found := by
  induction elements generalizing m_cosigners with
  | nil => exact ⟨m_cosigners, rfl⟩
  | cons element elements ih =>
    obtain ⟨middle, hMiddle⟩ := hStep element (List.mem_cons_self _ _) m_cosigners
    obtain ⟨found, hFound⟩ :=
      ih (fun other hOther => hStep other (List.mem_cons_of_mem _ hOther)) middle
    refine ⟨found, ?_⟩
    rw [List.foldlM_cons, hMiddle]
    exact hFound

/-- When findEligibleCosigners returns, it has marked the keys the public key
expands to. -/
theorem findEligibleCosigners_marks (m_multisigCache : List (Nat × List Nat)) (depth : Nat) :
    ∀ (publicKey : Nat) (m_cosigners found : List (Nat × Bool)),
      findEligibleCosigners m_multisigCache depth publicKey m_cosigners = some found →
      ∃ keys, found = markAll keys m_cosigners
        ∧ ∀ key, key ∈ keys ↔ ExpandsTo m_multisigCache publicKey key := by
  induction depth with
  | zero =>
    intro publicKey m_cosigners found hFound
    simp [findEligibleCosigners] at hFound
  | succ depth ih =>
    intro publicKey m_cosigners found hFound
    unfold findEligibleCosigners at hFound
    cases hFind : MultisigCache.find m_multisigCache publicKey with
    | none =>
      rw [hFind] at hFound
      refine ⟨[publicKey], ?_, ?_⟩
      · rw [← Option.some.inj hFound, markEligible_eq_markAll]
      · intro key
        rw [ExpandsTo_of_leaf m_multisigCache publicKey (Or.inl hFind) key, List.mem_singleton]
    | some cosignatories =>
      rw [hFind] at hFound
      simp only at hFound
      by_cases hEmpty : cosignatories = []
      · subst hEmpty
        simp only [List.isEmpty_nil, if_true] at hFound
        refine ⟨[publicKey], ?_, ?_⟩
        · rw [← Option.some.inj hFound, markEligible_eq_markAll]
        · intro key
          rw [ExpandsTo_of_leaf m_multisigCache publicKey (Or.inr hFind) key, List.mem_singleton]
      · have hNotEmpty : cosignatories.isEmpty = false := by
          cases cosignatories with
          | nil => exact absurd rfl hEmpty
          | cons _ _ => rfl
        simp only [hNotEmpty, Bool.false_eq_true, if_false] at hFound
        obtain ⟨keys, hKeys, hReached⟩ := foldlM_marks
          (fun cosigners cosignatoryPublicKey =>
            findEligibleCosigners m_multisigCache depth cosignatoryPublicKey cosigners)
          (fun cosignatoryPublicKey key => ExpandsTo m_multisigCache cosignatoryPublicKey key)
          cosignatories
          (fun cosignatoryPublicKey _ cosigners middle hMiddle =>
            ih cosignatoryPublicKey cosigners middle hMiddle)
          m_cosigners found hFound
        refine ⟨keys, hKeys, ?_⟩
        intro key
        rw [hReached key,
          ExpandsTo_of_cosignatories m_multisigCache publicKey cosignatories hFind hEmpty key]

/-- In a multisig cache whose cosignatories have a smaller rank than their
account, findEligibleCosigners returns when the depth exceeds the rank of the
public key. -/
theorem findEligibleCosigners_returns (m_multisigCache : List (Nat × List Nat))
    (rank : Nat → Nat)
    (hRank : ∀ entry ∈ m_multisigCache, ∀ cosignatoryPublicKey ∈ entry.2,
      rank cosignatoryPublicKey < rank entry.1)
    (depth : Nat) :
    ∀ (publicKey : Nat) (m_cosigners : List (Nat × Bool)), rank publicKey < depth →
      ∃ found, findEligibleCosigners m_multisigCache depth publicKey m_cosigners = some found := by
  induction depth with
  | zero =>
    intro publicKey m_cosigners hDepth
    exact absurd hDepth (Nat.not_lt_zero _)
  | succ depth ih =>
    intro publicKey m_cosigners hDepth
    unfold findEligibleCosigners
    cases hFind : MultisigCache.find m_multisigCache publicKey with
    | none => exact ⟨_, rfl⟩
    | some cosignatories =>
      simp only
      split_ifs
      · exact ⟨_, rfl⟩
      · apply foldlM_returns
        intro cosignatoryPublicKey hMem cosigners
        apply ih
        have := hRank (publicKey, cosignatories)
          (MultisigCache.mem_of_find_some m_multisigCache publicKey cosignatories hFind)
          cosignatoryPublicKey hMem
        simp only at this
        omega

end AggregateCosignaturesChecker

end validators

end catapult
namespace catapult

namespace validators

open AggregateCosignaturesChecker

/-- Whenever the validator returns, it returns Success exactly when every
cosigner of the aggregate is in the eligible set, and the failure otherwise. -/
theorem validator_result_of_returns
    (m_multisigCache : List (Nat × List Nat)) (notification : AggregateCosignaturesNotification)
    (depth : Nat) (result : ValidationResult)
    (hResult : MultisigAggregateEligibleCosignersValidator depth notification m_multisigCache
      = some result) :
    (result = ValidationResult.Success
        ↔ ∀ key ∈ Cosigners notification, IsEligibleCosigner m_multisigCache notification key)
      ∧ (result = ValidationResult.Failure_Multisig_Ineligible_Cosigners
        ↔ ¬ ∀ key ∈ Cosigners notification,
            IsEligibleCosigner m_multisigCache notification key) := by
  have hStepMarks : ∀ transaction ∈ notification.Transactions, ∀ cosigners found,
      (match findEligibleCosigners m_multisigCache depth transaction.Signer cosigners with
        | none => none
        | some found =>
          if EntityType.Modify_Multisig_Account = transaction.EntityType then
            some (findEligibleCosignersOfModification transaction found)
          else some found) = some found →
      ∃ keys, found = markAll keys cosigners
        ∧ ∀ key, key ∈ keys ↔
          (ExpandsTo m_multisigCache transaction.Signer key
            ∨ (transaction.EntityType = EntityType.Modify_Multisig_Account
              ∧ ∃ modification ∈ transaction.Modifications,
                modification.ModificationType = CosignatoryModificationType.Add
                  ∧ modification.CosignatoryPublicKey = key)) := by
    intro transaction _ cosigners found hFound
    cases hMiddle : findEligibleCosigners m_multisigCache depth transaction.Signer cosigners with
    | none =>
      rw [hMiddle] at hFound
      simp at hFound
    | some middle =>
      rw [hMiddle] at hFound
      simp only at hFound
      obtain ⟨keys, hKeys, hReached⟩ := findEligibleCosigners_marks m_multisigCache depth
        transaction.Signer cosigners middle hMiddle
      by_cases hType : EntityType.Modify_Multisig_Account = transaction.EntityType
      · rw [if_pos hType] at hFound
        refine ⟨keys ++ addedCosignatories transaction, ?_, ?_⟩
        · rw [← Option.some.inj hFound, findEligibleCosignersOfModification_eq, hKeys,
            markAll_markAll]
        · intro key
          rw [List.mem_append, hReached key, mem_addedCosignatories]
          simp only [hType.symm, true_and]
      · rw [if_neg hType] at hFound
        refine ⟨keys, ?_, ?_⟩
        · rw [← Option.some.inj hFound, hKeys]
        · intro key
          rw [hReached key]
          have hType' : ¬ transaction.EntityType = EntityType.Modify_Multisig_Account :=
            fun h => hType h.symm
          simp only [hType', false_and, or_false]
  unfold MultisigAggregateEligibleCosignersValidator hasIneligibleCosigners at hResult
  cases hFinal : notification.Transactions.foldlM
      (fun cosigners transaction =>
        match findEligibleCosigners m_multisigCache depth transaction.Signer cosigners with
        | none => none
        | some found =>
          if EntityType.Modify_Multisig_Account = transaction.EntityType then
            some (findEligibleCosignersOfModification transaction found)
          else some found)
      (create notification) with
  | none =>
    rw [hFinal] at hResult
    simp at hResult
  | some final =>
    rw [hFinal] at hResult
    simp only [Option.some.injEq] at hResult
    obtain ⟨keys, hKeys, hReached⟩ := foldlM_marks _
      (fun transaction key =>
        ExpandsTo m_multisigCache transaction.Signer key
          ∨ (transaction.EntityType = EntityType.Modify_Multisig_Account
            ∧ ∃ modification ∈ transaction.Modifications,
              modification.ModificationType = CosignatoryModificationType.Add
                ∧ modification.CosignatoryPublicKey = key))
      notification.Transactions hStepMarks (create notification) final hFinal
    have hEligible : ∀ key, key ∈ keys ↔ IsEligibleCosigner m_multisigCache notification key :=
      hReached
    obtain ⟨hFlags, hCosigners⟩ := create_spec notification
    have hAll : final.any (fun pair => !pair.2) = false
        ↔ ∀ key ∈ Cosigners notification, IsEligibleCosigner m_multisigCache notification key := by
      rw [hKeys, any_not_markAll]
      constructor
      · intro h key hKey
        obtain ⟨pair, hPair, hFirst⟩ := (hCosigners key).mpr hKey
        rcases h pair hPair with hFlag | hIn
        · rw [hFlags pair hPair] at hFlag
          exact absurd hFlag (by decide)
        · rw [hFirst] at hIn
          exact (hEligible key).mp hIn
      · intro h pair hPair
        right
        exact (hEligible pair.1).mpr (h pair.1 ((hCosigners pair.1).mp ⟨pair, hPair, rfl⟩))
    rw [← hResult, ← hAll]
    cases final.any (fun pair => !pair.2) <;> simp

/-- In a multisig cache whose cosignatories have a smaller rank than their
account the validator returns when the depth exceeds the ranks of the embedded
signers. -/
theorem validator_returns
    (m_multisigCache : List (Nat × List Nat)) (notification : AggregateCosignaturesNotification)
    (rank : Nat → Nat) (depth : Nat)
    (hRank : ∀ entry ∈ m_multisigCache, ∀ cosignatoryPublicKey ∈ entry.2,
      rank cosignatoryPublicKey < rank entry.1)
    (hDepth : ∀ transaction ∈ notification.Transactions, rank transaction.Signer < depth) :
    ∃ result,
      MultisigAggregateEligibleCosignersValidator depth notification m_multisigCache
        = some result := by
  have hStepReturns : ∀ transaction ∈ notification.Transactions, ∀ cosigners,
      ∃ found,
        (match findEligibleCosigners m_multisigCache depth transaction.Signer cosigners with
          | none => none
          | some found =>
            if EntityType.Modify_Multisig_Account = transaction.EntityType then
              some (findEligibleCosignersOfModification transaction found)
            else some found) = some found := by
    intro transaction hMem cosigners
    obtain ⟨middle, hMiddle⟩ := findEligibleCosigners_returns m_multisigCache rank hRank depth
      transaction.Signer cosigners (hDepth transaction hMem)
    rw [hMiddle]
    simp only
    split_ifs
    · exact ⟨_, rfl⟩
    · exact ⟨_, rfl⟩
  obtain ⟨final, hFinal⟩ := foldlM_returns _ notification.Transactions hStepReturns
    (create notification)
  unfold MultisigAggregateEligibleCosignersValidator hasIneligibleCosigners
  rw [hFinal]
  exact ⟨_, rfl⟩

/-- In the multisig cache with the cycle the expansion of the accounts 1 and 2
is never done, whatever the depth. -/
theorem findEligibleCosigners_of_cycle (depth : Nat) :
    ∀ m_cosigners : List (Nat × Bool),
      AggregateCosignaturesChecker.findEligibleCosigners test.CyclicCache depth 1 m_cosigners
          = none
        ∧ AggregateCosignaturesChecker.findEligibleCosigners test.CyclicCache depth 2 m_cosigners
          = none := by
  induction depth with
  | zero =>
    intro m_cosigners
    exact ⟨rfl, rfl⟩
  | succ depth ih =>
    intro m_cosigners
    refine ⟨?_, ?_⟩
    · have hFind : MultisigCache.find test.CyclicCache 1 = some [2] := by decide
      unfold AggregateCosignaturesChecker.findEligibleCosigners
      rw [hFind]
      simp only [List.isEmpty_cons, Bool.false_eq_true, if_false, List.foldlM_cons,
        (ih m_cosigners).2]
      rfl
    · have hFind : MultisigCache.find test.CyclicCache 2 = some [1] := by decide
      unfold AggregateCosignaturesChecker.findEligibleCosigners
      rw [hFind]
      simp only [List.isEmpty_cons, Bool.false_eq_true, if_false, List.foldlM_cons,
        (ih m_cosigners).1]
      rfl

/-- In the multisig cache with the cycle the accounts 1 and 2 expand to no key. -/
theorem not_ExpandsTo_of_cycle (publicKey key : Nat)
    (hExpands : ExpandsTo test.CyclicCache publicKey key) : publicKey ≠ 1 ∧ publicKey ≠ 2 := by
  induction hExpands with
  | self publicKey hLeaf =>
    refine ⟨?_, ?_⟩
    · intro h
      rw [h] at hLeaf
      revert hLeaf
      decide
    · intro h
      rw [h] at hLeaf
      revert hLeaf
      decide
  | cosignatory publicKey cosignatories cosignatoryPublicKey key hFind hMem _ ih =>
    refine ⟨?_, ?_⟩
    · intro h
      rw [h] at hFind
      have hCosignatories : cosignatories = [2] := by
        have hCache : MultisigCache.find test.CyclicCache 1 = some [2] := by decide
        rw [hCache] at hFind
        exact (Option.some.inj hFind).symm
      rw [hCosignatories, List.mem_singleton] at hMem
      exact ih.2 hMem
    · intro h
      rw [h] at hFind
      have hCosignatories : cosignatories = [1] := by
        have hCache : MultisigCache.find test.CyclicCache 2 = some [1] := by decide
        rw [hCache] at hFind
        exact (Option.some.inj hFind).symm
      rw [hCosignatories, List.mem_singleton] at hMem
      exact ih.1 hMem

/-- C34, counterexample: in the multisig cache where account 1 has the
cosignatory 2 and account 2 the cosignatory 1, for the aggregate signed by
account 3 that embeds a transaction of account 1, the eligible set of the claim
does not hold the signer 3, so the claim says
Failure_Multisig_Ineligible_Cosigners; yet the validator returns no result,
whatever depth the recursion is given. -/
theorem validator_does_not_return_on_a_cosignatory_cycle :
    (¬ ∀ key ∈ Cosigners test.CyclicNotification,
        IsEligibleCosigner test.CyclicCache test.CyclicNotification key)
      ∧ ∀ depth,
          MultisigAggregateEligibleCosignersValidator depth test.CyclicNotification
            test.CyclicCache = none := by
  refine ⟨?_, ?_⟩
  · intro hAll
    obtain ⟨transaction, hMem, hEligible⟩ := hAll 3 (by decide)
    have hTransaction : transaction
        = { Signer := 1, EntityType := EntityType.Other 0, Modifications := [] } := by
      simpa [test.CyclicNotification] using hMem
    rw [hTransaction] at hEligible
    rcases hEligible with hExpands | ⟨hType, _⟩
    · exact (not_ExpandsTo_of_cycle 1 3 hExpands).1 rfl
    · exact absurd hType (by decide)
  · intro depth
    unfold MultisigAggregateEligibleCosignersValidator
      AggregateCosignaturesChecker.hasIneligibleCosigners
    simp only [test.CyclicNotification, List.foldlM_cons,
      (findEligibleCosigners_of_cycle depth _).1]
    rfl

/-- C34, amended: on every multisig cache without a cosignatory cycle (every
cosignatory has a smaller rank than its account), the multisig eligible
cosigners validator returns, given a depth above the ranks of the embedded
signers, and it returns Success if and only if the aggregate signer and every
cosignature signer belong to the eligible set, and
Failure_Multisig_Ineligible_Cosigners otherwise, where the eligible set is: for
each embedded transaction signer, the signer itself when it is unknown to the
multisig cache or has no cosignatories, otherwise the keys obtained by
recursively expanding its cosignatories (the multisig account itself is then
not eligible), plus every cosignatory that an embedded multisig account
modification adds; cosignatories that it deletes gain no eligibility. -/
theorem validator_succeeds_iff_all_cosigners_are_eligible
    (m_multisigCache : List (Nat × List Nat)) (notification : AggregateCosignaturesNotification)
    (rank : Nat → Nat) (depth : Nat)
    (hRank : ∀ entry ∈ m_multisigCache, ∀ cosignatoryPublicKey ∈ entry.2,
      rank cosignatoryPublicKey < rank entry.1)
    (hDepth : ∀ transaction ∈ notification.Transactions, rank transaction.Signer < depth) :
    ∃ result,
      MultisigAggregateEligibleCosignersValidator depth notification m_multisigCache = some result
      ∧ (result = ValidationResult.Success
          ↔ ∀ key ∈ Cosigners notification, IsEligibleCosigner m_multisigCache notification key)
      ∧ (result = ValidationResult.Failure_Multisig_Ineligible_Cosigners
          ↔ ¬ ∀ key ∈ Cosigners notification,
              IsEligibleCosigner m_multisigCache notification key) := by
  obtain ⟨result, hResult⟩ :=
    validator_returns m_multisigCache notification rank depth hRank hDepth
  exact ⟨result, hResult,
    validator_result_of_returns m_multisigCache notification depth result hResult⟩

/-- Witness of C34, amended: in the two level multisig cache (account 1 with
cosignatories 2 and 3, account 3 with cosignatories 4 and 5), which has no
cycle, an aggregate of account 4 with a cosignature of account 2 that embeds a
transaction of account 1 returns at depth 3, and it succeeds; with a
cosignature of the multisig account 1 itself it fails; a cosignatory that an
embedded modification adds is eligible and one that it deletes is not. -/
theorem validator_succeeds_iff_all_cosigners_are_eligible_witness :
    (∀ entry ∈ test.MultilevelCache, ∀ cosignatoryPublicKey ∈ entry.2,
      test.MultilevelRank cosignatoryPublicKey < test.MultilevelRank entry.1)
    ∧ (∀ transaction ∈ test.MultilevelNotification.Transactions,
      test.MultilevelRank transaction.Signer < 3)
    ∧ (∃ result,
      MultisigAggregateEligibleCosignersValidator 3 test.MultilevelNotification
        test.MultilevelCache = some result
      ∧ (result = ValidationResult.Success
          ↔ ∀ key ∈ Cosigners test.MultilevelNotification,
              IsEligibleCosigner test.MultilevelCache test.MultilevelNotification key)
      ∧ (result = ValidationResult.Failure_Multisig_Ineligible_Cosigners
          ↔ ¬ ∀ key ∈ Cosigners test.MultilevelNotification,
              IsEligibleCosigner test.MultilevelCache test.MultilevelNotification key))
    ∧ MultisigAggregateEligibleCosignersValidator 3 test.MultilevelNotification
        test.MultilevelCache = some ValidationResult.Success
    ∧ MultisigAggregateEligibleCosignersValidator 3
        { test.MultilevelNotification with Cosignatures := [{ Signer := 1 }] }
        test.MultilevelCache = some ValidationResult.Failure_Multisig_Ineligible_Cosigners
    ∧ MultisigAggregateEligibleCosignersValidator 1 (test.ModificationNotification 7) []
        = some ValidationResult.Success
    ∧ MultisigAggregateEligibleCosignersValidator 1 (test.ModificationNotification 8) []
        = some ValidationResult.Failure_Multisig_Ineligible_Cosigners :=
  ⟨by decide, by decide,
    validator_succeeds_iff_all_cosigners_are_eligible test.MultilevelCache
      test.MultilevelNotification test.MultilevelRank 3 (by decide) (by decide),
    by decide, by decide, by decide, by decide⟩

end validators

end catapult

/-! ## Notification publisher: block notifications in order -/

namespace catapult

namespace model

/-- C31: for every block published in Basic (or All) mode the publisher emits,
in this order, SourceChange, AccountPublicKey of the harvester, AccountPublicKey
of the beneficiary only when the beneficiary differs from the harvester, Entity,
Block, Signature: exactly 6 notifications when harvester and beneficiary differ
and exactly 5 when they are equal; in Custom mode it emits none. -/
theorem block_notifications_in_order (Current_Version : Nat) (block : Block) :
    PublishBlock Current_Version PublicationMode.All block []
        = PublishBlock Current_Version PublicationMode.Basic block []
      ∧ (PublishBlock Current_Version PublicationMode.Basic block []).map
          Notification.Notification_Type
        = (if block.SignerPublicKey = block.BeneficiaryPublicKey then
            [NotificationType.Core_Source_Change_Notification,
              NotificationType.Core_Register_Account_Public_Key_Notification,
              NotificationType.Core_Entity_Notification,
              NotificationType.Core_Block_Notification,
              NotificationType.Core_Signature_Notification]
          else
            [NotificationType.Core_Source_Change_Notification,
              NotificationType.Core_Register_Account_Public_Key_Notification,
              NotificationType.Core_Register_Account_Public_Key_Notification,
              NotificationType.Core_Entity_Notification,
              NotificationType.Core_Block_Notification,
              NotificationType.Core_Signature_Notification])
      ∧ (PublishBlock Current_Version PublicationMode.Basic block []).filterMap
          Notification.publicKey?
        = (if block.SignerPublicKey = block.BeneficiaryPublicKey then [block.SignerPublicKey]
          else [block.SignerPublicKey, block.BeneficiaryPublicKey])
      ∧ (PublishBlock Current_Version PublicationMode.Basic block []).length
        = (if block.SignerPublicKey = block.BeneficiaryPublicKey then 5 else 6)
      ∧ PublishBlock Current_Version PublicationMode.Custom block [] = [] := by
  refine ⟨rfl, ?_, ?_, ?_, rfl⟩
  · unfold PublishBlock PublishBasicBlockNotifications
    by_cases hSame : block.SignerPublicKey = block.BeneficiaryPublicKey
    · simp [hSame, Notification.Notification_Type]
    · simp [hSame, Notification.Notification_Type]
  · unfold PublishBlock PublishBasicBlockNotifications
    by_cases hSame : block.SignerPublicKey = block.BeneficiaryPublicKey
    · simp [hSame, Notification.publicKey?]
    · simp [hSame, Notification.publicKey?]
  · unfold PublishBlock PublishBasicBlockNotifications
    by_cases hSame : block.SignerPublicKey = block.BeneficiaryPublicKey
    · simp [hSame]
    · simp [hSame]

/-- The block of the test with transactions of sizes 211, 225 and 217 and fee
multiplier 3, harvested by key 1 for beneficiary 2, raises six notifications,
the block notification with total fee 3 * 653 and 3 transactions; with the
harvester as beneficiary it raises five. -/
theorem block_notifications_of_test_block :
    PublishBlock 1 PublicationMode.Basic (test.BlockWithTransactions 2) []
        = [Notification.SourceChange SourceChangeType.Absolute 0 SourceChangeType.Absolute 0,
          Notification.AccountPublicKey 1,
          Notification.AccountPublicKey 2,
          Notification.Entity 17 90 1 1,
          Notification.Block 1 2 432 575 3 (3 * 653) 3,
          Notification.Signature 1 77]
      ∧ (PublishBlock 1 PublicationMode.Basic (test.BlockWithTransactions 1) []).length = 5 := by
  decide

end model

end catapult

/-! ## Resolvable: theorems -/

namespace catapult

namespace model

namespace Resolvable

/-- C32: for every resolved value r and every resolver context, the resolvable
constructed from r reports isResolved() = true, resolved(context) returns r
whatever the context is, and unresolved() returns the canonical injection of r
into the unresolved type; for a mosaic id the injection is the cast. -/
theorem resolvable_of_resolved {TUnresolved TResolved : Type} [Inhabited TUnresolved]
    (Unresolve : TResolved → TUnresolved) (resolvers : TUnresolved → TResolved)
    (resolvedValue : TResolved) :
    (ofResolved resolvedValue : Resolvable TUnresolved TResolved).isResolved = true
      ∧ (ofResolved resolvedValue : Resolvable TUnresolved TResolved).resolved resolvers
        = resolvedValue
      ∧ (ofResolved resolvedValue : Resolvable TUnresolved TResolved).unresolved Unresolve
        = Unresolve resolvedValue
      ∧ (ofResolved 1234 : Resolvable Nat Nat).resolved test.CreateResolverContextXor = 1234
      ∧ (ofResolved 1234 : Resolvable Nat Nat).unresolved test.CastToUnresolvedMosaicId = 1234 :=
  ⟨rfl, rfl, rfl, rfl, rfl⟩

/-- C33: for every unresolved value u and resolver context, the resolvable
constructed from u reports isResolved() = false, unresolved() returns u, and
resolved(context) returns the resolution of u by the context; with the XOR test
context, for every resolved r, Resolvable(UnresolveXor(r)).resolved(context)
= r. -/
theorem resolvable_of_unresolved {TUnresolved TResolved : Type} [Inhabited TResolved]
    (Unresolve : TResolved → TUnresolved) (resolvers : TUnresolved → TResolved)
    (unresolvedValue : TUnresolved) (resolvedValue : Nat) :
    (ofUnresolved unresolvedValue : Resolvable TUnresolved TResolved).isResolved = false
      ∧ (ofUnresolved unresolvedValue : Resolvable TUnresolved TResolved).unresolved Unresolve
        = unresolvedValue
      ∧ (ofUnresolved unresolvedValue : Resolvable TUnresolved TResolved).resolved resolvers
        = resolvers unresolvedValue
      ∧ (ofUnresolved (test.UnresolveXor resolvedValue) : Resolvable Nat Nat).resolved
          test.CreateResolverContextXor = resolvedValue
      ∧ (ofUnresolved (test.UnresolveXor resolvedValue) : Resolvable Nat Nat).unresolved
          test.CastToUnresolvedMosaicId = test.UnresolveXor resolvedValue := by
  refine ⟨rfl, rfl, rfl, ?_, rfl⟩
  show test.CreateResolverContextXor (test.UnresolveXor resolvedValue) = resolvedValue
  unfold test.CreateResolverContextXor test.UnresolveXor
  exact Nat.xor_cancel_right _ _

end Resolvable

end model

end catapult

namespace catapult

namespace cache

open state

namespace ImportanceView

/-- Witness of C36: in the cache where the remote account at address 2 links to
an account that is a remote account too and links back, the forwarding from the
remote account fails with the corrupted link error at its first step. -/
theorem forwarding_terminates_within_one_link_witness :
    test.RemoteAccountState.AccountType = AccountType.Remote
    ∧ test.RemoteMainCache.findByPublicKey (GetLinkedPublicKey test.RemoteAccountState)
        = some { test.LinkedMainAccountState 1000 with AccountType := AccountType.Remote }
    ∧ ForwardIfAccountHasImportanceAtHeight test.ConvertToImportanceHeight (0 + 1)
        test.RemoteAccountState test.RemoteMainCache 600
        (fun found (_ : Nat) => (true, found.ImportanceSnapshots.current)) 7
      = Except.error ImportanceViewError.CorruptedLink
    ∧ tryGetAccountImportance test.ConvertToImportanceHeight test.RemoteMainCache 2 600 7
      ≠ Except.error ImportanceViewError.ForwardingLimit :=
  ⟨by decide, by decide,
    (forwarding_terminates_within_one_link test.ConvertToImportanceHeight test.RemoteMainCache
      2 600 7 0 test.RemoteAccountState).2.2.2.1
        { test.LinkedMainAccountState 1000 with AccountType := AccountType.Remote }
        (by decide) (by decide) (by decide),
    (forwarding_terminates_within_one_link test.ConvertToImportanceHeight test.RemoteMainCache
      2 600 7 0 test.RemoteAccountState).1⟩

end ImportanceView

end cache

end catapult

/-! ## High value account observer: the two tests on one delta -/

namespace catapult

namespace observers

open cache

end observers

end catapult
